import Mathlib

/-!
gogm-example: the query builder, pagination, decorator configs and the relation registry

A shallow embedding of the parts of `go-cypherdsl` (`cypher.go`) and `gogm`
(`pagination.go`, `decorator.go`, `util.go`) that the specification talks about,
followed by the theorems that settle the specification's claims on that code.

Conventions of the embedding:
* a Go `string` is a Lean `String`; a Go `error` value is represented by what the code
  can observe of it (its message, or a constructor naming the error type);
* a Go pointer into the builder's linked list is an address (`Nat`) into an explicit heap,
  `none` is `nil`;
* a function that can dereference `nil` or loop forever returns an `Option`, `none`
  standing for "does not return normally".
-/

set_option autoImplicit false

namespace Gogm

/-! ## Go standard library helpers -/

/-- Go `strings.HasSuffix`. -/
def HasSuffix (s suffix : String) : Bool :=
  suffix.data.isSuffixOf s.data

/-- Go `strings.TrimSuffix`: `s` without the trailing `suffix` when it has it, else `s`. -/
def TrimSuffix (s suffix : String) : String :=
  if HasSuffix s suffix then ⟨s.data.take (s.data.length - suffix.data.length)⟩ else s

/-- Go `fmt.Sprintf("%v", n)` for an `int`. -/
def sprintInt (n : Int) : String := toString n

/-- The pieces of a character list between the occurrences of `sep`. -/
def splitChars (sep : Char) : List Char → List (List Char)
  | [] => [[]]
  | c :: cs =>
    if c = sep then [] :: splitChars sep cs
    else
      match splitChars sep cs with
      | [] => [[c]]
      | part :: parts => (c :: part) :: parts

/-- Go `strings.Split(s, sep)` for a separator of one character (the code splits on
`";"`, `"="` and `"-"` only). -/
def Split (s : String) (sep : Char) : List String :=
  (splitChars sep s.data).map String.mk

/-- Go `strings.Contains(s, sep)` for a `sep` of one character. -/
def Contains (s : String) (sep : Char) : Bool :=
  s.data.contains sep

/-- Go `strings.ToLower`: an ASCII letter is lowered by the ASCII rule, another rune by
`unicode.ToLower`, here `lowerRune`. -/
def ToLower (lowerRune : Char → Char) (s : String) : String :=
  ⟨s.data.map (fun c => if c.toNat < 128 then c.toLower else lowerRune c)⟩

/-- Looks a key up in a Go map given as the list of its entries. -/
def mapGet {α : Type} (m : List (String × α)) (k : String) : Option α :=
  match m with
  | [] => none
  | (k1, v) :: rest => if k1 = k then some v else mapGet rest k

/-- Go `m[k] = v` on a map given as the list of its entries: the entry of `k` is replaced
where it is, a new key comes last. -/
def mapSet {α : Type} (m : List (String × α)) (k : String) (v : α) : List (String × α) :=
  match m with
  | [] => [(k, v)]
  | (k1, v1) :: rest => if k1 = k then (k, v) :: rest else (k1, v1) :: mapSet rest k v

/-! ## go-cypherdsl: `QueryBuilder` (cypher.go) -/

/-- The `queryPartNode` struct: a clause text and the address of the next node. -/
structure queryPartNode where
  Part : String
  Next : Option Nat
  deriving DecidableEq

/-- A handle on a driver connection (`*neo.BoltConn`); the driver is external. -/
structure BoltConn where
  id : Nat
  deriving DecidableEq

/-- The `stmt` struct, with the parameter map kept abstract as an identifier. -/
structure stmt where
  Query : String
  Params : Nat
  deriving DecidableEq

/-- The `QueryBuilder` struct. `heap` holds every `queryPartNode` allocated by this
builder, a node's address being its index; `errors` holds the messages of the recorded
errors (a nil slice is the empty list). -/
structure QueryBuilder where
  heap : List queryPartNode
  Start : Option Nat
  Current : Option Nat
  errors : List String
  preparedStatements : List stmt
  conn : Option BoltConn
  deriving DecidableEq

/-- Go `QB()`. -/
def QB : QueryBuilder :=
  { heap := [], Start := none, Current := none, errors := [], preparedStatements := [],
    conn := none }

namespace QueryBuilder

/-- Go `addNext`: allocates a node and links it after `Current`. `none` is the nil
dereference of `q.Current.Next = node` when `Start` is set and `Current` is not. -/
def addNext (q : QueryBuilder) (s : String) : Option QueryBuilder :=
  let node := q.heap.length
  let heap := q.heap ++ [{ Part := s, Next := none }]
  match q.Start with
  | none => some { q with heap := heap, Start := some node, Current := some node }
  | some _ =>
    match q.Current with
    | none => none
    | some cur =>
      match heap[cur]? with
      | none => none
      | some c =>
        some { q with heap := heap.set cur { c with Next := some node }, Current := some node }

/-- Go `addError`. -/
def addError (q : QueryBuilder) (err : String) : QueryBuilder :=
  { q with errors := q.errors ++ [err] }

/-- Go `hasErrors`. -/
def hasErrors (q : QueryBuilder) : Bool :=
  decide (q.errors.length > 0)

/-- The traversal loop of `build`: `for { if cur == nil { break }; query += cur.Part + " ";
cur = cur.Next }`. The loop visits at most `fuel` nodes; a walk that needs more than
the number of allocated nodes is on a cycle and never ends in Go. -/
def walk (heap : List queryPartNode) : Nat → Option Nat → String → Option String
  | _, none, query => some query
  | 0, some _, _ => none
  | fuel + 1, some cur, query =>
    match heap[cur]? with
    | none => none
    | some c => walk heap fuel c.Next (query ++ (c.Part ++ " "))

/-- Go `build`, returning the pair `(string, error)`; the error is its message. -/
def build (q : QueryBuilder) : Option (String × Option String) :=
  if q.hasErrors then
    let str := q.errors.foldl (fun str err => str ++ (err ++ ";")) "errors found: "
    let str := TrimSuffix str ";" ++ (" -- total errors (" ++ sprintInt q.errors.length ++ ")")
    some ("", some str)
  else if q.Start = none ∨ q.Current = none then
    some ("", some "no nodes were added")
  else
    match walk q.heap q.heap.length q.Start "" with
    | none => none
    | some query => some (TrimSuffix query " ", none)

/-- Go `ToCypher`. -/
def ToCypher (q : QueryBuilder) : Option (String × Option String) :=
  q.build

/-- The clause texts reachable from a node address, in list order (same walk as `build`). -/
def walkParts (heap : List queryPartNode) : Nat → Option Nat → Option (List String)
  | _, none => some []
  | 0, some _ => none
  | fuel + 1, some cur =>
    match heap[cur]? with
    | none => none
    | some c => (walkParts heap fuel c.Next).map (fun ps => c.Part :: ps)

/-- The clause texts of the builder's linked list, from `Start`. -/
def clauses (q : QueryBuilder) : Option (List String) :=
  walkParts q.heap q.heap.length q.Start

/-- What a sub-builder's rendering method returns (`PathBuilder.ToCypher`,
`ConditionOperator.Build`, `MergeConfig.ToString`, `NewReturnClause`, `deleteToString`,
`SetConfig.ToString`, ...): the text, or the message of the error. Those methods are
outside the embedded sources, so a call carries their result. -/
abbrev Rendered := Except String String

/-- Go `Match`; `p = none` is the nil `*PathBuilder`. -/
def Match (q : QueryBuilder) (p : Option Rendered) : Option QueryBuilder :=
  match p with
  | none => some (q.addError "path can not be nil")
  | some (.error err) => some (q.addError err)
  | some (.ok query) => q.addNext ("MATCH " ++ query)

/-- Go `OptionalMatch`. -/
def OptionalMatch (q : QueryBuilder) (p : Option Rendered) : Option QueryBuilder :=
  match p with
  | none => some (q.addError "path can not be nil")
  | some (.error err) => some (q.addError err)
  | some (.ok query) => q.addNext ("OPTIONAL MATCH " ++ query)

/-- Go `Create(c CreateQuery, err error)`. -/
def Create (q : QueryBuilder) (c : String) (err : Option String) : Option QueryBuilder :=
  match err with
  | some e => some (q.addError e)
  | none => q.addNext ("CREATE " ++ c)

/-- Go `Where`; `cb = none` is the nil `ConditionOperator`. -/
def Where (q : QueryBuilder) (cb : Option Rendered) : Option QueryBuilder :=
  match cb with
  | none => some (q.addError "condition builder can not be nil")
  | some (.error err) => some (q.addError err)
  | some (.ok w) => q.addNext ("WHERE " ++ w)

/-- Go `Merge`. -/
def Merge (q : QueryBuilder) (mergeConf : Option Rendered) : Option QueryBuilder :=
  match mergeConf with
  | none => some (q.addError "mergeConf can not be nil")
  | some (.error err) => some (q.addError err)
  | some (.ok cypher) => q.addNext ("MERGE " ++ cypher)

/-- Go `Return`; `clause` is the result of `NewReturnClause(distinct, parts...)`. -/
def Return (q : QueryBuilder) (clause : Rendered) : Option QueryBuilder :=
  match clause with
  | .error err => some (q.addError err)
  | .ok str => q.addNext str

/-- Go `Delete`; `cypher` is the result of `deleteToString(detach, params...)`. -/
def Delete (q : QueryBuilder) (cypher : Rendered) : Option QueryBuilder :=
  match cypher with
  | .error err => some (q.addError err)
  | .ok c => q.addNext c

/-- The loop shared by `Set`, `Remove` and `OrderBy`: `query += fmt.Sprintf(" %s,", str)`
for each item, stopping at the first item whose `ToString` fails. -/
def renderItems : List Rendered → String → Except String String
  | [], query => .ok query
  | .error err :: _, _ => .error err
  | .ok str :: rest, query => renderItems rest (query ++ (" " ++ str ++ ","))

/-- Go `Set`. -/
def Set (q : QueryBuilder) (sets : List Rendered) : Option QueryBuilder :=
  if sets.length = 0 then
    some (q.addError "sets can not be empty")
  else
    match renderItems sets "SET" with
    | .error err => some (q.addError err)
    | .ok query => q.addNext (TrimSuffix query ",")

/-- Go `Remove`: an empty argument list records an error and the call goes on. -/
def Remove (q : QueryBuilder) (removes : List Rendered) : Option QueryBuilder :=
  let q := if removes.length = 0 then q.addError "removes can not be empty" else q
  match renderItems removes "REMOVE" with
  | .error err => some (q.addError err)
  | .ok query => q.addNext (TrimSuffix query ",")

/-- Go `OrderBy`: an empty argument list records an error and the call goes on. -/
def OrderBy (q : QueryBuilder) (orderBys : List Rendered) : Option QueryBuilder :=
  let q := if orderBys.length = 0 then q.addError "removes can not be empty" else q
  match renderItems orderBys "ORDER BY" with
  | .error err => some (q.addError err)
  | .ok query => q.addNext (TrimSuffix query ",")

/-- Go `Limit`. -/
def Limit (q : QueryBuilder) (num : Int) : Option QueryBuilder :=
  q.addNext ("LIMIT " ++ sprintInt num)

/-- Go `Skip`. -/
def Skip (q : QueryBuilder) (num : Int) : Option QueryBuilder :=
  q.addNext ("SKIP " ++ sprintInt num)

/-- Go `With`. -/
def With (q : QueryBuilder) (conf : Option Rendered) : Option QueryBuilder :=
  match conf with
  | none => some (q.addError "conf can not be nil on With")
  | some (.error err) => some (q.addError err)
  | some (.ok str) => q.addNext ("WITH " ++ str)

/-- Go `Unwind`. -/
def Unwind (q : QueryBuilder) (unwind : Option Rendered) : Option QueryBuilder :=
  match unwind with
  | none => some (q.addError "unwind config cannot be nil")
  | some (.error err) => some (q.addError err)
  | some (.ok str) => q.addNext ("UNWIND " ++ str)

/-- Go `Union`. -/
def Union (q : QueryBuilder) (all : Bool) : Option QueryBuilder :=
  let query := "UNION"
  let query := if all then query ++ " ALL" else query
  q.addNext query

/-- Go `Cypher`: a raw fragment. -/
def Cypher (q : QueryBuilder) (c : String) : Option QueryBuilder :=
  q.addNext c

/-- Go `WithNeo`. -/
def WithNeo (q : QueryBuilder) (conn : Option BoltConn) : Option QueryBuilder :=
  match conn with
  | none => some (q.addError "connection can not be nil")
  | some c => some { q with conn := some c }

end QueryBuilder

/-- One chained call on the `Cypher` interface, with its arguments. -/
inductive Call where
  | Match (p : Option QueryBuilder.Rendered)
  | OptionalMatch (p : Option QueryBuilder.Rendered)
  | Create (c : String) (err : Option String)
  | Where (cb : Option QueryBuilder.Rendered)
  | Merge (mergeConf : Option QueryBuilder.Rendered)
  | Return (clause : QueryBuilder.Rendered)
  | Delete (cypher : QueryBuilder.Rendered)
  | Set (sets : List QueryBuilder.Rendered)
  | Remove (removes : List QueryBuilder.Rendered)
  | OrderBy (orderBys : List QueryBuilder.Rendered)
  | Limit (num : Int)
  | Skip (num : Int)
  | With (conf : Option QueryBuilder.Rendered)
  | Unwind (unwind : Option QueryBuilder.Rendered)
  | Union (all : Bool)
  | Cypher (c : String)
  | WithNeo (conn : Option BoltConn)

/-- Performs one chained call on the builder. -/
def Call.apply (q : QueryBuilder) : Call → Option QueryBuilder
  | .Match p => q.Match p
  | .OptionalMatch p => q.OptionalMatch p
  | .Create c err => q.Create c err
  | .Where cb => q.Where cb
  | .Merge m => q.Merge m
  | .Return r => q.Return r
  | .Delete d => q.Delete d
  | .Set sets => q.Set sets
  | .Remove removes => q.Remove removes
  | .OrderBy orderBys => q.OrderBy orderBys
  | .Limit num => q.Limit num
  | .Skip num => q.Skip num
  | .With conf => q.With conf
  | .Unwind unwind => q.Unwind unwind
  | .Union all => q.Union all
  | .Cypher c => q.Cypher c
  | .WithNeo conn => q.WithNeo conn

/-- A chain of calls, performed left to right. -/
def runCalls (q : QueryBuilder) : List Call → Option QueryBuilder
  | [] => some q
  | c :: rest => (c.apply q).bind (fun q1 => runCalls q1 rest)

/-- The error messages a call records, observed on a fresh builder. -/
def Call.recorded (c : Call) : List String :=
  match c.apply QB with
  | some q => q.errors
  | none => []

/-- The clause texts a call appends, observed on a fresh builder. -/
def Call.appended (c : Call) : List String :=
  match (c.apply QB).bind QueryBuilder.clauses with
  | some ps => ps
  | none => []

/-- A call fails when it records an error. -/
def Call.fails (c : Call) : Bool :=
  !c.recorded.isEmpty

/-- The builder's linked list is laid out as `parts`: node `i` holds `parts[i]` and points
to node `i + 1`, `Start` is the first node and `Current` the last one. -/
def QueryBuilder.Linked (q : QueryBuilder) (parts : List String) : Prop :=
  q.heap.length = parts.length ∧
  (∀ i (h : i < parts.length),
    q.heap[i]? = some ⟨parts[i], if i + 1 < parts.length then some (i + 1) else none⟩) ∧
  q.Start = (if parts.length = 0 then none else some 0) ∧
  q.Current = (if parts.length = 0 then none else some (parts.length - 1))

/-- A builder operation has the effect `(es, ps)` when, on every builder whose list is
well laid out, it returns normally, records exactly the errors `es` after the ones already
recorded and appends exactly the clauses `ps` after the ones already there. -/
def Effect (f : QueryBuilder → Option QueryBuilder) (es ps : List String) : Prop :=
  ∀ (q : QueryBuilder) (parts : List String), q.Linked parts →
    ∃ q1, f q = some q1 ∧ q1.Linked (parts ++ ps) ∧ q1.errors = q.errors ++ es

namespace QueryBuilder

/-- Go `AddToPreparedStatement`, `params` being the parameter map: the builder after
the call and the error returned (`none` is nil); the outer `none` is a `build` that does
not return. -/
def AddToPreparedStatement (q : QueryBuilder) (params : Nat) :
    Option (QueryBuilder × Option String) :=
  match q.build with
  | none => none
  | some (_, some err) => some (q, some err)
  | some (query, none) =>
    some ({ q with
      preparedStatements := q.preparedStatements ++ [{ Query := query, Params := params }] },
      none)

end QueryBuilder

/-- What `ExecutePreparedStatements` does: it returns an error of its own without a call
of the driver, or it calls `ExecPipeline` of the driver once, on the builder's
connection, with the queries and the parameter maps. -/
inductive Pipeline where
  | failed (err : String)
  | sent (conn : Option BoltConn) (queries : List String) (params : List Nat)
  deriving DecidableEq

/-- Go `ExecutePreparedStatements`. -/
def QueryBuilder.ExecutePreparedStatements (q : QueryBuilder) : Pipeline :=
  if q.preparedStatements.length = 0 then
    .failed "no statements are prepared"
  else
    let (queries, params) := q.preparedStatements.foldl
      (fun (acc : List String × List Nat) statement =>
        (acc.1 ++ [statement.Query], acc.2 ++ [statement.Params])) ([], [])
    .sent q.conn queries params

/-- One staging: a chain of calls on the builder, then `AddToPreparedStatement(params)`. -/
structure Staging where
  calls : List Call
  params : Nat

/-- A sequence of stagings on a builder: the builder at the end and what each
`AddToPreparedStatement` returned. -/
def stageAll (q : QueryBuilder) : List Staging → Option (QueryBuilder × List (Option String))
  | [] => some (q, [])
  | s :: rest =>
    match runCalls q s.calls with
    | none => none
    | some q1 =>
      match q1.AddToPreparedStatement s.params with
      | none => none
      | some (q2, err) =>
        match stageAll q2 rest with
        | none => none
        | some (q3, errs) => some (q3, err :: errs)

/-- What `build` is to return after the calls `done`: the error that lists the recorded
errors, the error `no nodes were added`, or the appended clauses joined by spaces. -/
def builtText (done : List Call) : Except String String :=
  if done.flatMap Call.recorded ≠ [] then
    .error ("errors found: " ++ ";".intercalate (done.flatMap Call.recorded) ++
      (" -- total errors (" ++ sprintInt (done.flatMap Call.recorded).length ++ ")"))
  else if done.flatMap Call.appended = [] then
    .error "no nodes were added"
  else
    .ok (" ".intercalate (done.flatMap Call.appended))

/-- The batch a sequence of stagings is to leave, after the calls `done`: one pair of the
built text and the parameters for each staging whose build succeeds, in staging order. -/
def expectedBatch (done : List Call) : List Staging → List stmt
  | [] => []
  | s :: rest =>
    (match builtText (done ++ s.calls) with
      | .ok query => [{ Query := query, Params := s.params }]
      | .error _ => []) ++ expectedBatch (done ++ s.calls) rest

/-- The errors a sequence of stagings is to return, after the calls `done`. -/
def expectedErrors (done : List Call) : List Staging → List (Option String)
  | [] => []
  | s :: rest =>
    (match builtText (done ++ s.calls) with
      | .ok _ => none
      | .error err => some err) :: expectedErrors (done ++ s.calls) rest

/-! ## gogm: pagination (pagination.go) -/

/-- A Go `error` value of the `gogm` package, by the way it is built. The constructors
`NewInvalidDecoratorConfigError`, `NewInvalidStructConfigError` and the sentinels
`ErrValidation`, `ErrInternal` are declared outside the embedded sources; an error built
with them records the arguments it was built from. -/
inductive GoError where
  /-- `errors.New(msg)` or `fmt.Errorf` with the formatted message `msg`. -/
  | msg (text : String)
  /-- `NewInvalidDecoratorConfigError(issue, field)`. -/
  | InvalidDecoratorConfigError (issue field : String)
  /-- `NewInvalidStructConfigError(issue)`. -/
  | InvalidStructConfigError (issue : String)
  /-- `fmt.Errorf(text + ", %w", ErrValidation)`. -/
  | wrapErrValidation (text : String)
  /-- `fmt.Errorf(text + ", %w", ErrInternal)`. -/
  | wrapErrInternal (text : String)
  /-- `fmt.Errorf(text + ": %w", ErrTransaction)`. -/
  | wrapErrTransaction (text : String)
  deriving DecidableEq

/-- The `Pagination` struct. -/
structure Pagination where
  PageNumber : Int
  LimitPerPage : Int
  OrderByVarName : String
  OrderByField : String
  OrderByDesc : Bool
  deriving DecidableEq

/-- Go `Pagination.Validate`; `none` is the nil error. -/
def Pagination.Validate (p : Pagination) : Option GoError :=
  if p.PageNumber ≥ 0 ∧ p.LimitPerPage > 1 ∧ p.OrderByField ≠ "" ∧ p.OrderByVarName ≠ "" then
    some (.msg "pagination configuration invalid, please double check")
  else
    none

/-- A pagination configuration is complete when it has a page number `≥ 0`, a limit per
page `> 1` and both order-by names (specification, section 4.4). -/
def Pagination.Complete (p : Pagination) : Prop :=
  p.PageNumber ≥ 0 ∧ p.LimitPerPage > 1 ∧ p.OrderByVarName ≠ "" ∧ p.OrderByField ≠ ""

instance (p : Pagination) : Decidable p.Complete := by
  unfold Pagination.Complete
  infer_instance

/-! ## gogm: field and entity configuration (decorator.go) -/

/-- Go `reflect.Kind`. -/
inductive Kind where
  | Invalid | Bool | Int | Int8 | Int16 | Int32 | Int64
  | Uint | Uint8 | Uint16 | Uint32 | Uint64 | Uintptr
  | Float32 | Float64 | Complex64 | Complex128
  | Array | Chan | Func | Interface | Map | Ptr | Slice | String | Struct | UnsafePointer
  deriving DecidableEq

/-- Go `reflect.Kind.String`. -/
def kindString : Kind → String
  | .Invalid => "invalid" | .Bool => "bool" | .Int => "int" | .Int8 => "int8"
  | .Int16 => "int16" | .Int32 => "int32" | .Int64 => "int64"
  | .Uint => "uint" | .Uint8 => "uint8" | .Uint16 => "uint16" | .Uint32 => "uint32"
  | .Uint64 => "uint64" | .Uintptr => "uintptr"
  | .Float32 => "float32" | .Float64 => "float64"
  | .Complex64 => "complex64" | .Complex128 => "complex128"
  | .Array => "array" | .Chan => "chan" | .Func => "func" | .Interface => "interface"
  | .Map => "map" | .Ptr => "ptr" | .Slice => "slice" | .String => "string"
  | .Struct => "struct" | .UnsafePointer => "unsafe.Pointer"

/-- The kinds of the types that have no element type. -/
inductive LeafKind where
  | Bool | Int | Int8 | Int16 | Int32 | Int64
  | Uint | Uint8 | Uint16 | Uint32 | Uint64 | Uintptr
  | Float32 | Float64 | Complex64 | Complex128
  | Func | Interface | String | Struct | UnsafePointer
  deriving DecidableEq

/-- The `reflect.Kind` of a leaf kind. -/
def LeafKind.toKind : LeafKind → Kind
  | .Bool => .Bool | .Int => .Int | .Int8 => .Int8 | .Int16 => .Int16 | .Int32 => .Int32
  | .Int64 => .Int64 | .Uint => .Uint | .Uint8 => .Uint8 | .Uint16 => .Uint16
  | .Uint32 => .Uint32 | .Uint64 => .Uint64 | .Uintptr => .Uintptr
  | .Float32 => .Float32 | .Float64 => .Float64 | .Complex64 => .Complex64
  | .Complex128 => .Complex128 | .Func => .Func | .Interface => .Interface
  | .String => .String | .Struct => .Struct | .UnsafePointer => .UnsafePointer

/-- A Go type as `reflect.Type` shows it to this package: its kind, its name (empty for
an unnamed type) with the path of the declaring package, and its element type. Two
`reflect.Type` values are equal when they are the same type. -/
inductive RType where
  /-- A predeclared or defined type without element type (`int`, `time.Time`, ...). -/
  | leaf (kind : LeafKind) (pkgPath name : String)
  /-- The pointer type `*elem`. -/
  | ptr (elem : RType)
  /-- The slice type `[]elem`, or a defined type over it. -/
  | slice (pkgPath name : String) (elem : RType)
  /-- The array type `[len]elem`, or a defined type over it. -/
  | array (pkgPath name : String) (len : Nat) (elem : RType)
  /-- A channel type over `elem`, or a defined type over it. -/
  | chan (pkgPath name : String) (elem : RType)
  /-- The map type `map[key]elem`, or a defined type over it. -/
  | map (pkgPath name : String) (key elem : RType)
  deriving DecidableEq

namespace RType

/-- Go `reflect.Type.Kind`. -/
def Kind : RType → Gogm.Kind
  | .leaf k _ _ => k.toKind
  | .ptr _ => .Ptr
  | .slice _ _ _ => .Slice
  | .array _ _ _ _ => .Array
  | .chan _ _ _ => .Chan
  | .map _ _ _ _ => .Map

/-- Go `reflect.Type.Name`. -/
def Name : RType → String
  | .leaf _ _ name => name
  | .ptr _ => ""
  | .slice _ name _ => name
  | .array _ name _ _ => name
  | .chan _ name _ => name
  | .map _ name _ _ => name

/-- Go `reflect.Type.Elem`; `none` where Go panics (a type without element type). -/
def Elem : RType → Option RType
  | .leaf _ _ _ => none
  | .ptr e => some e
  | .slice _ _ e => some e
  | .array _ _ _ e => some e
  | .chan _ _ e => some e
  | .map _ _ _ e => some e

end RType

/-- Go `reflect.TypeOf(time.Time{})`. -/
def timeType : RType := .leaf .Struct "time" "Time"

/-- Go `reflect.TypeOf(map[string]interface{}{})`. -/
def mapStringInterfaceType : RType :=
  .map "" "" (.leaf .String "" "string") (.leaf .Interface "" "")

/-- What the code uses and the embedded sources do not declare: the four constants of
`dsl.Direction` (an integer type, compared with `0` by the code) and its `ToString`,
the method sets of the user's types (`Implements(edgeType)`), and the lower-case
mapping of the non-ASCII runes used by `strings.ToLower`. -/
structure Env where
  DirectionOutgoing : Int
  DirectionIncoming : Int
  DirectionNone : Int
  DirectionBoth : Int
  directionToString : Int → String
  implementsEdge : RType → Bool
  lowerRune : Char → Char

/-- The `decoratorConfig` struct (`Typ` is its field `Type`). -/
structure decoratorConfig where
  Typ : RType
  Name : String
  FieldName : String
  Relationship : String
  Direction : Int
  Unique : Bool
  Index : Bool
  ManyRelationship : Bool
  UsesEdgeNode : Bool
  PrimaryKey : Bool
  Properties : Bool
  IsTime : Bool
  IsTypeDef : Bool
  TypedefActual : Option RType
  Ignore : Bool
  deriving DecidableEq

/-- The `structDecoratorConfig` struct. `Fields` is the Go map from field name to config,
as the list of its entries; `none` is the nil map. -/
structure structDecoratorConfig where
  Fields : Option (List (String × decoratorConfig))
  Label : String
  IsVertex : Bool
  Typ : RType
  deriving DecidableEq

/-- Go `decoratorConfig.Equals`; `comp = none` is the nil pointer. -/
def decoratorConfig.Equals (d : decoratorConfig) (comp : Option decoratorConfig) : Bool :=
  match comp with
  | none => false
  | some comp =>
    decide (d.Name = comp.Name) && decide (d.FieldName = comp.FieldName) &&
      decide (d.Relationship = comp.Relationship) &&
      decide (d.Direction = comp.Direction) && decide (d.Unique = comp.Unique) &&
      decide (d.Index = comp.Index) &&
      decide (d.ManyRelationship = comp.ManyRelationship) &&
      decide (d.UsesEdgeNode = comp.UsesEdgeNode) &&
      decide (d.PrimaryKey = comp.PrimaryKey) &&
      decide (d.Properties = comp.Properties) && decide (d.IsTime = comp.IsTime) &&
      decide (d.IsTypeDef = comp.IsTypeDef) && decide (d.Ignore = comp.Ignore)

/-- Go `structDecoratorConfig.Equals`; `comp = none` is the nil pointer. The loop over
`s.Fields` returns false at the first field that `comp` lacks or holds with another
config, so that its outcome is the same in every order of visit. -/
def structDecoratorConfig.Equals (s : structDecoratorConfig)
    (comp : Option structDecoratorConfig) : Bool :=
  match comp with
  | none => false
  | some comp =>
    match comp.Fields, s.Fields with
    | some compFields, some sFields =>
      if sFields.all (fun entry =>
          match mapGet compFields entry.1 with
          | some compConfig => compConfig.Equals (some entry.2)
          | none => false) then
        decide (s.IsVertex = comp.IsVertex) && decide (s.Label = comp.Label)
      else false
    | _, _ => false

/-- The counting loop of `structDecoratorConfig.Validate`: `(pkCount, rels)`. -/
def countFields : List (String × decoratorConfig) → Nat × Nat → Nat × Nat
  | [], acc => acc
  | (_, conf) :: rest, (pkCount, rels) =>
    let pkCount := if conf.PrimaryKey then pkCount + 1 else pkCount
    let rels := if conf.Relationship ≠ "" then rels + 1 else rels
    countFields rest (pkCount, rels)

/-- Go `structDecoratorConfig.Validate`; `none` is the nil error. -/
def structDecoratorConfig.Validate (s : structDecoratorConfig) : Option GoError :=
  match s.Fields with
  | none => some (.msg "no fields defined")
  | some fields =>
    let (pkCount, rels) := countFields fields (0, 0)
    if pkCount = 0 then
      some (.InvalidStructConfigError ("primary key required on node/edge " ++ s.Label))
    else if pkCount > 1 then
      some (.InvalidStructConfigError "too many primary keys defined")
    else if !s.IsVertex && decide (rels > 0) then
      some (.InvalidStructConfigError "relationships can not be defined on edges")
    else
      none

/-- Go `getPrimitiveType`. -/
def getPrimitiveType (k : Kind) : Except GoError RType :=
  match k with
  | .Int => .ok (.leaf .Int "" "int")
  | .Int64 => .ok (.leaf .Int64 "" "int64")
  | .Int32 => .ok (.leaf .Int32 "" "int32")
  | .Int16 => .ok (.leaf .Int16 "" "int16")
  | .Int8 => .ok (.leaf .Int8 "" "int8")
  | .Uint64 => .ok (.leaf .Uint64 "" "uint64")
  | .Uint32 => .ok (.leaf .Uint32 "" "uint32")
  | .Uint16 => .ok (.leaf .Uint16 "" "uint16")
  | .Uint8 => .ok (.leaf .Uint8 "" "uint8")
  | .Uint => .ok (.leaf .Uint "" "uint")
  | .Bool => .ok (.leaf .Bool "" "bool")
  | .Float64 => .ok (.leaf .Float64 "" "float64")
  | .Float32 => .ok (.leaf .Float32 "" "float32")
  | .String => .ok (.leaf .String "" "string")
  | k => .error (.msg ("[" ++ kindString k ++ "] not supported"))

/-- Go `getActualTypeIfAliased` on a non-nil type: `(isDifferentType, differentType)` or
the error. -/
def getActualTypeIfAliased (iType : RType) : Except GoError (Bool × Option RType) :=
  let iType := match iType with
    | .ptr elem => elem
    | t => t
  if iType.Kind = .Struct ∨ iType.Kind = .Interface ∨ iType.Kind = .Slice ∨
      iType.Kind = .Map then
    .ok (false, none)
  else if kindString iType.Kind = iType.Name then
    .ok (false, none)
  else
    match getPrimitiveType iType.Kind with
    | .error err => .error err
    | .ok actualType => .ok (true, some actualType)

/-- The type behind one pointer level: the pointed-to type of a pointer type, the type
itself otherwise. -/
def stripPointer (t : RType) : RType :=
  match t with
  | .ptr elem => elem
  | t => t

/-- The kinds of the supported primitives: `int`, `int8` to `int64`, `uint`, `uint8` to
`uint64`, `bool`, `float32`, `float64` and `string`. -/
def supportedPrimitive (k : Kind) : Bool :=
  k matches .Int | .Int8 | .Int16 | .Int32 | .Int64 | .Uint | .Uint8 | .Uint16 | .Uint32 |
    .Uint64 | .Bool | .Float32 | .Float64 | .String

/-- The kinds `getActualTypeIfAliased` does not look into: struct, interface, slice, map. -/
def compositeKind (k : Kind) : Bool :=
  k matches .Struct | .Interface | .Slice | .Map

/-- The type is a predeclared one: it has no package and is named as its kind. -/
def RType.builtin (t : RType) : Bool :=
  match t with
  | .leaf k pkgPath name => decide (pkgPath = "") && decide (name = kindString k.toKind)
  | _ => false

/-- The kind the relationship and time checks of `Validate` look at: the kind of the
type, or of the pointed-to type for a pointer. -/
def derefKind (t : RType) : Kind :=
  match t with
  | .ptr elem => elem.Kind
  | t => t.Kind

/-- The block `if d.Ignore` of `decoratorConfig.Validate`. -/
def validateIgnored (d : decoratorConfig) : Option GoError :=
  if d.Relationship ≠ "" ∨ d.Unique ∨ d.Index ∨ d.ManyRelationship ∨ d.UsesEdgeNode ∨
      d.PrimaryKey ∨ d.Properties ∨ d.IsTime ∨ d.Name ≠ d.FieldName then
    some (.InvalidDecoratorConfigError "ignore tag cannot be combined with any other tag" "")
  else none

/-- The block `if kind == reflect.Map || d.Properties` of `decoratorConfig.Validate`. -/
def validateProperties (d : decoratorConfig) : Option GoError :=
  if ¬ d.Properties then
    some (.InvalidDecoratorConfigError
      "properties must be added to gogm config on field with a map" d.Name)
  else if d.Typ.Kind ≠ .Map ∨ d.Typ ≠ mapStringInterfaceType then
    some (.InvalidDecoratorConfigError
      "properties must be a map with signature map[string]interface\x7b\x7d" d.Name)
  else if d.PrimaryKey ∨ d.Relationship ≠ "" ∨ d.Direction ≠ 0 ∨ d.Index ∨ d.Unique then
    some (.InvalidDecoratorConfigError
      "field marked as properties can only have name defined" d.Name)
  else none

/-- The statement `if d.Direction == 0 { d.Direction = dsl.DirectionOutgoing }`. -/
def defaultDirection (env : Env) (d : decoratorConfig) : decoratorConfig :=
  if d.Direction = 0 then { d with Direction := env.DirectionOutgoing } else d

/-- The block `//check valid relationship` of `decoratorConfig.Validate`, which sets an
undefined direction to outgoing: the config after the block and the error. -/
def validateRelationship (env : Env) (d : decoratorConfig) (kind : Kind) :
    decoratorConfig × Option GoError :=
  if d.Relationship = "" then
    (d, some (.InvalidDecoratorConfigError
      "relationship has to be defined when creating a relationship" d.FieldName))
  else
    let d := defaultDirection env d
    if kind ≠ .Struct ∧ kind ≠ .Slice then
      (d, some (.InvalidDecoratorConfigError
        "relationship can only be defined on a struct or a slice" d.Name))
    else if d.PrimaryKey ∨ d.Properties ∨ d.Index ∨ d.Unique then
      (d, some (.InvalidDecoratorConfigError
        "can only define relationship, direction and name on a relationship" d.Name))
    else if d.Name ≠ d.FieldName then
      (d, some (.InvalidDecoratorConfigError
        "name tag can not be defined on a relationship (Name and FieldName must be the same)"
        d.Name))
    else (d, none)

/-- The block `//validate timeField` of `decoratorConfig.Validate`. -/
def validateTime (d : decoratorConfig) (kind : Kind) : Option GoError :=
  if kind ≠ .Int64 ∧ d.Typ ≠ timeType then
    some (.msg "can not be a time value and not be either an int64 or time.Time")
  else none

/-- The block `//standard field checks now` of `decoratorConfig.Validate`. -/
def validateStandard (d : decoratorConfig) : Option GoError :=
  if d.PrimaryKey ∧ (d.Index ∨ d.Unique) then
    some (.InvalidDecoratorConfigError "can not specify Index or Unique on primary key" d.Name)
  else if d.Index ∧ d.Unique then
    some (.InvalidDecoratorConfigError
      "can not specify Index and Unique on the same field" d.Name)
  else if d.PrimaryKey then
    let rootKind := d.Typ.Kind
    if rootKind ≠ .String ∧ rootKind ≠ .Int64 then
      some (.InvalidDecoratorConfigError
        ("invalid type for primary key " ++ kindString rootKind) d.Name)
    else if rootKind = .String ∧ d.Name ≠ "uuid" then
      some (.InvalidDecoratorConfigError
        "primary key with type string must be named 'uuid'" d.Name)
    else if rootKind = .Int64 ∧ d.Name ≠ "id" then
      some (.InvalidDecoratorConfigError
        "primary key with type int64 must be named 'id'" d.Name)
    else none
  else none

/-- The condition of the block `//check valid relationship`, `kind` being the kind behind
a pointer. -/
def relationshipCondition (d : decoratorConfig) : Bool :=
  decide (d.Direction ≠ 0) || decide (d.Relationship ≠ "") ||
    (decide (derefKind d.Typ = .Struct) && decide (d.Typ ≠ timeType)) ||
    decide (derefKind d.Typ = .Slice)

/-- Go `decoratorConfig.Validate`, block by block. The method has a pointer receiver and
may set `Direction`: the result is the config after the call and the error (`none` is
nil). -/
def decoratorConfig.Validate (env : Env) (d : decoratorConfig) :
    decoratorConfig × Option GoError :=
  if d.Ignore then
    (d, validateIgnored d)
  else if d.Name = "" then
    (d, some (.InvalidDecoratorConfigError "name must be defined" ""))
  else if d.Typ.Kind = .Map ∨ d.Properties then
    (d, validateProperties d)
  else if relationshipCondition d then
    validateRelationship env d (derefKind d.Typ)
  else if d.IsTime then
    (d, validateTime d (derefKind d.Typ))
  else
    (d, validateStandard d)

/-- The value a `direction=` token gives to `Direction`. -/
def parseDirection (env : Env) (val : String) : Int :=
  let dir := ToLower env.lowerRune val
  let dir := ToLower env.lowerRune dir
  if dir = "incoming" then env.DirectionIncoming
  else if dir = "outgoing" then env.DirectionOutgoing
  else if dir = "none" then env.DirectionNone
  else if dir = "both" then env.DirectionBoth
  else env.DirectionNone

/-- The body of the token loop of `newDecoratorConfig`, for one token. -/
def parseField (env : Env) (varType : RType) (toReturn : decoratorConfig)
    (field : String) : Except GoError decoratorConfig :=
  if Contains field '=' then
    match Split field '=' with
    | [key, val] =>
      if key = "name" then
        .ok { toReturn with Name := val }
      else if key = "relationship" then
        let toReturn := { toReturn with Relationship := val }
        match varType with
        | .slice _ _ elem =>
          let toReturn := { toReturn with ManyRelationship := true }
          if elem.Kind ≠ .Ptr then
            .error (.msg "slice must be of pointer type")
          else
            .ok { toReturn with UsesEdgeNode := env.implementsEdge elem }
        | _ =>
          .ok { toReturn with
            ManyRelationship := false,
            UsesEdgeNode := env.implementsEdge varType }
      else if key = "direction" then
        .ok { toReturn with Direction := parseDirection env val }
      else
        .error (.msg ("key '" ++ key ++ "' is not recognized"))
    | _ => .error (.msg "empty assignment")
  else if field = "unique" then .ok { toReturn with Unique := true }
  else if field = "pk" then .ok { toReturn with PrimaryKey := true }
  else if field = "-" then .ok { toReturn with Ignore := true }
  else if field = "properties" then .ok { toReturn with Properties := true }
  else if field = "index" then .ok { toReturn with Index := true }
  else if field = "time" then .ok { toReturn with IsTime := true }
  else .error (.msg ("key '" ++ field ++ "' is not recognized"))

/-- The token loop of `newDecoratorConfig`: it stops at the first token in error. -/
def parseFields (env : Env) (varType : RType) :
    List String → decoratorConfig → Except GoError decoratorConfig
  | [], toReturn => .ok toReturn
  | field :: rest, toReturn =>
    match parseField env varType toReturn field with
    | .error err => .error err
    | .ok toReturn => parseFields env varType rest toReturn

/-- Go `newDecoratorConfig(decorator, name, varType)`. -/
def newDecoratorConfig (env : Env) (decorator name : String) (varType : RType) :
    Except GoError decoratorConfig :=
  let fields := Split decorator ';'
  if fields.length = 0 then
    .error (.msg "decorator can not be empty")
  else
    let toReturn : decoratorConfig :=
      { Typ := varType, Name := "", FieldName := name, Relationship := "", Direction := 0,
        Unique := false, Index := false, ManyRelationship := false, UsesEdgeNode := false,
        PrimaryKey := false, Properties := false, IsTime := false, IsTypeDef := false,
        TypedefActual := none, Ignore := false }
    match parseFields env varType fields toReturn with
    | .error err => .error err
    | .ok toReturn =>
      let aliased : Except GoError decoratorConfig :=
        if toReturn.Relationship = "" then
          match getActualTypeIfAliased varType with
          | .error err => .error err
          | .ok (isTypeDef, newType) =>
            if isTypeDef then
              match newType with
              | none => .error (.msg "new type can not be nil")
              | some t => .ok { toReturn with IsTypeDef := true, TypedefActual := some t }
            else .ok toReturn
        else .ok toReturn
      match aliased with
      | .error err => .error err
      | .ok toReturn =>
        if toReturn.Name = "" then
          let toReturn := { toReturn with Name := name }
          match toReturn.Validate env with
          | (_, some err) => .error err
          | (toReturn, none) => .ok toReturn
        else if toReturn.Relationship ≠ "" then
          .error (.msg "name tag can not be defined on a relationship")
        else
          match toReturn.Validate env with
          | (_, some err) => .error err
          | (toReturn, none) => .ok toReturn

/-- The config after the token loop of `newDecoratorConfig`, from the initial config. -/
def tokenLoop (env : Env) (decorator name : String) (varType : RType) :
    Except GoError decoratorConfig :=
  parseFields env varType (Split decorator ';')
    { Typ := varType, Name := "", FieldName := name, Relationship := "", Direction := 0,
      Unique := false, Index := false, ManyRelationship := false, UsesEdgeNode := false,
      PrimaryKey := false, Properties := false, IsTime := false, IsTypeDef := false,
      TypedefActual := none, Ignore := false }

/-- The key or the flag of a token of a field tag: the part before the first `=` of an
assignment, the token itself otherwise. -/
def tokenKey (field : String) : String :=
  if Contains field '=' then ((Split field '=').head?).getD "" else field

/-- What a token that the token loop accepts does to the config: it sets one of the
fields, `relationship=` setting the cardinality and the edge mark with the name. -/
inductive TokenEffect where
  | name (val : String)
  | relationship (val : String) (many usesEdge : Bool)
  | direction (dir : Int)
  | unique
  | pk
  | ignore
  | properties
  | index
  | time

/-- The config after the token. -/
def TokenEffect.apply : TokenEffect → decoratorConfig → decoratorConfig
  | .name val, d => { d with Name := val }
  | .relationship val many usesEdge, d =>
    { d with Relationship := val, ManyRelationship := many, UsesEdgeNode := usesEdge }
  | .direction dir, d => { d with Direction := dir }
  | .unique, d => { d with Unique := true }
  | .pk, d => { d with PrimaryKey := true }
  | .ignore, d => { d with Ignore := true }
  | .properties, d => { d with Properties := true }
  | .index, d => { d with Index := true }
  | .time, d => { d with IsTime := true }

/-- The key or the flag of the token with this effect. -/
def TokenEffect.key : TokenEffect → String
  | .name _ => "name"
  | .relationship _ _ _ => "relationship"
  | .direction _ => "direction"
  | .unique => "unique"
  | .pk => "pk"
  | .ignore => "-"
  | .properties => "properties"
  | .index => "index"
  | .time => "time"

/-- One step of the token loop on the config so far, `none` once a token was refused. -/
def parseStep (env : Env) (varType : RType) (z : Option decoratorConfig) (field : String) :
    Option decoratorConfig :=
  z.bind (fun d => (parseField env varType d field).toOption)

/-- The tag has a `direction=` token: one of its `;`-separated tokens is an assignment
whose key is `direction`. -/
def hasDirectionToken (decorator : String) : Bool :=
  (Split decorator ';').any (fun field =>
    Contains field '=' && decide ((Split field '=').head? = some "direction"))

/-- The field is one `decoratorConfig.Validate` checks as a relationship: it is not
ignored and it has a direction or a relationship name, or its type (behind a pointer) is
a struct other than `time.Time`, or a slice. -/
def decoratorConfig.isRelationshipField (d : decoratorConfig) : Bool :=
  !d.Ignore && relationshipCondition d

/-- The token is one of the bare flags of a field tag. -/
def knownFlag (field : String) : Bool :=
  decide (field = "unique") || decide (field = "pk") || decide (field = "-") ||
    decide (field = "properties") || decide (field = "index") || decide (field = "time")

/-- The key is one of the keys of an assignment of a field tag. -/
def knownKey (key : String) : Bool :=
  decide (key = "name") || decide (key = "relationship") || decide (key = "direction")

/-- The token is a bare flag, or a pair `key=value` with one `=` whose key is `name`,
`relationship` or `direction`. -/
def recognisedToken (field : String) : Bool :=
  if Contains field '=' then
    match Split field '=' with
    | [key, _] => knownKey key
    | _ => false
  else knownFlag field

/-- The token is a `relationship=` assignment on a field whose type is a slice of
something else than pointers, which the token loop refuses. -/
def refusedSlice (varType : RType) (field : String) : Bool :=
  match Split field '=', varType with
  | [key, _], .slice _ _ elem => decide (key = "relationship") && decide (elem.Kind ≠ .Ptr)
  | _, _ => false

/-- The text `token` occurs in the text `text`. -/
def mentions (text token : String) : Bool :=
  text.data.tails.any (fun l => token.data.isPrefixOf l)

/-! ## gogm: the relation registry (util.go) -/

/-- The inner map of the registry: field type name to the configs registered for it. -/
abbrev ConfMap := List (String × List decoratorConfig)

/-- The `relationConfigs` struct: `configs` maps `type-relationship` to field type to
configs; `none` is the nil map. The mutex is not modelled (one caller at a time). -/
structure relationConfigs where
  configs : Option (List (String × ConfMap))
  deriving DecidableEq

/-- Go `getKey`: `fmt.Sprintf("%s-%s", nodeType, relationship)`. -/
def relationConfigs.getKey (nodeType relationship : String) : String :=
  nodeType ++ "-" ++ relationship

/-- Go `relationConfigs.Add`. -/
def relationConfigs.Add (r : relationConfigs) (nodeType relationship fieldType : String)
    (dec : decoratorConfig) : relationConfigs :=
  let configs := match r.configs with
    | none => []
    | some configs => configs
  let key := relationConfigs.getKey nodeType relationship
  let configs := match mapGet configs key with
    | some _ => configs
    | none => mapSet configs key []
  let confMap := (mapGet configs key).getD []
  let confMap := match mapGet confMap fieldType with
    | some _ => confMap
    | none => mapSet confMap fieldType []
  let confs := (mapGet confMap fieldType).getD []
  { configs := some (mapSet configs key (mapSet confMap fieldType (confs ++ [dec]))) }

/-- The `validation` struct. -/
structure validation where
  Incoming : List String
  Outgoing : List String
  None : List String
  Both : List String
  deriving DecidableEq

/-- The map `checkMap` of `Validate`, from relationship name to `validation`. -/
abbrev CheckMap := List (String × validation)

/-- The order in which the three `range` loops of `Validate` visit the entries of their
maps; Go leaves it unspecified. -/
structure RangeOrder where
  configs : List (String × ConfMap) → List (String × ConfMap)
  confMap : String → ConfMap → ConfMap
  checkMap : CheckMap → CheckMap

/-- An order visits every entry of the map once. -/
def RangeOrder.Valid (o : RangeOrder) : Prop :=
  (∀ m, (o.configs m).Perm m) ∧ (∀ title m, (o.confMap title m).Perm m) ∧
    (∀ m, (o.checkMap m).Perm m)

/-- The order of the entry lists themselves. -/
def RangeOrder.listed : RangeOrder :=
  { configs := id, confMap := fun _ => id, checkMap := id }

/-- The body of the innermost loop of `Validate`, for one config. -/
def tallyConfig (env : Env) (relType field : String) (checkMap : CheckMap)
    (config : decoratorConfig) : Except GoError CheckMap :=
  let checkMap := match mapGet checkMap relType with
    | some _ => checkMap
    | none => mapSet checkMap relType ⟨[], [], [], []⟩
  let validate := (mapGet checkMap relType).getD ⟨[], [], [], []⟩
  if config.Direction = env.DirectionIncoming then
    .ok (mapSet checkMap relType { validate with Incoming := validate.Incoming ++ [field] })
  else if config.Direction = env.DirectionOutgoing then
    .ok (mapSet checkMap relType { validate with Outgoing := validate.Outgoing ++ [field] })
  else if config.Direction = env.DirectionNone then
    .ok (mapSet checkMap relType { validate with None := validate.None ++ [field] })
  else if config.Direction = env.DirectionBoth then
    .ok (mapSet checkMap relType { validate with Both := validate.Both ++ [field] })
  else
    .error (.wrapErrValidation
      ("unrecognized direction [" ++ env.directionToString config.Direction ++ "]"))

/-- The loop `for _, config := range configs`. -/
def tallyConfigs (env : Env) (relType field : String) :
    List decoratorConfig → CheckMap → Except GoError CheckMap
  | [], checkMap => .ok checkMap
  | config :: rest, checkMap =>
    match tallyConfig env relType field checkMap config with
    | .error err => .error err
    | .ok checkMap => tallyConfigs env relType field rest checkMap

/-- The loop `for field, configs := range confMap`, over the entries as visited. -/
def tallyFields (env : Env) (relType : String) :
    ConfMap → CheckMap → Except GoError CheckMap
  | [], checkMap => .ok checkMap
  | (field, configs) :: rest, checkMap =>
    match tallyConfigs env relType field configs checkMap with
    | .error err => .error err
    | .ok checkMap => tallyFields env relType rest checkMap

/-- The loop `for title, confMap := range r.configs`, over the entries as visited. -/
def tallyTitles (env : Env) (o : RangeOrder) :
    List (String × ConfMap) → CheckMap → Except GoError CheckMap
  | [], checkMap => .ok checkMap
  | (title, confMap) :: rest, checkMap =>
    match Split title '-' with
    | [_, relType] =>
      match tallyFields env relType (o.confMap title confMap) checkMap with
      | .error err => .error err
      | .ok checkMap => tallyTitles env o rest checkMap
    | parts =>
      .error (.wrapErrValidation ("invalid length for parts [" ++ sprintInt parts.length ++
        "] should be 2. Rel is [" ++ title ++ "]"))

/-- The loop `for relType, validateConfig := range checkMap`, over the entries as
visited; `none` is the nil error. -/
def checkCounts : CheckMap → Option GoError
  | [] => none
  | (relType, validateConfig) :: rest =>
    if validateConfig.Outgoing.length ≠ validateConfig.Incoming.length then
      some (.wrapErrValidation
        ("invalid directional configuration on relationship [" ++ relType ++ "]"))
    else if validateConfig.Both.length ≠ 0 ∧ validateConfig.Both.length % 2 ≠ 0 then
      some (.wrapErrValidation "invalid length for 'both' validation")
    else if validateConfig.None.length ≠ 0 ∧ validateConfig.None.length % 2 ≠ 0 then
      some (.wrapErrValidation "invalid length for 'both' validation")
    else checkCounts rest

/-- Go `relationConfigs.Validate`, the maps being visited in the order `o`; `none` is the
nil error. -/
def relationConfigs.Validate (env : Env) (o : RangeOrder) (r : relationConfigs) :
    Option GoError :=
  let configs := match r.configs with
    | none => []
    | some configs => configs
  match tallyTitles env o (o.configs configs) [] with
  | .error err => some err
  | .ok checkMap => checkCounts (o.checkMap checkMap)

/-- One registration in the registry: the arguments of a call of `Add`. -/
structure Registration where
  nodeType : String
  relationship : String
  fieldType : String
  dec : decoratorConfig
  deriving DecidableEq

/-- The registry after the given calls of `Add`, from the zero value. -/
def registerAll (adds : List Registration) : relationConfigs :=
  adds.foldl (fun r a => r.Add a.nodeType a.relationship a.fieldType a.dec)
    { configs := none }

/-- How many registered configs have the relationship name `relationship` and the
direction `direction`, over all labels and field types. -/
def countDirection (adds : List Registration) (relationship : String) (direction : Int) :
    Nat :=
  adds.countP (fun a => decide (a.relationship = relationship) &&
    decide (a.dec.Direction = direction))

/-- The number of field names `checkMap` lists as outgoing for a relationship name. -/
def outgoingLen (checkMap : CheckMap) (relType : String) : Nat :=
  match mapGet checkMap relType with
  | some v => v.Outgoing.length
  | none => 0

/-- The number of field names `checkMap` lists as incoming for a relationship name. -/
def incomingLen (checkMap : CheckMap) (relType : String) : Nat :=
  match mapGet checkMap relType with
  | some v => v.Incoming.length
  | none => 0

/-- The number of field names `checkMap` lists under `None` for a relationship name. -/
def noneLen (checkMap : CheckMap) (relType : String) : Nat :=
  match mapGet checkMap relType with
  | some v => v.None.length
  | none => 0

/-- The number of field names `checkMap` lists under `Both` for a relationship name. -/
def bothLen (checkMap : CheckMap) (relType : String) : Nat :=
  match mapGet checkMap relType with
  | some v => v.Both.length
  | none => 0

/-- The four direction constants are different numbers; Go does not compile a `switch`
with the same constant in two cases, as the one of `Validate` would be otherwise. -/
def Env.DirectionsDistinct (env : Env) : Prop :=
  env.DirectionIncoming ≠ env.DirectionOutgoing ∧ env.DirectionIncoming ≠ env.DirectionNone ∧
    env.DirectionIncoming ≠ env.DirectionBoth ∧ env.DirectionOutgoing ≠ env.DirectionNone ∧
    env.DirectionOutgoing ≠ env.DirectionBoth ∧ env.DirectionNone ≠ env.DirectionBoth

instance (env : Env) : Decidable env.DirectionsDistinct := by
  unfold Env.DirectionsDistinct
  infer_instance

/-- The direction is one of the four direction constants. -/
def Env.isDirection (env : Env) (d : Int) : Bool :=
  decide (d = env.DirectionIncoming) || decide (d = env.DirectionOutgoing) ||
    decide (d = env.DirectionNone) || decide (d = env.DirectionBoth)

/-- What `Validate` asks of one entry of `checkMap`. -/
def validation.balanced (v : validation) : Bool :=
  decide (v.Outgoing.length = v.Incoming.length) && decide (v.Both.length % 2 = 0) &&
    decide (v.None.length % 2 = 0)

/-- The relationship name `Validate` reads in a registry key: the second of its two
`-`-separated parts. -/
def relTypeOf (title : String) : Option String :=
  match Split title '-' with
  | [_, relType] => some relType
  | _ => none

/-- The number of configs with direction `d` in an inner map of the registry. -/
def dirCount (m : ConfMap) (d : Int) : Nat :=
  (m.map (fun e => e.2.countP (fun c => decide (c.Direction = d)))).sum

/-- The number of configs with direction `d` under the keys of the registry that `sel`
selects. -/
def keyCount (configs : List (String × ConfMap)) (sel : String → Bool) (d : Int) : Nat :=
  (configs.map (fun e => if sel e.1 then dirCount e.2 d else 0)).sum

/-- The entries of the registry's map (none for the nil map). -/
def relationConfigs.entries (r : relationConfigs) : List (String × ConfMap) :=
  match r.configs with
  | none => []
  | some configs => configs

/-- Go `relationConfigs.getConfig`. -/
def relationConfigs.getConfig (r : relationConfigs)
    (nodeType relationship fieldType : String) (direction : Int) :
    Except GoError decoratorConfig :=
  match r.configs with
  | none => .error (.msg "no configs provided")
  | some configs =>
    let key := relationConfigs.getKey nodeType relationship
    match mapGet configs key with
    | none => .error (.msg ("no configs for key [" ++ key ++ "]"))
    | some confMap =>
      match mapGet confMap fieldType with
      | none =>
        .error (.msg ("no configs for key [" ++ key ++ "] and field type [" ++ fieldType ++ "]"))
      | some confs =>
        match confs with
        | [c] => .ok c
        | [] => .error (.wrapErrInternal "config not found")
        | confs =>
          match confs.find? (fun c => decide (c.Direction = direction)) with
          | some c => .ok c
          | none => .error (.msg "relation with correct direction not found")

/-- Go `relationConfigs.GetConfigs`: the pair `(start, end)` or the error. -/
def relationConfigs.GetConfigs (env : Env) (r : relationConfigs)
    (startNodeType startNodeFieldType endNodeType endNodeFieldType relationship : String) :
    Except GoError (decoratorConfig × decoratorConfig) :=
  match r.configs with
  | none => .error (.msg "no configs provided")
  | some _ =>
    match r.getConfig startNodeType relationship startNodeFieldType env.DirectionOutgoing with
    | .error err => .error err
    | .ok start =>
      match r.getConfig endNodeType relationship endNodeFieldType env.DirectionIncoming with
      | .error err => .error err
      | .ok end_ => .ok (start, end_)

/-- The configs registered under the key of a label and a relationship name and under a
field type, in the order of their registration. -/
def candidates (adds : List Registration) (nodeType relationship fieldType : String) :
    List decoratorConfig :=
  (adds.filter (fun a =>
    decide (relationConfigs.getKey a.nodeType a.relationship =
      relationConfigs.getKey nodeType relationship) &&
    decide (a.fieldType = fieldType))).map (fun a => a.dec)

/-- Some config is registered under the key of a label and a relationship name. -/
def keyRegistered (adds : List Registration) (nodeType relationship : String) : Bool :=
  adds.any (fun a => decide (relationConfigs.getKey a.nodeType a.relationship =
    relationConfigs.getKey nodeType relationship))

/-- The configs that calls of `Add` registered with the label `nodeType`, the
relationship name `relationship` and the peer type `fieldType`, in the order of the
calls. -/
def registeredConfigs (adds : List Registration) (nodeType relationship fieldType : String) :
    List decoratorConfig :=
  (adds.filter (fun a => decide (a.nodeType = nodeType) &&
    decide (a.relationship = relationship) && decide (a.fieldType = fieldType))).map
      (fun a => a.dec)

/-- Whether a call of `Add` registered a config with the label `nodeType` and the
relationship name `relationship`. -/
def pairRegistered (adds : List Registration) (nodeType relationship : String) : Bool :=
  adds.any (fun a => decide (a.nodeType = nodeType) && decide (a.relationship = relationship))

/-! ## gogm: the fields of a struct type (decorator.go) -/

/-- Go `reflect.StructField`, as far as the code reads it. `Tag` is the value the field's
tag gives for the key `gogm` (`field.Tag.Get(decoratorName)`), empty when the tag has no
such key. -/
structure StructField where
  Name : String
  Tag : String
  Typ : RType
  Anonymous : Bool
  deriving DecidableEq

/-- What `NumField` and `Field(i)` give for a struct type: its fields in declaration
order, each with the field table of its own type (`nil` for a type without fields). A
struct type holds other struct types by value to a finite depth only, so the table is a
finite tree. -/
inductive FieldTable where
  | nil
  | cons (field : StructField) (inner : FieldTable) (rest : FieldTable)
  deriving DecidableEq

/-- Go `NumField` of the struct type with this field table. -/
def FieldTable.NumField : FieldTable → Nat
  | .nil => 0
  | .cons _ _ rest => rest.NumField + 1

/-- The loop of `getFields` over the fields of a struct type, `fields` being the slice
built so far. For an anonymous field of struct kind the call `getFields(tempField.Type)`
is on a type that is not a pointer: it is this loop over the fields of that type, from
the nil slice. -/
def fieldsLoop : FieldTable → List StructField → List StructField
  | .nil, fields => fields
  | .cons tempField inner rest, fields =>
    if tempField.Anonymous ∧ tempField.Typ.Kind = .Struct then
      fieldsLoop rest (fields ++ fieldsLoop inner [])
    else
      fieldsLoop rest (fields ++ [tempField])

/-- Go `getFields(val)`, `table` being the field table of the struct type that `val` is
or points to; `none` is the panic of `NumField` on a type that is not a struct. -/
def getFields (val : RType) (table : FieldTable) : Option (List StructField) :=
  match val with
  | .ptr elem => getFields elem table
  | .leaf k _ _ => if k.toKind = .Struct then some (fieldsLoop table []) else none
  | _ => none

/-- The field is an embedded struct: it is anonymous and its type is of struct kind. -/
def StructField.embedded (f : StructField) : Bool :=
  f.Anonymous && decide (f.Typ.Kind = .Struct)

/-- The flattened field list of a struct type, in the words of the specification: every
field in declaration order, each embedded struct replaced by the flattened field list of
its own type. -/
def flattened : FieldTable → List StructField
  | .nil => []
  | .cons f inner rest => (if f.embedded then flattened inner else [f]) ++ flattened rest

/-- The number of leaf fields of a struct type: the fields that are not embedded
structs, counted through the embedded structs. -/
def leafCount : FieldTable → Nat
  | .nil => 0
  | .cons f inner rest => (if f.embedded then leafCount inner else 1) + leafCount rest

/-! ## gogm: the config of a struct type (decorator.go) -/

/-- What `getStructDecoratorConfig` asks of the types through reflection and the embedded
sources do not decide: the text of a type (`Type.String`), and what the methods
`GetStartNodeType` and `GetEndNodeType` return on a new value of an edge type (`none` is
the nil `reflect.Type`). -/
structure Accessors where
  typeString : RType → String
  GetStartNodeType : RType → Option RType
  GetEndNodeType : RType → Option RType

/-- The block of `getStructDecoratorConfig` that sets `endType` for a relationship field
of type `fieldType`. -/
def endTypeOf (acc : Accessors) (label : String) (config : decoratorConfig)
    (fieldType : RType) : Except GoError RType :=
  match fieldType with
  | .ptr elem => .ok elem
  | .slice _ _ temp =>
    if mentions (acc.typeString temp) "interface" then
      .error (.msg ("relationship field [" ++ config.Name ++ "] on type [" ++ label ++
        "] can not be a slice of generic interface"))
    else
      match temp with
      | .ptr elem => .ok elem
      | _ =>
        .error (.msg ("relationship field [" ++ config.Name ++ "] on type [" ++ label ++
          "] must a slice[]*" ++ acc.typeString temp))
  | t => .ok t

/-- The block of `getStructDecoratorConfig` that sets `endTypeName`. The accessors are
methods of the edge interface with one result, so the test `len(endTypeVal) != 1` never
holds. -/
def endTypeName (env : Env) (acc : Accessors) (config : decoratorConfig)
    (endType : RType) : Except GoError String :=
  if env.implementsEdge (.ptr endType) then
    let endTypeVal :=
      if config.Direction = env.DirectionOutgoing then acc.GetEndNodeType endType
      else acc.GetStartNodeType endType
    match endTypeVal with
    | none => .error (.msg "GetEndNodeType() can not return a nil value")
    | some convertedType =>
      match convertedType with
      | .ptr elem => .ok elem.Name
      | t => .ok t.Name
  else
    .ok endType.Name

/-- What the field loop of `getStructDecoratorConfig` updates: the registry behind
`mappedRelations` and the map `toReturn.Fields`. -/
structure ConfigState where
  mappedRelations : relationConfigs
  Fields : List (String × decoratorConfig)

/-- The body of the field loop of `getStructDecoratorConfig`, for one field: the state
after it and the error it returns with (`none` when the loop goes on). -/
def configField (env : Env) (acc : Accessors) (label : String) (state : ConfigState)
    (field : StructField) : ConfigState × Option GoError :=
  if field.Tag ≠ "" then
    match newDecoratorConfig env field.Tag field.Name field.Typ with
    | .error err => (state, some err)
    | .ok config =>
      if config.Relationship ≠ "" then
        match endTypeOf acc label config field.Typ with
        | .error err => (state, some err)
        | .ok endType =>
          match endTypeName env acc config endType with
          | .error err => (state, some err)
          | .ok name =>
            ({ mappedRelations :=
                 state.mappedRelations.Add label config.Relationship name config,
               Fields := mapSet state.Fields field.Name config }, none)
      else
        ({ state with Fields := mapSet state.Fields field.Name config }, none)
  else (state, none)

/-- The field loop of `getStructDecoratorConfig`: it stops at the first field in error. -/
def configFields (env : Env) (acc : Accessors) (label : String) :
    List StructField → ConfigState → ConfigState × Option GoError
  | [], state => (state, none)
  | field :: rest, state =>
    match configField env acc label state field with
    | (state, some err) => (state, some err)
    | (state, none) => configFields env acc label rest state

/-- Go `getStructDecoratorConfig(i, mappedRelations)`: `t` is the type of `i`, `table` the
field table of the struct it points to, `mappedRelations` the registry behind the
pointer. The result is the registry after the call with what the call returns; `none` is
the panic of `NumField` on a type that is not a struct. -/
def getStructDecoratorConfig (env : Env) (acc : Accessors) (t : RType) (table : FieldTable)
    (mappedRelations : relationConfigs) :
    Option (relationConfigs × Except GoError structDecoratorConfig) :=
  match t with
  | .ptr elem =>
    let isEdge := env.implementsEdge t
    if elem.Kind ≠ .Struct then none
    else if table.NumField = 0 then
      some (mappedRelations, .error (.msg "struct has no fields"))
    else
      match getFields elem table with
      | none => none
      | some fields =>
        if fields.length = 0 then
          some (mappedRelations, .error (.msg "failed to parse fields"))
        else
          match configFields env acc elem.Name fields
              { mappedRelations := mappedRelations, Fields := [] } with
          | (state, some err) => some (state.mappedRelations, .error err)
          | (state, none) =>
            let toReturn : structDecoratorConfig :=
              { Fields := some state.Fields, Label := elem.Name, IsVertex := !isEdge,
                Typ := elem }
            match toReturn.Validate with
            | some err => some (state.mappedRelations, .error err)
            | none => some (state.mappedRelations, .ok toReturn)
  | _ =>
    some (mappedRelations,
      .error (.msg ("must pass pointer to struct, instead got " ++ acc.typeString t)))

/-- The target type of a relationship field, in the words of the specification: the type
a pointer field points to, the type the elements of a slice of pointers point to, and
the field's own type otherwise. -/
def targetType (fieldType : RType) : RType :=
  match fieldType with
  | .ptr elem => elem
  | .slice _ _ (.ptr elem) => elem
  | t => t

/-- The peer type name of a relationship field, in the words of the specification: when
the target is an edge (the pointer to it implements the edge interface), the name of the
type its end-type accessor returns for an outgoing field, and its start-type accessor
otherwise, one pointer stripped; the name of the target when it is not an edge. `none`
when the accessor returns nil. -/
def peerTypeName (env : Env) (acc : Accessors) (target : RType) (direction : Int) :
    Option String :=
  if env.implementsEdge (.ptr target) then
    (if direction = env.DirectionOutgoing then acc.GetEndNodeType target
      else acc.GetStartNodeType target).map (fun t => (stripPointer t).Name)
  else some target.Name

/-- The registration a field is to make: none for a field without tag, with a tag that is
refused, or without relationship name; else the registration of its config under the
owner's label and the relationship name, with the peer type name as field type. -/
def registrationOf (env : Env) (acc : Accessors) (label : String) (field : StructField) :
    Option Registration :=
  if field.Tag = "" then none
  else
    match newDecoratorConfig env field.Tag field.Name field.Typ with
    | .error _ => none
    | .ok config =>
      if config.Relationship = "" then none
      else
        (peerTypeName env acc (targetType field.Typ) config.Direction).map
          (fun peer => { nodeType := label, relationship := config.Relationship,
                         fieldType := peer, dec := config })

/-- The registry after the registrations `adds`, made in order on the registry `r`. -/
def registerOn (r : relationConfigs) (adds : List Registration) : relationConfigs :=
  adds.foldl (fun r a => r.Add a.nodeType a.relationship a.fieldType a.dec) r

/-! ## gogm: the session (session.go) -/

/-- A handle on a driver transaction (`driver.Tx`); the driver is external. -/
structure Tx where
  id : Nat
  deriving DecidableEq

/-- The `Session` struct; `none` is nil for `conn` and `tx`. -/
structure Session where
  conn : Option BoltConn
  tx : Option Tx
  DefaultDepth : Int
  LoadStrategy : Int
  deriving DecidableEq

/-- What a method of the session leaves: the session after the call, the error it
returns (`none` is nil) and whether it called the driver or the pool. -/
structure SessionResult where
  session : Session
  err : Option GoError
  invoked : Bool
  deriving DecidableEq

/-- Go `NewSession`: `poolSet` tells whether `driverPool` is non-nil, `opened` is what
`driverPool.Open(mode)` returns. -/
def NewSession (poolSet : Bool) (opened : Except GoError BoltConn) : Except GoError Session :=
  if !poolSet then
    .error (.msg "driverPool cannot be nil")
  else
    match opened with
    | .error err => .error err
    | .ok conn => .ok { conn := some conn, tx := none, DefaultDepth := 1, LoadStrategy := 0 }

namespace Session

/-- Go `Session.Begin`; `driver` is what `s.conn.Begin()` returns when it is called (a
transaction, or nil with an error). -/
def Begin (s : Session) (driver : Except GoError Tx) : SessionResult :=
  match s.conn with
  | none => ⟨s, some (.msg "neo4j connection not initialized"), false⟩
  | some _ =>
    match s.tx with
    | some _ => ⟨s, some (.wrapErrTransaction "transaction already started"), false⟩
    | none =>
      match driver with
      | .error err => ⟨{ s with tx := none }, some err, true⟩
      | .ok tx => ⟨{ s with tx := some tx }, none, true⟩

/-- Go `Session.Rollback`; `driver` is what `s.tx.Rollback()` returns when it is called. -/
def Rollback (s : Session) (driver : Option GoError) : SessionResult :=
  match s.conn with
  | none => ⟨s, some (.msg "neo4j connection not initialized"), false⟩
  | some _ =>
    match s.tx with
    | none => ⟨s, some (.wrapErrTransaction "cannot Rollback nil transaction"), false⟩
    | some _ =>
      match driver with
      | some err => ⟨s, some err, true⟩
      | none => ⟨{ s with tx := none }, none, true⟩

/-- Go `Session.Commit`; `driver` is what `s.tx.Commit()` returns when it is called. -/
def Commit (s : Session) (driver : Option GoError) : SessionResult :=
  match s.conn with
  | none => ⟨s, some (.msg "neo4j connection not initialized"), false⟩
  | some _ =>
    match s.tx with
    | none => ⟨s, some (.wrapErrTransaction "cannot commit nil transaction"), false⟩
    | some _ =>
      match driver with
      | some err => ⟨s, some err, true⟩
      | none => ⟨{ s with tx := none }, none, true⟩

/-- Go `Session.Close`; `pool` is what `driverPool.Reclaim(s.conn)` returns when it is
called. (The second test of `s.conn == nil` in the source cannot be reached.) -/
def Close (s : Session) (pool : Option GoError) : SessionResult :=
  match s.conn with
  | none => ⟨s, some (.msg "neo4j connection not initialized"), false⟩
  | some _ =>
    match s.tx with
    | some _ =>
      ⟨s, some (.wrapErrTransaction "cannot close a session with a pending transaction"),
        false⟩
    | none =>
      match pool with
      | some err => ⟨s, some err, true⟩
      | none => ⟨{ s with conn := none }, none, true⟩

end Session

/-- One call on a session, with the answer the driver or the pool gives if it is asked. -/
inductive SessionStep where
  | Begin (driver : Except GoError Tx)
  | Commit (driver : Option GoError)
  | Rollback (driver : Option GoError)
  | Close (pool : Option GoError)

/-- Performs one call on the session. -/
def Session.step (s : Session) : SessionStep → SessionResult
  | .Begin driver => s.Begin driver
  | .Commit driver => s.Commit driver
  | .Rollback driver => s.Rollback driver
  | .Close pool => s.Close pool

/-- How one call changes the number of transactions open at the driver: a `Begin` the
driver answers with a transaction opens one, a `Commit` or `Rollback` the driver answers
without error closes one. -/
def SessionStep.opens (s : Session) (step : SessionStep) : Int :=
  match step with
  | .Begin (.ok _) => if (s.step step).invoked then 1 else 0
  | .Commit none => if (s.step step).invoked then -1 else 0
  | .Rollback none => if (s.step step).invoked then -1 else 0
  | _ => 0

/-- A sequence of calls on a session: the session at the end and the number of
transactions open at the driver, from `opened` at the start. -/
def Session.run (s : Session) (opened : Int) : List SessionStep → Session × Int
  | [] => (s, opened)
  | step :: rest => Session.run (s.step step).session (opened + step.opens s) rest

/-- The session `NewSession` returns when the pool opens the connection `conn`. -/
def freshSession (conn : BoltConn) : Session :=
  { conn := some conn, tx := none, DefaultDepth := 1, LoadStrategy := 0 }

/-- The texts of the errors whose constructors and sentinels are declared outside the
embedded sources: `ErrValidation`, `ErrInternal`, `ErrTransaction`, and the errors built
by `NewInvalidDecoratorConfigError` and `NewInvalidStructConfigError`. -/
structure ErrorTexts where
  ErrValidation : String
  ErrInternal : String
  ErrTransaction : String
  invalidDecoratorConfig : String → String → String
  invalidStructConfig : String → String

/-- Go `err.Error()`; `%w` prints the text of the wrapped error. -/
def GoError.Error (t : ErrorTexts) : GoError → String
  | .msg text => text
  | .InvalidDecoratorConfigError issue field => t.invalidDecoratorConfig issue field
  | .InvalidStructConfigError issue => t.invalidStructConfig issue
  | .wrapErrValidation text => text ++ ", " ++ t.ErrValidation
  | .wrapErrInternal text => text ++ ", " ++ t.ErrInternal
  | .wrapErrTransaction text => text ++ ": " ++ t.ErrTransaction

namespace Session

/-- Go `Session.RollbackWithError(originalError)` for a non-nil `originalError`; `driver`
is what `s.tx.Rollback()` returns when it is called. -/
def RollbackWithError (t : ErrorTexts) (s : Session) (originalError : GoError)
    (driver : Option GoError) : SessionResult :=
  let r := s.Rollback driver
  match r.err with
  | some err =>
    { r with err := some (.msg ("original error: `" ++ originalError.Error t ++
        "`, rollback error: `" ++ err.Error t ++ "`")) }
  | none => { r with err := some originalError }

/-- Go `Session.SaveDepth`; `answer` is what `saveDepth(s.conn, saveObj, depth)`, which
works on the connection, returns when it is called. -/
def SaveDepth (s : Session) (answer : Option GoError) : SessionResult :=
  match s.conn with
  | none => ⟨s, some (.msg "neo4j connection not initialized"), false⟩
  | some _ => ⟨s, answer, true⟩

/-- Go `Session.Delete`; `isNil` tells whether `deleteObj` is nil, `answer` is what
`deleteNode(s.conn, deleteObj)` returns when it is called. -/
def Delete (s : Session) (isNil : Bool) (answer : Option GoError) : SessionResult :=
  match s.conn with
  | none => ⟨s, some (.msg "neo4j connection not initialized"), false⟩
  | some _ =>
    if isNil then ⟨s, some (.msg "deleteObj can not be nil"), false⟩
    else ⟨s, answer, true⟩

/-- Go `Session.DeleteUUID`; `answer` is what `deleteByUuids(s.conn, uuid)` returns when
it is called. -/
def DeleteUUID (s : Session) (answer : Option GoError) : SessionResult :=
  match s.conn with
  | none => ⟨s, some (.msg "neo4j connection not initialized"), false⟩
  | some _ => ⟨s, answer, true⟩

/-- Go `Session.Query`; `answer` is the error of the query on the connection and of the
decoding of its rows, when the query is made. -/
def Query (s : Session) (answer : Option GoError) : SessionResult :=
  match s.conn with
  | none => ⟨s, some (.msg "neo4j connection not initialized"), false⟩
  | some _ => ⟨s, answer, true⟩

/-- Go `Session.QueryRaw`, by the error it returns; `answer` is the error of the query on
the connection and of the reading of its rows, when the query is made. -/
def QueryRaw (s : Session) (answer : Option GoError) : SessionResult :=
  match s.conn with
  | none => ⟨s, some (.msg "neo4j connection not initialized"), false⟩
  | some _ => ⟨s, answer, true⟩

/-- Go `Session.PurgeDatabase`; `answer` is the error of the statement on the connection,
when it is executed. -/
def PurgeDatabase (s : Session) (answer : Option GoError) : SessionResult :=
  match s.conn with
  | none => ⟨s, some (.msg "neo4j connection not initialized"), false⟩
  | some _ => ⟨s, answer, true⟩

end Session

/-- One call of a method of the session that tests the connection first, with the answer
the driver or the pool gives if it is asked. -/
inductive SessionOp where
  | Begin (driver : Except GoError Tx)
  | Commit (driver : Option GoError)
  | Rollback (driver : Option GoError)
  | SaveDepth (answer : Option GoError)
  | Delete (isNil : Bool) (answer : Option GoError)
  | DeleteUUID (answer : Option GoError)
  | Query (answer : Option GoError)
  | QueryRaw (answer : Option GoError)
  | PurgeDatabase (answer : Option GoError)
  | Close (pool : Option GoError)

/-- Performs one call on the session. -/
def Session.perform (s : Session) : SessionOp → SessionResult
  | .Begin driver => s.Begin driver
  | .Commit driver => s.Commit driver
  | .Rollback driver => s.Rollback driver
  | .SaveDepth answer => s.SaveDepth answer
  | .Delete isNil answer => s.Delete isNil answer
  | .DeleteUUID answer => s.DeleteUUID answer
  | .Query answer => s.Query answer
  | .QueryRaw answer => s.QueryRaw answer
  | .PurgeDatabase answer => s.PurgeDatabase answer
  | .Close pool => s.Close pool

/-- The session after a sequence of calls. -/
def Session.performAll (s : Session) (ops : List SessionOp) : Session :=
  ops.foldl (fun s op => (s.perform op).session) s

/-! ## gogm: entity values, node state and parameter maps (util.go) -/

/-- Modelled from the spec: the type `RelationConfig` of the entries of a load snapshot,
declared outside the embedded sources; a snapshot maps a relationship name to the peer
identifiers it was populated with at load time. -/
structure RelationConfig where
  Ids : List String
  deriving DecidableEq

/-- A Go value that is not a map of the package: a string, an `int64`, a `bool`, or any
other value, given by the text of its type and an identifier. -/
inductive Atom where
  | string (s : String)
  | int64 (n : Int)
  | bool (b : Bool)
  | other (typeString : String) (id : Nat)
  deriving DecidableEq

/-- The value of a field of an entity, or of a parameter: an atom, a `time.Time` (by its
rendering with `time.RFC3339`), a `map[string]interface{}` or a
`map[string]*RelationConfig`; `none` is the nil map. -/
inductive GoValue where
  | atom (a : Atom)
  | time (rfc3339 : String)
  | properties (m : Option (List (String × Atom)))
  | loadMap (m : Option (List (String × RelationConfig)))
  deriving DecidableEq

/-- An entity (a struct value, behind its pointer): its fields by name, the fields of
embedded structs included. -/
abbrev Entity := List (String × GoValue)

/-- The text of the type of a value, as `reflect` prints it. -/
def GoValue.typeString : GoValue → String
  | .atom (.string _) => "string"
  | .atom (.int64 _) => "int64"
  | .atom (.bool _) => "bool"
  | .atom (.other t _) => t
  | .time _ => "time.Time"
  | .properties _ => "map[string]interface \x7b\x7d"
  | .loadMap _ => "map[string]*gogm.RelationConfig"

/-- Go `reflect.Value.String` on the result of `FieldByName`: the string of a string
field, `<T Value>` for a field of another type `T`, `<invalid Value>` for no field. -/
def fieldString (e : Entity) (fieldName : String) : String :=
  match mapGet e fieldName with
  | none => "<invalid Value>"
  | some (.atom (.string s)) => s
  | some v => "<" ++ v.typeString ++ " Value>"

/-- Go `reflect.Value.Len`; `none` where Go panics (a value without length). -/
def GoValue.Len : GoValue → Option Nat
  | .atom (.string s) => some s.data.length
  | .properties (some m) => some m.length
  | .properties none => some 0
  | .loadMap (some m) => some m.length
  | .loadMap none => some 0
  | _ => none

/-- What `handleNodeState` returns, with the entity after the call. -/
structure NodeState where
  entity : Option Entity
  isNew : Bool
  uuid : String
  relConf : Option (List (String × RelationConfig))
  err : Option GoError
  deriving DecidableEq

/-- Go `handleNodeState(val, fieldName)`; `val = none` is the nil pointer, `newUuid` is
what `uuid.New().String()` returns when it is called, and the result is `none` where Go
panics (no field `LoadMap`, a `LoadMap` without length, a write to a field that is not a
string field). The test of `reflect.TypeOf(*val).Kind()` in the source looks at the type
`reflect.Value` itself, a struct: its branch is never taken. -/
def handleNodeState (newUuid : String) (val : Option Entity) (fieldName : String) :
    Option NodeState :=
  match val with
  | none => some ⟨none, false, "", none, some (.msg "value can not be nil")⟩
  | some e =>
    let checkUuid := fieldString e fieldName
    match mapGet e "LoadMap" with
    | none => none
    | some loadVal =>
      match loadVal.Len with
      | none => none
      | some len =>
        if len ≠ 0 ∧ checkUuid ≠ "" then
          match loadVal with
          | .loadMap relConf => some ⟨some e, false, checkUuid, relConf, none⟩
          | _ =>
            some ⟨some e, false, "", none,
              some (.wrapErrInternal "unable to cast conf to [map[string]*RelationConfig]")⟩
        else
          let newUuid := if checkUuid = "" then newUuid else checkUuid
          match mapGet e fieldName with
          | some (.atom (.string _)) =>
            some ⟨some (mapSet e fieldName (.atom (.string newUuid))), true, newUuid, some [],
              none⟩
          | _ => none

/-- How an iteration or a loop of `toCypherParamsMap` ends: normally, by `return nil,
err`, or by a panic. -/
inductive LoopOutcome (α : Type) where
  | ok (a : α)
  | error (err : GoError)
  | panic

/-- The skip condition of the loop of `toCypherParamsMap`. -/
def skipsField (conf : decoratorConfig) : Bool :=
  decide (conf.Relationship ≠ "") || decide (conf.Name = "id") || conf.Ignore

/-- One iteration of the loop of `toCypherParamsMap`: the assignments `ret[key] = value`
it makes, in order. `conv v t` is `reflect.Value.Convert` of the value to the type,
`none` where it panics; reading a field the entity does not have panics. -/
def fieldParams (conv : GoValue → RType → Option GoValue) (val : Entity)
    (conf : decoratorConfig) : LoopOutcome (List (String × GoValue)) :=
  if skipsField conf then
    .ok []
  else if conf.IsTime then
    if conf.Typ.Kind = .Int64 then
      match mapGet val conf.FieldName with
      | none => .panic
      | some v => .ok [(conf.Name, v)]
    else
      match mapGet val conf.FieldName with
      | none => .panic
      | some (.time rfc3339) => .ok [(conf.Name, .atom (.string rfc3339))]
      | some _ => .error (.msg "cant convert date to time.Time")
  else if conf.Properties then
    if conf.Typ.Kind = .Map then
      match mapGet val conf.FieldName with
      | none => .panic
      | some (.properties propsMap) =>
        .ok ((propsMap.getD []).map (fun kv => (conf.Name ++ "." ++ kv.1, .atom kv.2)))
      | some _ => .error (.msg "unable to convert map to map[string]interface\x7b\x7d")
    else
      .error (.msg "properties type is not a map")
  else if conf.IsTypeDef then
    match mapGet val conf.FieldName, conf.TypedefActual with
    | some v, some actual =>
      match conv v actual with
      | none => .panic
      | some converted => .ok [(conf.Name, converted)]
    | _, _ => .panic
  else
    match mapGet val conf.FieldName with
    | none => .panic
    | some v => .ok [(conf.Name, v)]

/-- Makes the assignments `ret[key] = value` in order. -/
def assignAll (ret : List (String × GoValue)) (writes : List (String × GoValue)) :
    List (String × GoValue) :=
  writes.foldl (fun r kv => mapSet r kv.1 kv.2) ret

/-- The loop `for _, conf := range config.Fields` of `toCypherParamsMap`, over the
entries as visited. -/
def paramsLoop (conv : GoValue → RType → Option GoValue) (val : Entity) :
    List (String × decoratorConfig) → List (String × GoValue) →
      LoopOutcome (List (String × GoValue))
  | [], ret => .ok ret
  | (_, conf) :: rest, ret =>
    match fieldParams conv val conf with
    | .ok writes => paramsLoop conv val rest (assignAll ret writes)
    | .error err => .error err
    | .panic => .panic

/-- Go `toCypherParamsMap(val, config)`: the pair `(map, error)`, `none` being nil. The
fields are visited in the order of the list `config.Fields`. A panic is recovered by the
deferred function, which sets the local variable `err` only: the results, which are not
named, are then `(nil, nil)`. -/
def toCypherParamsMap (conv : GoValue → RType → Option GoValue) (val : Entity)
    (config : structDecoratorConfig) :
    Option (List (String × GoValue)) × Option GoError :=
  match paramsLoop conv val (config.Fields.getD []) [] with
  | .ok ret => (some ret, none)
  | .error err => (none, some err)
  | .panic => (none, none)

/-! ## Sample values, from the example application (models.go) -/

/-- A sample environment: the four directions numbered from zero, the pointer to the
example's `Enrollment` as the only edge type, and no lowering of non-ASCII runes. -/
def sampleEnv : Env :=
  { DirectionOutgoing := 0, DirectionIncoming := 1, DirectionNone := 2, DirectionBoth := 3,
    directionToString := fun d => toString d,
    implementsEdge := fun t => decide (t = .ptr (.leaf .Struct "main" "Enrollment")),
    lowerRune := id }

/-- The type `[]*Subject` of the field `Department.Subjects`. -/
def sampleSubjectsType : RType :=
  .slice "" "" (.ptr (.leaf .Struct "main" "Subject"))

/-- The config of a relationship field named `fieldName` of type `typ`. -/
def sampleRelation (fieldName relationship : String) (direction : Int) (typ : RType)
    (many : Bool) : decoratorConfig :=
  { Typ := typ, Name := fieldName, FieldName := fieldName, Relationship := relationship,
    Direction := direction, Unique := false, Index := false, ManyRelationship := many,
    UsesEdgeNode := false, PrimaryKey := false, Properties := false, IsTime := false,
    IsTypeDef := false, TypedefActual := none, Ignore := false }

/-- The config of the field `UUID string` with the tag `pk;name=uuid`. -/
def sampleUUID : decoratorConfig :=
  { Typ := .leaf .String "" "string", Name := "uuid", FieldName := "UUID",
    Relationship := "", Direction := 0, Unique := false, Index := false,
    ManyRelationship := false, UsesEdgeNode := false, PrimaryKey := true,
    Properties := false, IsTime := false, IsTypeDef := false, TypedefActual := none,
    Ignore := false }

/-- The config of the field `Name string` with the tag `name=name`. -/
def sampleName : decoratorConfig :=
  { Typ := .leaf .String "" "string", Name := "name", FieldName := "Name",
    Relationship := "", Direction := 0, Unique := false, Index := false,
    ManyRelationship := false, UsesEdgeNode := false, PrimaryKey := false,
    Properties := false, IsTime := false, IsTypeDef := false, TypedefActual := none,
    Ignore := false }

/-- A field map with one primary key and one relationship field. -/
def sampleFields : List (String × decoratorConfig) :=
  [("UUID", sampleUUID), ("Name", sampleName),
    ("Subjects", sampleRelation "Subjects" "CURRICULUM" 0 sampleSubjectsType true)]

/-- A node-kind entity config over `sampleFields`. -/
def sampleNode : structDecoratorConfig :=
  { Fields := some sampleFields, Label := "Department", IsVertex := true,
    Typ := .leaf .Struct "main" "Department" }

/-- An edge-kind entity config over `sampleFields`, which hold a relationship field. -/
def sampleEdge : structDecoratorConfig :=
  { Fields := some sampleFields, Label := "Enrollment", IsVertex := false,
    Typ := .leaf .Struct "main" "Enrollment" }

/-- A registration of `Department.Subjects` alone: `CURRICULUM` is declared outgoing once
and incoming never. -/
def sampleAdds : List Registration :=
  [{ nodeType := "Department", relationship := "CURRICULUM", fieldType := "Subject",
     dec := sampleRelation "Subjects" "CURRICULUM" 0 sampleSubjectsType true }]

/-- An entity with a load snapshot and an empty `UUID`. -/
def sampleLoaded : Entity :=
  [("UUID", .atom (.string "")), ("Name", .atom (.string "cs341")),
    ("LoadMap", .loadMap (some [("TEACHES_CLASS", ⟨["t1"]⟩)]))]

/-- An entity config whose only field is the primary key `UUID`. -/
def sampleKeyOnly : structDecoratorConfig :=
  { Fields := some [("UUID", sampleUUID)], Label := "Course", IsVertex := true,
    Typ := .leaf .Struct "main" "Course" }

/-- The config of a field `Meta map[string]interface{}` with the tag
`name=id;properties`. -/
def sampleIdProperties : decoratorConfig :=
  { Typ := mapStringInterfaceType, Name := "id", FieldName := "Meta", Relationship := "",
    Direction := 0, Unique := false, Index := false, ManyRelationship := false,
    UsesEdgeNode := false, PrimaryKey := false, Properties := true, IsTime := false,
    IsTypeDef := false, TypedefActual := none, Ignore := false }

/-- The config of the field `Grades map[string]interface{}` with the tag
`name=grades;properties`. -/
def sampleGrades : decoratorConfig :=
  { sampleIdProperties with Name := "grades", FieldName := "Grades" }

/-- An entity config whose only field is `Meta`, a properties map stored as `id`. -/
def sampleIdPropertiesOnly : structDecoratorConfig :=
  { Fields := some [("Meta", sampleIdProperties)], Label := "Course", IsVertex := true,
    Typ := .leaf .Struct "main" "Course" }

/-- Registrations of the example: `Teacher.Courses` and `Course.Teacher` for
`TEACHES_CLASS`, and a second, incoming, declaration of `TEACHES_CLASS` on `Teacher`
towards `Course`. -/
def samplePairAdds : List Registration :=
  [{ nodeType := "Teacher", relationship := "TEACHES_CLASS", fieldType := "Course",
     dec := sampleRelation "Courses" "TEACHES_CLASS" 0
       (.slice "" "" (.ptr (.leaf .Struct "main" "Course"))) true },
   { nodeType := "Course", relationship := "TEACHES_CLASS", fieldType := "Teacher",
     dec := sampleRelation "Teacher" "TEACHES_CLASS" 1
       (.ptr (.leaf .Struct "main" "Teacher")) false },
   { nodeType := "Teacher", relationship := "TEACHES_CLASS", fieldType := "Course",
     dec := sampleRelation "Assists" "TEACHES_CLASS" 1
       (.slice "" "" (.ptr (.leaf .Struct "main" "Course"))) true },
   { nodeType := "Course", relationship := "TEACHES_CLASS", fieldType := "Teacher",
     dec := sampleRelation "Assistant" "TEACHES_CLASS" 0
       (.ptr (.leaf .Struct "main" "Teacher")) false }]

/-- Registrations of the example for `CURRICULUM`: `Department.Subjects`, outgoing, and
`Subject.Department`, incoming. -/
def sampleBalancedAdds : List Registration :=
  [{ nodeType := "Department", relationship := "CURRICULUM", fieldType := "Subject",
     dec := sampleRelation "Subjects" "CURRICULUM" 0 sampleSubjectsType true },
   { nodeType := "Subject", relationship := "CURRICULUM", fieldType := "Department",
     dec := sampleRelation "Department" "CURRICULUM" 1
       (.ptr (.leaf .Struct "main" "Department")) false }]

/-- The type `int64`. -/
def sampleInt64 : RType := .leaf .Int64 "" "int64"

/-- The type `string`. -/
def sampleString : RType := .leaf .String "" "string"

/-- The type `[]*Enrollment` of the fields `Student.Enrollments` and `Course.Enrollments`. -/
def sampleEnrollmentsType : RType :=
  .slice "" "" (.ptr (.leaf .Struct "main" "Enrollment"))

/-- The named type `Grade`, defined over `int`. -/
def sampleGradeType : RType := .leaf .Int "main" "Grade"

/-- Two stagings around a failing call: the second build fails. -/
def sampleStagings : List Staging :=
  [{ calls := [.Match (some (.ok "(n)")), .Return (.ok "RETURN n")], params := 1 },
   { calls := [.Limit 5], params := 2 },
   { calls := [.Where none], params := 3 }]

/-- A field of the base node: `UUID string`, tagged `pk;name=uuid`. -/
def sampleUUIDField : StructField :=
  { Name := "UUID", Tag := "pk;name=uuid", Typ := sampleString, Anonymous := false }

/-- A base node with the fields `Id`, `UUID` and `LoadMap`, the last one ignored. -/
def sampleBaseNodeTable : FieldTable :=
  .cons { Name := "Id", Tag := "name=id", Typ := sampleInt64, Anonymous := false } .nil
    (.cons sampleUUIDField .nil
      (.cons { Name := "LoadMap", Tag := "-",
               Typ := .map "" "" sampleString (.ptr (.leaf .Struct "gogm" "RelationConfig")),
               Anonymous := false } .nil .nil))

/-- The field `Enrollments` of `Student`, from models.go. -/
def sampleStudentEnrollments : StructField :=
  { Name := "Enrollments", Tag := "direction=outgoing;relationship=ENROLLED",
    Typ := sampleEnrollmentsType, Anonymous := false }

/-- The field `Enrollments` of `Course`, from models.go. -/
def sampleCourseEnrollments : StructField :=
  { Name := "Enrollments", Tag := "direction=incoming;relationship=ENROLLED",
    Typ := sampleEnrollmentsType, Anonymous := false }

/-- The struct `Student` of models.go, over the sample base node. -/
def sampleStudentTable : FieldTable :=
  .cons { Name := "BaseNode", Tag := "", Typ := .leaf .Struct "gogm" "BaseNode",
          Anonymous := true } sampleBaseNodeTable
    (.cons { Name := "Name", Tag := "name=name;unique", Typ := sampleString,
             Anonymous := false } .nil
      (.cons { Name := "Grades", Tag := "name=grades;properties",
               Typ := mapStringInterfaceType, Anonymous := false } .nil
        (.cons sampleStudentEnrollments .nil .nil)))

/-- The accessors of the example: `Enrollment` starts at `*Student` and ends at
`*Course` (models.go); a type is written as its name, pointers with a star. -/
def sampleAccessors : Accessors :=
  { typeString := fun t =>
      match t with
      | .ptr e => "*main." ++ e.Name
      | t => "main." ++ t.Name,
    GetStartNodeType := fun t =>
      if t = .leaf .Struct "main" "Enrollment" then
        some (.ptr (.leaf .Struct "main" "Student"))
      else none,
    GetEndNodeType := fun t =>
      if t = .leaf .Struct "main" "Enrollment" then
        some (.ptr (.leaf .Struct "main" "Course"))
      else none }

/-- The config of the field `Enrollments` of `Student` and `Course`, with its direction. -/
def sampleEnrollments (direction : Int) : decoratorConfig :=
  { sampleRelation "Enrollments" "ENROLLED" direction sampleEnrollmentsType true with
    UsesEdgeNode := true }

/-- The config of a field `Created *int64` with the tag `time`. -/
def sampleCreatedTime : decoratorConfig :=
  { Typ := .ptr sampleInt64, Name := "Created", FieldName := "Created",
    Relationship := "", Direction := 0, Unique := false, Index := false,
    ManyRelationship := false, UsesEdgeNode := false, PrimaryKey := false,
    Properties := false, IsTime := true, IsTypeDef := false,
    TypedefActual := none, Ignore := false }

/-- An entity without the field `UUID`. -/
def sampleNameOnly : Entity := [("Name", .atom (.string "cs341"))]

/-- A struct `Club` with a relationship field and no primary key. -/
def sampleNoKeyTable : FieldTable :=
  .cons { Name := "Members", Tag := "direction=outgoing;relationship=MEMBER",
          Typ := .slice "" "" (.ptr (.leaf .Struct "main" "Student")), Anonymous := false }
    .nil .nil

/-- A struct `Club` with a primary key, a relationship field and then a field whose tag
holds an unknown flag. -/
def sampleMalformedTable : FieldTable :=
  .cons sampleUUIDField .nil
    (.cons { Name := "Members", Tag := "direction=outgoing;relationship=MEMBER",
             Typ := .slice "" "" (.ptr (.leaf .Struct "main" "Student")),
             Anonymous := false } .nil
      (.cons { Name := "Motto", Tag := "name=motto;uniqe", Typ := sampleString,
               Anonymous := false } .nil .nil))

/-- The registration of the field `Members` of `Club`. -/
def sampleMembers : Registration :=
  { nodeType := "Club", relationship := "MEMBER", fieldType := "Student",
    dec := sampleRelation "Members" "MEMBER" 0
      (.slice "" "" (.ptr (.leaf .Struct "main" "Student"))) true }

/-- Sample texts for the errors declared outside the embedded sources. -/
def sampleTexts : ErrorTexts :=
  { ErrValidation := "validation failed", ErrInternal := "internal error",
    ErrTransaction := "transaction error",
    invalidDecoratorConfig := fun issue field => issue ++ " (" ++ field ++ ")",
    invalidStructConfig := fun issue => issue }

/-- Two registrations whose labels and relationship names differ and give one key. -/
def sampleHyphenAdds : List Registration :=
  [{ nodeType := "a-b", relationship := "c", fieldType := "X",
     dec := sampleRelation "F" "c" 0 sampleSubjectsType true },
   { nodeType := "a", relationship := "b-c", fieldType := "Y",
     dec := sampleRelation "G" "b-c" 1 sampleSubjectsType true }]

/-- Two registrations with the label `a-b` and the relationship name `c`, whose key is
also the key of the label `a` and the relationship name `b-c`. -/
def sampleCollidingAdds : List Registration :=
  [{ nodeType := "a-b", relationship := "c", fieldType := "X",
     dec := sampleRelation "F" "c" 0 sampleSubjectsType true },
   { nodeType := "a-b", relationship := "c", fieldType := "Y",
     dec := sampleRelation "G" "c" 1 sampleSubjectsType true }]

/-- The entity config `sampleKeyOnly` with one more field, `Name`. -/
def sampleKeyAndName : structDecoratorConfig :=
  { Fields := some [("UUID", sampleUUID), ("Name", sampleName)], Label := "Course",
    IsVertex := true, Typ := .leaf .Struct "main" "Course" }

/-! ## Lemmas on strings -/

theorem TrimSuffix_append (s t : String) : TrimSuffix (s ++ t) t = s := by
  have h : HasSuffix (s ++ t) t = true := by
    simp [HasSuffix, String.data_append, List.isSuffixOf_iff_suffix]
  simp [TrimSuffix, h, String.data_append]

theorem intercalate_go_append (s p acc : String) (l : List String) :
    String.intercalate.go (p ++ acc) s l = p ++ String.intercalate.go acc s l := by
  induction l generalizing acc with
  | nil => simp [String.intercalate.go]
  | cons a l ih =>
    simp only [String.intercalate.go]
    rw [String.append_assoc, String.append_assoc, ← String.append_assoc acc, ih]

theorem foldl_sep_eq_go (s acc : String) (l : List String) :
    l.foldl (fun x e => x ++ (e ++ s)) (acc ++ s) = String.intercalate.go acc s l ++ s := by
  induction l generalizing acc with
  | nil => simp [String.intercalate.go]
  | cons a l ih =>
    simp only [List.foldl_cons, String.intercalate.go]
    rw [← ih]
    simp [String.append_assoc]

/-- Appending `e ++ s` for every element, starting from `p`, is `p`, the elements joined by
`s`, and one more `s`. -/
theorem foldl_sep_eq_intercalate (s p : String) (l : List String) (h : l ≠ []) :
    l.foldl (fun x e => x ++ (e ++ s)) p = p ++ s.intercalate l ++ s := by
  cases l with
  | nil => exact absurd rfl h
  | cons a l =>
    simp only [List.foldl_cons, String.intercalate]
    rw [← String.append_assoc, foldl_sep_eq_go, intercalate_go_append]

/-! ## Lemmas on the builder's linked list -/

namespace QueryBuilder

theorem Linked_QB : QB.Linked [] := by
  simp [Linked, QB]

theorem Linked.addError {q : QueryBuilder} {parts : List String} (h : q.Linked parts)
    (e : String) : (q.addError e).Linked parts := by
  simpa [Linked, QueryBuilder.addError] using h

theorem Linked.addNext {q : QueryBuilder} {parts : List String} (h : q.Linked parts)
    (s : String) :
    ∃ q1, q.addNext s = some q1 ∧ q1.Linked (parts ++ [s]) ∧ q1.errors = q.errors ∧
      q1.conn = q.conn ∧ q1.preparedStatements = q.preparedStatements := by
  obtain ⟨hlen, hnode, hstart, hcur⟩ := h
  rcases Nat.eq_zero_or_pos parts.length with h0 | hpos
  · have hp : parts = [] := List.length_eq_zero.mp h0
    subst hp
    have hheap : q.heap = [] := List.length_eq_zero.mp (by simpa using hlen)
    simp only [List.length_nil, if_true] at hstart hcur
    have hadd : q.addNext s = some { q with
        heap := q.heap ++ [{ Part := s, Next := none }],
        Start := some q.heap.length,
        Current := some q.heap.length } := by
      simp [QueryBuilder.addNext, hstart]
    refine ⟨_, hadd, ?_, rfl, rfl, rfl⟩
    simp [Linked, hheap]
  · have hne : parts.length ≠ 0 := Nat.pos_iff_ne_zero.mp hpos
    simp only [hne, if_false] at hstart hcur
    have hlast := hnode (parts.length - 1) (by omega)
    have hlt : parts.length - 1 < q.heap.length := by omega
    have hnot : ¬ (parts.length - 1 + 1 < parts.length) := by omega
    simp only [hnot, if_false] at hlast
    have hget : (q.heap ++ [{ Part := s, Next := none }])[parts.length - 1]? =
        some ⟨parts[parts.length - 1], none⟩ := by
      rw [List.getElem?_append_left hlt, hlast]
    have hadd : q.addNext s = some { q with
        heap := (q.heap ++ [(⟨s, none⟩ : queryPartNode)]).set (parts.length - 1)
          ⟨parts[parts.length - 1], some q.heap.length⟩,
        Current := some q.heap.length } := by
      simp [QueryBuilder.addNext, hstart, hcur, hget]
    refine ⟨_, hadd, ?_, rfl, rfl, rfl⟩
    refine ⟨by simp [hlen], ?_, by simp [hstart], by simp [hlen]⟩
    intro i hi
    simp only [List.length_append, List.length_singleton] at hi
    simp only [List.getElem?_set, List.length_append, List.length_singleton]
    by_cases hil : i = parts.length - 1
    · subst hil
      have h1 : parts.length - 1 < q.heap.length + 1 := by omega
      have h2 : parts.length - 1 + 1 < parts.length + 1 := by omega
      have h3 : parts.length - 1 + 1 = q.heap.length := by omega
      simp [h1, h2, h3, List.getElem_append_left, hpos]
      omega
    · have hne2 : ¬ (parts.length - 1 = i) := fun h => hil h.symm
      simp only [hne2, if_false]
      by_cases hin : i < parts.length
      · rw [List.getElem?_append_left (by omega), hnode i hin]
        have h2 : i + 1 < parts.length + 1 := by omega
        simp [h2, List.getElem_append_left, hin]
        omega
      · have hieq : i = parts.length := by omega
        subst hieq
        rw [List.getElem?_append_right (by omega)]
        simp [hlen]

theorem Linked.walk {q : QueryBuilder} {parts : List String} (h : q.Linked parts) :
    ∀ (fuel i : Nat) (acc : String), i ≤ parts.length → parts.length - i ≤ fuel →
      QueryBuilder.walk q.heap fuel (if i < parts.length then some i else none) acc =
        some ((parts.drop i).foldl (fun x p => x ++ (p ++ " ")) acc) := by
  obtain ⟨_, hnode, _, _⟩ := h
  intro fuel
  induction fuel with
  | zero =>
    intro i acc hi hf
    have : i = parts.length := by omega
    subst this
    simp [QueryBuilder.walk]
  | succ fuel ih =>
    intro i acc hi hf
    by_cases hlt : i < parts.length
    · have hd : parts.drop i = parts[i] :: parts.drop (i + 1) := List.drop_eq_getElem_cons hlt
      simp only [hlt, if_true, QueryBuilder.walk, hnode i hlt, hd, List.foldl_cons]
      exact ih (i + 1) _ (by omega) (by omega)
    · have : i = parts.length := by omega
      subst this
      simp [QueryBuilder.walk]

theorem Linked.walkParts {q : QueryBuilder} {parts : List String} (h : q.Linked parts) :
    ∀ (fuel i : Nat), i ≤ parts.length → parts.length - i ≤ fuel →
      QueryBuilder.walkParts q.heap fuel (if i < parts.length then some i else none) =
        some (parts.drop i) := by
  obtain ⟨_, hnode, _, _⟩ := h
  intro fuel
  induction fuel with
  | zero =>
    intro i hi hf
    have : i = parts.length := by omega
    subst this
    simp [QueryBuilder.walkParts]
  | succ fuel ih =>
    intro i hi hf
    by_cases hlt : i < parts.length
    · have hd : parts.drop i = parts[i] :: parts.drop (i + 1) := List.drop_eq_getElem_cons hlt
      simp only [hlt, if_true, QueryBuilder.walkParts, hnode i hlt, hd]
      rw [ih (i + 1) (by omega) (by omega)]
      rfl
    · have : i = parts.length := by omega
      subst this
      simp [QueryBuilder.walkParts]

theorem Linked.clauses {q : QueryBuilder} {parts : List String} (h : q.Linked parts) :
    q.clauses = some parts := by
  have hw := h.walkParts q.heap.length 0 (Nat.zero_le _) (by rw [h.1]; omega)
  have hs : q.Start = (if 0 < parts.length then some 0 else none) := by
    rw [h.2.2.1]
    by_cases hp : parts.length = 0
    · simp [hp]
    · simp [hp, Nat.pos_of_ne_zero hp]
  simpa [QueryBuilder.clauses, hs] using hw

/-- On a builder without recorded errors whose list is laid out as the non-empty `parts`,
`build` returns the parts joined by single spaces. -/
theorem Linked.build_ok {q : QueryBuilder} {parts : List String} (h : q.Linked parts)
    (herr : q.errors = []) (hne : parts ≠ []) :
    q.build = some (" ".intercalate parts, none) := by
  have hlen : parts.length ≠ 0 := fun h0 => hne (List.length_eq_zero.mp h0)
  have hw := h.walk q.heap.length 0 "" (Nat.zero_le _) (by rw [h.1]; omega)
  simp only [Nat.pos_of_ne_zero hlen, if_true, List.drop_zero] at hw
  obtain ⟨_, _, hstart, hcur⟩ := h
  simp only [hlen, if_false] at hstart hcur
  rw [foldl_sep_eq_intercalate " " "" parts hne, String.empty_append] at hw
  simp [QueryBuilder.build, QueryBuilder.hasErrors, herr, hstart, hcur, hw, TrimSuffix_append]

/-- On a builder with recorded errors, `build` returns the aggregated message. -/
theorem build_errors (q : QueryBuilder) (herr : q.errors ≠ []) :
    q.build = some ("", some ("errors found: " ++ ";".intercalate q.errors ++
      (" -- total errors (" ++ sprintInt q.errors.length ++ ")"))) := by
  have hpos : q.errors.length > 0 := List.length_pos.mpr herr
  simp [QueryBuilder.build, QueryBuilder.hasErrors, hpos,
    foldl_sep_eq_intercalate ";" "errors found: " q.errors herr, TrimSuffix_append]

end QueryBuilder

/-! ## The effect of one call and of a chain of calls -/

theorem Effect.err (e : String) : Effect (fun q => some (q.addError e)) [e] [] := by
  intro q parts h
  exact ⟨_, rfl, by simpa using h.addError e, rfl⟩

theorem Effect.next (s : String) : Effect (fun q => q.addNext s) [] [s] := by
  intro q parts h
  obtain ⟨q1, h1, h2, h3, _⟩ := h.addNext s
  exact ⟨q1, h1, h2, by simp [h3]⟩

theorem Effect.errNext (e s : String) :
    Effect (fun q => (q.addError e).addNext s) [e] [s] := by
  intro q parts h
  obtain ⟨q1, h1, h2, h3, _⟩ := (h.addError e).addNext s
  exact ⟨q1, h1, h2, by simp [h3, QueryBuilder.addError]⟩

theorem Effect.conn (c : BoltConn) :
    Effect (fun q => some { q with conn := some c }) [] [] := by
  intro q parts h
  refine ⟨_, rfl, ?_, by simp⟩
  simpa [QueryBuilder.Linked] using h

/-- Every call returns normally on a well laid out builder, records at most one error and
appends at most one clause, whatever was recorded before. -/
theorem Call.effect (c : Call) :
    ∃ es ps, es.length ≤ 1 ∧ ps.length ≤ 1 ∧ Effect (fun q => c.apply q) es ps := by
  cases c with
  | Match p =>
    rcases p with _ | e | s
    · exact ⟨_, _, by simp, by simp, Effect.err _⟩
    · exact ⟨_, _, by simp, by simp, Effect.err e⟩
    · exact ⟨_, _, by simp, by simp, Effect.next _⟩
  | OptionalMatch p =>
    rcases p with _ | e | s
    · exact ⟨_, _, by simp, by simp, Effect.err _⟩
    · exact ⟨_, _, by simp, by simp, Effect.err e⟩
    · exact ⟨_, _, by simp, by simp, Effect.next _⟩
  | Create c err =>
    rcases err with _ | e
    · exact ⟨_, _, by simp, by simp, Effect.next _⟩
    · exact ⟨_, _, by simp, by simp, Effect.err e⟩
  | Where p =>
    rcases p with _ | e | s
    · exact ⟨_, _, by simp, by simp, Effect.err _⟩
    · exact ⟨_, _, by simp, by simp, Effect.err e⟩
    · exact ⟨_, _, by simp, by simp, Effect.next _⟩
  | Merge p =>
    rcases p with _ | e | s
    · exact ⟨_, _, by simp, by simp, Effect.err _⟩
    · exact ⟨_, _, by simp, by simp, Effect.err e⟩
    · exact ⟨_, _, by simp, by simp, Effect.next _⟩
  | Return r =>
    rcases r with e | s
    · exact ⟨_, _, by simp, by simp, Effect.err e⟩
    · exact ⟨_, _, by simp, by simp, Effect.next _⟩
  | Delete r =>
    rcases r with e | s
    · exact ⟨_, _, by simp, by simp, Effect.err e⟩
    · exact ⟨_, _, by simp, by simp, Effect.next _⟩
  | Set sets =>
    by_cases h0 : sets.length = 0
    · refine ⟨["sets can not be empty"], [], by simp, by simp, ?_⟩
      simpa [Call.apply, QueryBuilder.Set, h0] using Effect.err "sets can not be empty"
    · cases hr : QueryBuilder.renderItems sets "SET" with
      | error e =>
        refine ⟨[e], [], by simp, by simp, ?_⟩
        simpa [Call.apply, QueryBuilder.Set, h0, hr] using Effect.err e
      | ok s =>
        refine ⟨[], [TrimSuffix s ","], by simp, by simp, ?_⟩
        simpa [Call.apply, QueryBuilder.Set, h0, hr] using Effect.next (TrimSuffix s ",")
  | Remove l =>
    by_cases h0 : l.length = 0
    · have hl : l = [] := List.length_eq_zero.mp h0
      subst hl
      refine ⟨["removes can not be empty"], [TrimSuffix "REMOVE" ","], by simp, by simp, ?_⟩
      simpa [Call.apply, QueryBuilder.Remove, QueryBuilder.renderItems] using
        Effect.errNext "removes can not be empty" (TrimSuffix "REMOVE" ",")
    · cases hr : QueryBuilder.renderItems l "REMOVE" with
      | error e =>
        refine ⟨[e], [], by simp, by simp, ?_⟩
        simpa [Call.apply, QueryBuilder.Remove, h0, hr] using Effect.err e
      | ok s =>
        refine ⟨[], [TrimSuffix s ","], by simp, by simp, ?_⟩
        simpa [Call.apply, QueryBuilder.Remove, h0, hr] using Effect.next (TrimSuffix s ",")
  | OrderBy l =>
    by_cases h0 : l.length = 0
    · have hl : l = [] := List.length_eq_zero.mp h0
      subst hl
      refine ⟨["removes can not be empty"], [TrimSuffix "ORDER BY" ","], by simp, by simp, ?_⟩
      simpa [Call.apply, QueryBuilder.OrderBy, QueryBuilder.renderItems] using
        Effect.errNext "removes can not be empty" (TrimSuffix "ORDER BY" ",")
    · cases hr : QueryBuilder.renderItems l "ORDER BY" with
      | error e =>
        refine ⟨[e], [], by simp, by simp, ?_⟩
        simpa [Call.apply, QueryBuilder.OrderBy, h0, hr] using Effect.err e
      | ok s =>
        refine ⟨[], [TrimSuffix s ","], by simp, by simp, ?_⟩
        simpa [Call.apply, QueryBuilder.OrderBy, h0, hr] using Effect.next (TrimSuffix s ",")
  | Limit n => exact ⟨_, _, by simp, by simp, Effect.next _⟩
  | Skip n => exact ⟨_, _, by simp, by simp, Effect.next _⟩
  | With p =>
    rcases p with _ | e | s
    · exact ⟨_, _, by simp, by simp, Effect.err _⟩
    · exact ⟨_, _, by simp, by simp, Effect.err e⟩
    · exact ⟨_, _, by simp, by simp, Effect.next _⟩
  | Unwind p =>
    rcases p with _ | e | s
    · exact ⟨_, _, by simp, by simp, Effect.err _⟩
    · exact ⟨_, _, by simp, by simp, Effect.err e⟩
    · exact ⟨_, _, by simp, by simp, Effect.next _⟩
  | Union all => exact ⟨_, _, by simp, by simp, Effect.next _⟩
  | Cypher s => exact ⟨_, _, by simp, by simp, Effect.next s⟩
  | WithNeo conn =>
    rcases conn with _ | c
    · exact ⟨_, _, by simp, by simp, Effect.err _⟩
    · exact ⟨[], [], by simp, by simp, Effect.conn c⟩

/-- What a call has as effect is what it is observed to record and append on a fresh
builder. -/
theorem Effect.observed {c : Call} {es ps : List String}
    (h : Effect (fun q => c.apply q) es ps) : c.recorded = es ∧ c.appended = ps := by
  obtain ⟨q1, h1, h2, h3⟩ := h QB [] QueryBuilder.Linked_QB
  have h1 : c.apply QB = some q1 := h1
  constructor
  · have hq : QB.errors = [] := rfl
    simp [Call.recorded, h1, h3, hq]
  · have h2 : q1.Linked ps := by simpa using h2
    simp [Call.appended, h1, h2.clauses]

theorem Call.frame (c : Call) : Effect (fun q => c.apply q) c.recorded c.appended := by
  obtain ⟨es, ps, _, _, h⟩ := c.effect
  obtain ⟨h1, h2⟩ := h.observed
  rw [h1, h2]
  exact h

theorem Call.recorded_length_le (c : Call) : c.recorded.length ≤ 1 := by
  obtain ⟨es, ps, h1, _, h⟩ := c.effect
  rw [h.observed.1]
  exact h1

/-- A chain of calls returns normally, and records and appends what its calls record and
append, in call order. -/
theorem runCalls_frame (calls : List Call) :
    Effect (fun q => runCalls q calls) (calls.flatMap Call.recorded)
      (calls.flatMap Call.appended) := by
  induction calls with
  | nil =>
    intro q parts h
    exact ⟨q, rfl, by simpa using h, by simp⟩
  | cons c rest ih =>
    intro q parts h
    obtain ⟨q1, h1, h2, h3⟩ := c.frame q parts h
    obtain ⟨q2, h4, h5, h6⟩ := ih q1 _ h2
    have h1 : c.apply q = some q1 := h1
    have h4 : runCalls q1 rest = some q2 := h4
    refine ⟨q2, by simp [runCalls, h1, h4], ?_, ?_⟩
    · simpa [List.flatMap_cons, List.append_assoc] using h5
    · simp [h6, h3, List.flatMap_cons, List.append_assoc]

theorem runCalls_QB (calls : List Call) :
    ∃ q, runCalls QB calls = some q ∧ q.Linked (calls.flatMap Call.appended) ∧
      q.errors = calls.flatMap Call.recorded := by
  obtain ⟨q, h1, h2, h3⟩ := runCalls_frame calls QB [] QueryBuilder.Linked_QB
  exact ⟨q, h1, by simpa using h2, by simpa [QB] using h3⟩

theorem recorded_nil_of_not_fails {c : Call} (h : c.fails = false) : c.recorded = [] := by
  simpa [Call.fails, List.isEmpty_iff] using h

theorem flatMap_recorded_nil {calls : List Call} (h : ∀ c ∈ calls, c.fails = false) :
    calls.flatMap Call.recorded = [] := by
  induction calls with
  | nil => rfl
  | cons c rest ih =>
    rw [List.flatMap_cons, recorded_nil_of_not_fails (h c (List.mem_cons_self _ _)),
      ih (fun d hd => h d (List.mem_cons_of_mem _ hd))]
    rfl

/-- One message is recorded per failing call. -/
theorem flatMap_recorded_length (calls : List Call) :
    (calls.flatMap Call.recorded).length = calls.countP Call.fails := by
  induction calls with
  | nil => rfl
  | cons c rest ih =>
    rw [List.flatMap_cons, List.length_append, ih, List.countP_cons]
    have hle := c.recorded_length_le
    cases hr : c.recorded with
    | nil => simp [Call.fails, hr]
    | cons e es =>
      rw [hr] at hle
      have : es = [] := List.length_eq_zero.mp (by simpa using hle)
      subst this
      simp [Call.fails, hr]
      omega

/-! ## Claims on the query builder -/

/-- C1: on a builder reached from `QB()` by a chain of calls none of which records an
error and which appended at least one clause, `ToCypher` returns normally, without error,
exactly the appended clause texts, in call order, joined by single spaces (nothing is
added before or after), whatever the texts are, empty ones included. -/
theorem ToCypher_joins_clauses (calls : List Call)
    (hok : ∀ c ∈ calls, c.fails = false)
    (hne : calls.flatMap Call.appended ≠ []) :
    ∃ q, runCalls QB calls = some q ∧
      q.clauses = some (calls.flatMap Call.appended) ∧
      q.ToCypher = some (" ".intercalate (calls.flatMap Call.appended), none) := by
  obtain ⟨q, h1, h2, h3⟩ := runCalls_QB calls
  rw [flatMap_recorded_nil hok] at h3
  exact ⟨q, h1, h2.clauses, h2.build_ok h3 hne⟩

theorem ToCypher_joins_clauses_witness :
    ∃ q, runCalls QB [.Cypher "a", .Cypher "", .Match (some (.ok "(n)")), .Limit 3] = some q ∧
      q.clauses = some ["a", "", "MATCH (n)", "LIMIT 3"] ∧
      q.ToCypher = some ("a  MATCH (n) LIMIT 3", none) :=
  ToCypher_joins_clauses [.Cypher "a", .Cypher "", .Match (some (.ok "(n)")), .Limit 3]
    (by decide) (by decide)

/-- C2: when `n ≥ 1` calls of a chain fail, `ToCypher` returns the empty string and one
error whose message is `errors found: `, the messages of the failed calls in call order
separated by `;`, and ` -- total errors (n)`, one message being recorded per failed
call. -/
theorem ToCypher_aggregates_errors (calls : List Call)
    (hfail : 1 ≤ calls.countP Call.fails) :
    ∃ q, runCalls QB calls = some q ∧
      (calls.flatMap Call.recorded).length = calls.countP Call.fails ∧
      q.ToCypher = some ("", some ("errors found: " ++
        ";".intercalate (calls.flatMap Call.recorded) ++
        (" -- total errors (" ++ sprintInt (calls.countP Call.fails) ++ ")"))) := by
  obtain ⟨q, h1, _, h3⟩ := runCalls_QB calls
  have hlen := flatMap_recorded_length calls
  have hne : q.errors ≠ [] := by
    intro h0
    rw [h3] at h0
    rw [h0] at hlen
    simp at hlen
    omega
  refine ⟨q, h1, hlen, ?_⟩
  have hb := QueryBuilder.build_errors q hne
  rw [h3, hlen] at hb
  exact hb

theorem ToCypher_aggregates_errors_witness :
    ∃ q, runCalls QB [.Match none, .Where none] = some q ∧
      ([Call.Match none, Call.Where none].flatMap Call.recorded).length = 2 ∧
      q.ToCypher = some ("", some
        "errors found: path can not be nil;condition builder can not be nil -- total errors (2)") :=
  ToCypher_aggregates_errors [.Match none, .Where none] (by decide)

/-- C3: on a builder reached from `QB()` without any clause appended and without any
error recorded, `ToCypher` returns the empty string and the error `no nodes were added`. -/
theorem ToCypher_empty_chain (calls : List Call)
    (hok : ∀ c ∈ calls, c.fails = false)
    (hnone : calls.flatMap Call.appended = []) :
    ∃ q, runCalls QB calls = some q ∧
      q.ToCypher = some ("", some "no nodes were added") := by
  obtain ⟨q, h1, h2, h3⟩ := runCalls_QB calls
  rw [flatMap_recorded_nil hok] at h3
  rw [hnone] at h2
  obtain ⟨_, _, hstart, _⟩ := h2
  refine ⟨q, h1, ?_⟩
  simp only [List.length_nil, if_true] at hstart
  simp [QueryBuilder.ToCypher, QueryBuilder.build, QueryBuilder.hasErrors, h3, hstart]

theorem ToCypher_empty_chain_witness :
    ∃ q, runCalls QB [] = some q ∧ q.ToCypher = some ("", some "no nodes were added") :=
  ToCypher_empty_chain [] (by decide) (by decide)

/-- C4: a failing call does not halt the chain. Every chain of calls runs to its end; the
final builder holds the clause of every call that appends one and the error of every call
that records one, in call order, whatever failed before; `Limit`, `Skip`, `Union` and raw
`Cypher` calls always append their clause and never record an error; the errors recorded
after a prefix of the chain are still there, first, at its end; and `ToCypher` fails as
soon as one call of the chain failed. -/
theorem failing_call_does_not_halt (calls : List Call) :
    ∃ q, runCalls QB calls = some q ∧
      q.clauses = some (calls.flatMap Call.appended) ∧
      q.errors = calls.flatMap Call.recorded ∧
      (∀ num, (Call.Limit num).appended = ["LIMIT " ++ sprintInt num] ∧
        (Call.Limit num).recorded = []) ∧
      (∀ num, (Call.Skip num).appended = ["SKIP " ++ sprintInt num] ∧
        (Call.Skip num).recorded = []) ∧
      (∀ all, (Call.Union all).appended = [if all then "UNION ALL" else "UNION"] ∧
        (Call.Union all).recorded = []) ∧
      (∀ c, (Call.Cypher c).appended = [c] ∧ (Call.Cypher c).recorded = []) ∧
      (∀ pre post, calls = pre ++ post →
        ∃ q0, runCalls QB pre = some q0 ∧ q0.errors <+: q.errors) ∧
      ((∃ c ∈ calls, c.fails = true) → ∃ msg, q.ToCypher = some ("", some msg)) := by
  obtain ⟨q, h1, h2, h3⟩ := runCalls_QB calls
  refine ⟨q, h1, h2.clauses, h3, ?_, ?_, ?_, ?_, ?_, ?_⟩
  · intro num
    have h := (Effect.next ("LIMIT " ++ sprintInt num)).observed (c := Call.Limit num)
    exact ⟨h.2, h.1⟩
  · intro num
    have h := (Effect.next ("SKIP " ++ sprintInt num)).observed (c := Call.Skip num)
    exact ⟨h.2, h.1⟩
  · intro all
    have h := (Effect.next (if all then "UNION" ++ " ALL" else "UNION")).observed
      (c := Call.Union all)
    cases all <;> exact ⟨h.2, h.1⟩
  · intro c
    have h := (Effect.next c).observed (c := Call.Cypher c)
    exact ⟨h.2, h.1⟩
  · intro pre post hcalls
    obtain ⟨q0, h4, _, h6⟩ := runCalls_QB pre
    refine ⟨q0, h4, ?_⟩
    rw [h6, h3, hcalls, List.flatMap_append]
    exact List.prefix_append _ _
  · rintro ⟨c, hc, hf⟩
    have hpos : 0 < calls.countP Call.fails := List.countP_pos_iff.mpr ⟨c, hc, hf⟩
    have hne : q.errors ≠ [] := by
      intro h0
      have hlen := flatMap_recorded_length calls
      rw [← h3, h0] at hlen
      simp at hlen
      omega
    exact ⟨_, QueryBuilder.build_errors q hne⟩

theorem failing_call_does_not_halt_witness :
    ∃ q, runCalls QB [.Match none, .Limit 3, .Where none, .Cypher "RETURN n"] = some q ∧
      q.clauses = some ["LIMIT 3", "RETURN n"] ∧
      q.errors = ["path can not be nil", "condition builder can not be nil"] ∧
      ∃ msg, q.ToCypher = some ("", some msg) := by
  obtain ⟨q, h1, h2, h3, _, _, _, _, _, h9⟩ :=
    failing_call_does_not_halt [.Match none, .Limit 3, .Where none, .Cypher "RETURN n"]
  exact ⟨q, h1, h2, h3, h9 ⟨.Match none, List.mem_cons_self _ _, by decide⟩⟩

/-! ## Claims on pagination -/

/-- C5: at the incomplete configuration `{PageNumber: -1, LimitPerPage: 10,
OrderByVarName: "n", OrderByField: "name"}` the validator returns no error, although the
configuration is not complete. -/
theorem Validate_accepts_negative_page :
    ¬ (Pagination.Complete ⟨-1, 10, "n", "name", false⟩) ∧
      Pagination.Validate ⟨-1, 10, "n", "name", false⟩ = none := by
  decide

/-- C6: at the complete configuration `{PageNumber: 0, LimitPerPage: 10,
OrderByVarName: "n", OrderByField: "name"}` the validator returns the error
`pagination configuration invalid, please double check`. -/
theorem Validate_rejects_complete_page :
    Pagination.Complete ⟨0, 10, "n", "name", false⟩ ∧
      Pagination.Validate ⟨0, 10, "n", "name", false⟩ =
        some (.msg "pagination configuration invalid, please double check") := by
  decide

/-! ## Claims on entity-level validation -/

theorem countFields_eq (fields : List (String × decoratorConfig)) (a b : Nat) :
    countFields fields (a, b) =
      (a + fields.countP (fun f => f.2.PrimaryKey),
        b + fields.countP (fun f => decide (f.2.Relationship ≠ ""))) := by
  induction fields generalizing a b with
  | nil => simp [countFields]
  | cons f rest ih =>
    obtain ⟨k, conf⟩ := f
    simp only [countFields, ih, List.countP_cons]
    by_cases hpk : conf.PrimaryKey = true <;> by_cases hr : conf.Relationship = "" <;>
      simp [hpk, hr] <;> omega

/-- What `structDecoratorConfig.Validate` computes, with the counts of its loop. -/
theorem Validate_eq (s : structDecoratorConfig) (fields : List (String × decoratorConfig))
    (hf : s.Fields = some fields) :
    s.Validate =
      if fields.countP (fun f => f.2.PrimaryKey) = 0 then
        some (.InvalidStructConfigError ("primary key required on node/edge " ++ s.Label))
      else if fields.countP (fun f => f.2.PrimaryKey) > 1 then
        some (.InvalidStructConfigError "too many primary keys defined")
      else if !s.IsVertex && decide (fields.countP (fun f => decide (f.2.Relationship ≠ "")) > 0) then
        some (.InvalidStructConfigError "relationships can not be defined on edges")
      else none := by
  simp only [structDecoratorConfig.Validate, hf, countFields_eq, Nat.zero_add]

/-- C7: on an entity config with a field map, validation fails when no field or more than
one field is flagged primary key, and on a node-kind entity it succeeds when exactly one
field is. -/
theorem Validate_primary_key_count (s : structDecoratorConfig)
    (fields : List (String × decoratorConfig)) (hf : s.Fields = some fields) :
    ((fields.countP (fun f => f.2.PrimaryKey) = 0 ∨
        fields.countP (fun f => f.2.PrimaryKey) > 1) → s.Validate ≠ none) ∧
      (s.IsVertex = true → fields.countP (fun f => f.2.PrimaryKey) = 1 →
        s.Validate = none) := by
  rw [Validate_eq s fields hf]
  constructor
  · rintro (h0 | h1)
    · simp [h0]
    · have hne : fields.countP (fun f => f.2.PrimaryKey) ≠ 0 := by omega
      simp [hne, h1]
  · intro hv h1
    simp [h1, hv]

/-- C8: validation rejects every edge-kind entity config with a field map in which some
field has a relationship name, also when exactly one field is flagged primary key; and
it accepts an edge-kind config with exactly one primary key and no relationship field. -/
theorem Validate_edge_relationships (s : structDecoratorConfig)
    (fields : List (String × decoratorConfig)) (hf : s.Fields = some fields)
    (hedge : s.IsVertex = false) :
    ((∃ f ∈ fields, f.2.Relationship ≠ "") → s.Validate ≠ none) ∧
      (fields.countP (fun f => f.2.PrimaryKey) = 1 →
        (∀ f ∈ fields, f.2.Relationship = "") → s.Validate = none) := by
  rw [Validate_eq s fields hf]
  constructor
  · rintro ⟨f, hmem, hrel⟩
    have hpos : 0 < fields.countP (fun f => decide (f.2.Relationship ≠ "")) :=
      List.countP_pos_iff.mpr ⟨f, hmem, by simpa using hrel⟩
    by_cases h0 : fields.countP (fun f => f.2.PrimaryKey) = 0
    · simp [h0]
    · by_cases h1 : fields.countP (fun f => f.2.PrimaryKey) > 1
      · simp [h0, h1]
      · simp [h0, h1, hedge]
        exact ⟨f.1, f.2, hmem, hrel⟩
  · intro h1 hnone
    have hz : fields.countP (fun f => decide (f.2.Relationship ≠ "")) = 0 := by
      rw [List.countP_eq_zero]
      intro f hmem
      simpa using hnone f hmem
    simp [h1]
    intro _ x y hxy
    exact hnone _ hxy

theorem Validate_primary_key_count_witness :
    sampleNode.Fields = some sampleFields ∧
      sampleFields.countP (fun f => f.2.PrimaryKey) = 1 ∧ sampleNode.Validate = none :=
  ⟨rfl, by decide, (Validate_primary_key_count sampleNode sampleFields rfl).2 rfl (by decide)⟩

theorem Validate_edge_relationships_witness :
    sampleEdge.Fields = some sampleFields ∧ sampleEdge.IsVertex = false ∧
      sampleEdge.Validate ≠ none :=
  ⟨rfl, rfl, (Validate_edge_relationships sampleEdge sampleFields rfl rfl).1
    ⟨("Subjects", sampleRelation "Subjects" "CURRICULUM" 0 sampleSubjectsType true),
      by decide, by decide⟩⟩

/-! ## Claims on field-level configuration -/

theorem defaultDirection_fields (env : Env) (d : decoratorConfig) :
    (defaultDirection env d).Relationship = d.Relationship ∧
      (defaultDirection env d).Name = d.Name ∧
      (defaultDirection env d).FieldName = d.FieldName ∧
      (defaultDirection env d).Typ = d.Typ ∧
      (defaultDirection env d).Ignore = d.Ignore ∧
      (d.Direction = 0 → (defaultDirection env d).Direction = env.DirectionOutgoing) := by
  unfold defaultDirection
  split <;> simp_all

theorem validateRelationship_ok {env : Env} {d conf : decoratorConfig} {kind : Kind}
    (h : validateRelationship env d kind = (conf, none)) :
    conf.Relationship ≠ "" ∧ conf.Name = conf.FieldName ∧ conf.FieldName = d.FieldName ∧
      conf.Typ = d.Typ ∧ conf.Ignore = d.Ignore ∧
      (d.Direction = 0 → conf.Direction = env.DirectionOutgoing) := by
  obtain ⟨f1, f2, f3, f4, f5, f6⟩ := defaultDirection_fields env d
  simp only [validateRelationship] at h
  split_ifs at h with h1 h2 h3 h4
  all_goals simp only [Prod.mk.injEq, reduceCtorEq, and_false, and_true] at h
  subst h
  rw [f2, f3] at h4
  rw [f1, f2, f3]
  exact ⟨h1, not_not.mp h4, rfl, f4, f5, f6⟩

theorem validateProperties_ok {d : decoratorConfig} (h : validateProperties d = none) :
    relationshipCondition d = false := by
  unfold validateProperties at h
  split_ifs at h with h1 h2 h3
  simp only [not_or, not_not] at h2 h3
  have hk : derefKind d.Typ = .Map := by
    rw [h2.2]; rfl
  simp [relationshipCondition, h3.2.1, h3.2.2.1, hk]

/-- An accepted config that `Validate` checks as a relationship has a relationship name,
the stored name of its field, and the outgoing direction where none was set. -/
theorem Validate_relationship {env : Env} {d conf : decoratorConfig}
    (h : d.Validate env = (conf, none)) (hrel : conf.isRelationshipField = true) :
    conf.Relationship ≠ "" ∧ conf.Name = conf.FieldName ∧ conf.FieldName = d.FieldName ∧
      conf.Typ = d.Typ ∧ (d.Direction = 0 → conf.Direction = env.DirectionOutgoing) := by
  unfold decoratorConfig.Validate at h
  simp only [decoratorConfig.isRelationshipField, Bool.and_eq_true,
    Bool.not_eq_true'] at hrel
  split_ifs at h with h1 h2 h3 h4 h5
  · simp only [Prod.mk.injEq] at h
    rw [← h.1] at hrel
    simp [h1] at hrel
  · simp at h
  · simp only [Prod.mk.injEq] at h
    rw [← h.1, validateProperties_ok h.2] at hrel
    simp at hrel
  · obtain ⟨r1, r2, r3, r4, _, r6⟩ := validateRelationship_ok h
    exact ⟨r1, r2, r3, r4, r6⟩
  · simp only [Prod.mk.injEq] at h
    rw [← h.1] at hrel
    simp [h4] at hrel
  · simp only [Prod.mk.injEq] at h
    rw [← h.1] at hrel
    simp [h4] at hrel

/-- A token keeps the field name and the type, and keeps the direction unless it is a
`direction=` token. -/
theorem parseField_ok {env : Env} {varType : RType} {d conf : decoratorConfig}
    {field : String} (h : parseField env varType d field = .ok conf) :
    conf.FieldName = d.FieldName ∧ conf.Typ = d.Typ ∧
      ((Contains field '=' && decide ((Split field '=').head? = some "direction")) = false →
        conf.Direction = d.Direction) := by
  unfold parseField at h
  split_ifs at h with h1 h2 h3 h4 h5 h6 h7
  · split at h
    · rename_i key val hs
      split_ifs at h with k1 k2 k3
      · cases h; simp
      · split at h
        · split_ifs at h
          cases h; simp
        · cases h; simp
      · cases h
        simp [h1, hs, k3]
    · cases h
  all_goals (cases h; simp)

theorem parseFields_ok {env : Env} {varType : RType} (fields : List String) :
    ∀ {d conf : decoratorConfig}, parseFields env varType fields d = .ok conf →
      conf.FieldName = d.FieldName ∧ conf.Typ = d.Typ ∧
        (fields.any (fun field => Contains field '=' &&
          decide ((Split field '=').head? = some "direction")) = false →
          conf.Direction = d.Direction) := by
  induction fields with
  | nil =>
    intro d conf h
    cases h
    simp
  | cons field rest ih =>
    intro d conf h
    simp only [parseFields] at h
    split at h
    · cases h
    · rename_i d1 h1
      obtain ⟨a1, a2, a3⟩ := parseField_ok h1
      obtain ⟨b1, b2, b3⟩ := ih h
      refine ⟨b1.trans a1, b2.trans a2, ?_⟩
      intro hany
      simp only [List.any_cons, Bool.or_eq_false_iff] at hany
      rw [b3 hany.2, a3 hany.1]

/-- C9: for every field tag that `newDecoratorConfig` accepts and whose field is a
relationship field (it is not ignored and it has a relationship name or a direction, or
its type is a struct other than `time.Time` or a slice, the fields
`decoratorConfig.Validate` checks as relationships): the relationship name is not empty,
the stored name `Name` is the field's own name `FieldName`, and when the tag has no
`direction=` token the direction is outgoing. -/
theorem newDecoratorConfig_relationship (env : Env) (decorator name : String)
    (varType : RType) (conf : decoratorConfig)
    (hacc : newDecoratorConfig env decorator name varType = .ok conf)
    (hrel : conf.isRelationshipField = true) :
    conf.Relationship ≠ "" ∧ conf.Name = conf.FieldName ∧ conf.FieldName = name ∧
      (hasDirectionToken decorator = false → conf.Direction = env.DirectionOutgoing) := by
  simp only [newDecoratorConfig] at hacc
  split_ifs at hacc with h0
  split at hacc
  · cases hacc
  · rename_i d1 hparse
    obtain ⟨p1, p2, p3⟩ := parseFields_ok _ hparse
    simp only at p1 p2 p3
    split at hacc
    · cases hacc
    · rename_i d2 halias
      have hd2 : d2.FieldName = name ∧ d2.Direction = d1.Direction := by
        split_ifs at halias with hr
        · split at halias
          · cases halias
          · split_ifs at halias
            · split at halias
              · cases halias
              · cases halias
                exact ⟨p1, rfl⟩
            · cases halias
              exact ⟨p1, rfl⟩
        · cases halias
          exact ⟨p1, rfl⟩
      split_ifs at hacc with hn hr
      · split at hacc
        · cases hacc
        · rename_i c hv
          cases hacc
          obtain ⟨r1, r2, r3, _, r5⟩ := Validate_relationship hv hrel
          refine ⟨r1, r2, r3.trans hd2.1, ?_⟩
          intro hdir
          exact r5 (by simpa [hd2.2] using p3 hdir)
      · split at hacc
        · cases hacc
        · rename_i c hv
          cases hacc
          obtain ⟨r1, r2, r3, _, r5⟩ := Validate_relationship hv hrel
          refine ⟨r1, r2, r3.trans hd2.1, ?_⟩
          intro hdir
          exact r5 (by simpa [hd2.2] using p3 hdir)

theorem newDecoratorConfig_relationship_witness :
    newDecoratorConfig sampleEnv "relationship=CURRICULUM" "Subjects" sampleSubjectsType =
        .ok (sampleRelation "Subjects" "CURRICULUM" 0 sampleSubjectsType true) ∧
      (sampleRelation "Subjects" "CURRICULUM" 0 sampleSubjectsType true).isRelationshipField =
        true ∧
      (sampleRelation "Subjects" "CURRICULUM" 0 sampleSubjectsType true).Relationship ≠ "" ∧
      (sampleRelation "Subjects" "CURRICULUM" 0 sampleSubjectsType true).Name =
        (sampleRelation "Subjects" "CURRICULUM" 0 sampleSubjectsType true).FieldName ∧
      (sampleRelation "Subjects" "CURRICULUM" 0 sampleSubjectsType true).FieldName =
        "Subjects" ∧
      (hasDirectionToken "relationship=CURRICULUM" = false →
        (sampleRelation "Subjects" "CURRICULUM" 0 sampleSubjectsType true).Direction =
          sampleEnv.DirectionOutgoing) :=
  ⟨rfl, rfl, newDecoratorConfig_relationship sampleEnv "relationship=CURRICULUM" "Subjects"
    sampleSubjectsType _ rfl rfl⟩
/-! ## Lemmas on maps given by their entries -/

theorem mapGet_mapSet {α : Type} (m : List (String × α)) (k k1 : String) (v : α) :
    mapGet (mapSet m k v) k1 = if k = k1 then some v else mapGet m k1 := by
  induction m with
  | nil =>
    simp [mapSet, mapGet]
  | cons e rest ih =>
    obtain ⟨k0, v0⟩ := e
    by_cases h0 : k0 = k
    · subst h0
      by_cases h1 : k0 = k1 <;> simp [mapSet, mapGet, h1]
    · by_cases h1 : k = k1
      · subst h1
        simp [mapSet, mapGet, h0, ih]
      · by_cases h2 : k0 = k1
        · subst h2
          simp [mapSet, mapGet, h0, h1]
        · simp [mapSet, mapGet, h0, h1, h2, ih]

theorem mapGet_mem {α : Type} (m : List (String × α)) (k : String) (v : α)
    (h : mapGet m k = some v) : (k, v) ∈ m := by
  induction m with
  | nil => simp [mapGet] at h
  | cons e rest ih =>
    obtain ⟨k0, v0⟩ := e
    by_cases h0 : k0 = k
    · subst h0
      simp [mapGet] at h
      simp [h]
    · simp [mapGet, h0] at h
      exact List.mem_cons_of_mem _ (ih h)

theorem mem_keys_mapSet {α : Type} (m : List (String × α)) (k : String) (v : α) :
    k ∈ (mapSet m k v).map Prod.fst ∧ ∀ k1 ∈ m.map Prod.fst, k1 ∈ (mapSet m k v).map Prod.fst := by
  induction m with
  | nil => simp [mapSet]
  | cons e rest ih =>
    obtain ⟨k0, v0⟩ := e
    by_cases h0 : k0 = k
    · subst h0
      simp [mapSet]
    · simp only [mapSet, h0, if_false, List.map_cons, List.mem_cons]
      refine ⟨Or.inr ih.1, ?_⟩
      rintro k1 (h1 | h1)
      · exact Or.inl h1
      · exact Or.inr (ih.2 k1 h1)

/-- Setting a key changes a sum over the entries by the change of the entry's weight. -/
theorem sum_mapSet {α : Type} (w : String → α → Nat) (m : List (String × α)) (k : String)
    (v : α) (δ : Nat)
    (h : w k v = (match mapGet m k with | some old => w k old | none => 0) + δ) :
    ((mapSet m k v).map (fun e => w e.1 e.2)).sum = (m.map (fun e => w e.1 e.2)).sum + δ := by
  induction m with
  | nil =>
    simp [mapGet] at h
    simp [mapSet, h]
  | cons e rest ih =>
    obtain ⟨k0, v0⟩ := e
    by_cases h0 : k0 = k
    · subst h0
      simp [mapGet] at h
      simp [mapSet, h]
      omega
    · simp only [mapGet, h0, if_false] at h
      simp [mapSet, h0, ih h]
      omega

/-! ## Lemmas on the tally of `relationConfigs.Validate` -/

/-- One config adds one field name under its direction and relationship name. -/
theorem tallyConfig_len {env : Env} (hne : env.DirectionOutgoing ≠ env.DirectionIncoming)
    {relType field : String} {cm cm1 : CheckMap} {config : decoratorConfig}
    (h : tallyConfig env relType field cm config = .ok cm1) (r : String) :
    outgoingLen cm1 r = outgoingLen cm r +
        (if relType = r ∧ config.Direction = env.DirectionOutgoing then 1 else 0) ∧
      incomingLen cm1 r = incomingLen cm r +
        (if relType = r ∧ config.Direction = env.DirectionIncoming then 1 else 0) := by
  have hne2 : ¬ env.DirectionIncoming = env.DirectionOutgoing := fun h => hne h.symm
  unfold tallyConfig at h
  cases hg : mapGet cm relType with
  | none =>
    simp only [hg, mapGet_mapSet, if_true, Option.getD_some] at h
    split_ifs at h with d1 d2 d3 d4
    all_goals cases h
    all_goals by_cases hr : relType = r
    all_goals simp_all [outgoingLen, incomingLen, mapGet_mapSet]
  | some v =>
    simp only [hg, Option.getD_some] at h
    split_ifs at h with d1 d2 d3 d4
    all_goals cases h
    all_goals by_cases hr : relType = r
    all_goals simp_all [outgoingLen, incomingLen, mapGet_mapSet]

theorem tallyConfigs_len {env : Env} (hne : env.DirectionOutgoing ≠ env.DirectionIncoming)
    {relType field : String} (configs : List decoratorConfig) :
    ∀ {cm cm1 : CheckMap}, tallyConfigs env relType field configs cm = .ok cm1 →
      ∀ r : String,
        outgoingLen cm1 r = outgoingLen cm r + (if relType = r then
          configs.countP (fun c => decide (c.Direction = env.DirectionOutgoing)) else 0) ∧
        incomingLen cm1 r = incomingLen cm r + (if relType = r then
          configs.countP (fun c => decide (c.Direction = env.DirectionIncoming)) else 0) := by
  induction configs with
  | nil =>
    intro cm cm1 h r
    cases h
    simp
  | cons c rest ih =>
    intro cm cm1 h r
    simp only [tallyConfigs] at h
    split at h
    · cases h
    · rename_i cm2 h2
      obtain ⟨a1, a2⟩ := tallyConfig_len hne h2 r
      obtain ⟨b1, b2⟩ := ih h r
      rw [b1, b2, a1, a2, List.countP_cons, List.countP_cons]
      by_cases hr : relType = r <;>
        by_cases ho : c.Direction = env.DirectionOutgoing <;>
        by_cases hi : c.Direction = env.DirectionIncoming <;>
        simp [hr, ho, hi] <;> omega

theorem tallyFields_len {env : Env} (hne : env.DirectionOutgoing ≠ env.DirectionIncoming)
    {relType : String} (m : ConfMap) :
    ∀ {cm cm1 : CheckMap}, tallyFields env relType m cm = .ok cm1 →
      ∀ r : String,
        outgoingLen cm1 r = outgoingLen cm r +
          (if relType = r then dirCount m env.DirectionOutgoing else 0) ∧
        incomingLen cm1 r = incomingLen cm r +
          (if relType = r then dirCount m env.DirectionIncoming else 0) := by
  induction m with
  | nil =>
    intro cm cm1 h r
    cases h
    simp [dirCount]
  | cons e rest ih =>
    intro cm cm1 h r
    obtain ⟨field, configs⟩ := e
    simp only [tallyFields] at h
    split at h
    · cases h
    · rename_i cm2 h2
      obtain ⟨a1, a2⟩ := tallyConfigs_len hne configs h2 r
      obtain ⟨b1, b2⟩ := ih h r
      rw [b1, b2, a1, a2]
      by_cases hr : relType = r
      · simp [hr, dirCount]
        omega
      · simp [hr, dirCount]

theorem dirCount_perm {m m1 : ConfMap} (h : m1.Perm m) (d : Int) :
    dirCount m1 d = dirCount m d := by
  unfold dirCount
  exact (h.map _).sum_eq

theorem keyCount_perm {l l1 : List (String × ConfMap)} (h : l1.Perm l) (sel : String → Bool)
    (d : Int) : keyCount l1 sel d = keyCount l sel d := by
  unfold keyCount
  exact (h.map _).sum_eq

/-- When the first loop of `Validate` ends without error, every key it visited has two
parts, and the map it built lists, for each relationship name, as many outgoing and
incoming field names as configs with that direction were visited under the keys of that
relationship name. -/
theorem tallyTitles_len {env : Env} (hne : env.DirectionOutgoing ≠ env.DirectionIncoming)
    {o : RangeOrder} (ho : o.Valid) (l : List (String × ConfMap)) :
    ∀ {cm cm1 : CheckMap}, tallyTitles env o l cm = .ok cm1 →
      (∀ e ∈ l, (relTypeOf e.1).isSome = true) ∧
      ∀ r : String,
        outgoingLen cm1 r = outgoingLen cm r +
          keyCount l (fun t => decide (relTypeOf t = some r)) env.DirectionOutgoing ∧
        incomingLen cm1 r = incomingLen cm r +
          keyCount l (fun t => decide (relTypeOf t = some r)) env.DirectionIncoming := by
  induction l with
  | nil =>
    intro cm cm1 h
    cases h
    simp [keyCount]
  | cons e rest ih =>
    intro cm cm1 h
    obtain ⟨title, confMap⟩ := e
    simp only [tallyTitles] at h
    split at h
    · rename_i x relType hs
      split at h
      · cases h
      · rename_i cm2 h2
        have hrt : relTypeOf title = some relType := by simp [relTypeOf, hs]
        obtain ⟨b0, b⟩ := ih h
        refine ⟨?_, ?_⟩
        · intro e he
          rcases List.mem_cons.mp he with he | he
          · subst he
            simp [hrt]
          · exact b0 e he
        · intro r
          obtain ⟨a1, a2⟩ := tallyFields_len hne _ h2 r
          obtain ⟨b1, b2⟩ := b r
          rw [b1, b2, a1, a2, dirCount_perm (ho.2.1 title confMap),
            dirCount_perm (ho.2.1 title confMap)]
          by_cases hr : relType = r
          · simp [hr, keyCount, hrt]
            omega
          · simp [hr, keyCount, hrt]
    · cases h

theorem checkCounts_fails {cm : CheckMap} {r : String} {v : validation} (hmem : (r, v) ∈ cm)
    (hlen : v.Outgoing.length ≠ v.Incoming.length) : checkCounts cm ≠ none := by
  induction cm with
  | nil => simp at hmem
  | cons e rest ih =>
    obtain ⟨r0, v0⟩ := e
    simp only [checkCounts]
    split_ifs with h1 h2 h3
    · simp
    · simp
    · simp
    · rcases List.mem_cons.mp hmem with he | he
      · cases he
        exact absurd (not_not.mp h1) hlen
      · exact ih he

/-! ## Lemmas on registry keys -/

theorem splitChars_length (sep : Char) (l : List Char) :
    (splitChars sep l).length = l.count sep + 1 := by
  induction l with
  | nil => simp [splitChars]
  | cons c cs ih =>
    by_cases hc : c = sep
    · subst hc
      simp [splitChars, ih]
    · have hne : (c == sep) = false := by simpa using hc
      simp only [splitChars, hc, if_false, List.count_cons, hne]
      cases hs : splitChars sep cs with
      | nil => simp [hs] at ih
      | cons p ps =>
        rw [hs] at ih
        simpa using ih

theorem splitChars_of_not_mem (sep : Char) (l : List Char) (h : sep ∉ l) :
    splitChars sep l = [l] := by
  induction l with
  | nil => simp [splitChars]
  | cons c cs ih =>
    have hc : ¬ c = sep := fun h1 => h (by simp [h1])
    have hcs : sep ∉ cs := fun h1 => h (List.mem_cons_of_mem _ h1)
    simp [splitChars, hc, ih hcs]

theorem splitChars_append (sep : Char) (a b : List Char) (h : sep ∉ a) :
    splitChars sep (a ++ sep :: b) = a :: splitChars sep b := by
  induction a with
  | nil => simp [splitChars]
  | cons c cs ih =>
    have hc : ¬ c = sep := fun h1 => h (by simp [h1])
    have hcs : sep ∉ cs := fun h1 => h (List.mem_cons_of_mem _ h1)
    simp [splitChars, hc, ih hcs]

/-- The key of a label and a relationship name without `-` reads back as that
relationship name. -/
theorem relTypeOf_getKey {nodeType relationship : String}
    (h1 : '-' ∉ nodeType.data) (h2 : '-' ∉ relationship.data) :
    relTypeOf (relationConfigs.getKey nodeType relationship) = some relationship := by
  have hd : (relationConfigs.getKey nodeType relationship).data =
      nodeType.data ++ '-' :: relationship.data := by
    simp [relationConfigs.getKey, String.data_append]
  simp [relTypeOf, Split, hd, splitChars_append _ _ _ h1, splitChars_of_not_mem _ _ h2]

/-- A key that splits in two parts comes from a label and a relationship name without
`-`. -/
theorem dashFree_of_relTypeOf {nodeType relationship : String}
    (h : (relTypeOf (relationConfigs.getKey nodeType relationship)).isSome = true) :
    '-' ∉ nodeType.data ∧ '-' ∉ relationship.data := by
  have hd : (relationConfigs.getKey nodeType relationship).data =
      nodeType.data ++ '-' :: relationship.data := by
    simp [relationConfigs.getKey, String.data_append]
  have hlen : (Split (relationConfigs.getKey nodeType relationship) '-').length = 2 := by
    unfold relTypeOf at h
    split at h
    · rename_i hs
      rw [hs]
      rfl
    · simp at h
  simp only [Split, List.length_map, splitChars_length, hd, List.count_append,
    List.count_cons_self] at hlen
  have h1 : nodeType.data.count '-' = 0 := by omega
  have h2 : relationship.data.count '-' = 0 := by omega
  exact ⟨List.count_eq_zero.mp h1, List.count_eq_zero.mp h2⟩

/-! ## Lemmas on `relationConfigs.Add` -/

theorem mapSet_mapSet {α : Type} (m : List (String × α)) (k : String) (a b : α) :
    mapSet (mapSet m k a) k b = mapSet m k b := by
  induction m with
  | nil => simp [mapSet]
  | cons e rest ih =>
    obtain ⟨k0, v0⟩ := e
    by_cases h0 : k0 = k
    · subst h0
      simp [mapSet]
    · simp [mapSet, h0, ih]

/-- What `Add` stores: the config comes last in the list of its key and field type. -/
theorem Add_entries (r : relationConfigs) (nodeType relationship fieldType : String)
    (dec : decoratorConfig) :
    (r.Add nodeType relationship fieldType dec).entries =
      mapSet r.entries (relationConfigs.getKey nodeType relationship)
        (mapSet ((mapGet r.entries (relationConfigs.getKey nodeType relationship)).getD [])
          fieldType
          (((mapGet ((mapGet r.entries
            (relationConfigs.getKey nodeType relationship)).getD []) fieldType).getD []) ++
            [dec])) := by
  have he : r.entries = (match r.configs with | none => [] | some configs => configs) := rfl
  simp only [relationConfigs.Add, relationConfigs.entries]
  rw [← he]
  cases h1 : mapGet r.entries (relationConfigs.getKey nodeType relationship) with
  | none =>
    simp [mapGet_mapSet, mapSet_mapSet, mapGet, mapSet]
  | some m =>
    cases h2 : mapGet m fieldType with
    | none => simp [h1, h2, mapGet_mapSet, mapSet_mapSet]
    | some cs => simp [h1, h2]

theorem dirCount_mapSet (m : ConfMap) (fieldType : String) (dec : decoratorConfig) (d : Int) :
    dirCount (mapSet m fieldType ((mapGet m fieldType).getD [] ++ [dec])) d =
      dirCount m d + (if dec.Direction = d then 1 else 0) := by
  unfold dirCount
  apply sum_mapSet (fun (_ : String) (cs : List decoratorConfig) =>
    List.countP (fun c => decide (c.Direction = d)) cs)
  cases h : mapGet m fieldType with
  | none => by_cases hd : dec.Direction = d <;> simp [hd]
  | some cs => by_cases hd : dec.Direction = d <;> simp [hd, List.countP_append]

theorem keyCount_Add (r : relationConfigs) (nodeType relationship fieldType : String)
    (dec : decoratorConfig) (sel : String → Bool) (d : Int) :
    keyCount (r.Add nodeType relationship fieldType dec).entries sel d =
      keyCount r.entries sel d +
        (if sel (relationConfigs.getKey nodeType relationship) = true ∧ dec.Direction = d
          then 1 else 0) := by
  rw [Add_entries]
  unfold keyCount
  apply sum_mapSet (fun (k : String) (m : ConfMap) => if sel k = true then dirCount m d else 0)
  simp only [dirCount_mapSet]
  cases h : mapGet r.entries (relationConfigs.getKey nodeType relationship) with
  | none =>
    by_cases hs : sel (relationConfigs.getKey nodeType relationship) = true <;>
      simp [hs, dirCount]
  | some m =>
    by_cases hs : sel (relationConfigs.getKey nodeType relationship) = true <;>
      simp [hs]

theorem keys_Add (r : relationConfigs) (nodeType relationship fieldType : String)
    (dec : decoratorConfig) :
    relationConfigs.getKey nodeType relationship ∈
        (r.Add nodeType relationship fieldType dec).entries.map Prod.fst ∧
      ∀ k ∈ r.entries.map Prod.fst,
        k ∈ (r.Add nodeType relationship fieldType dec).entries.map Prod.fst := by
  rw [Add_entries]
  exact mem_keys_mapSet _ _ _

theorem registerAll_append (adds : List Registration) (a : Registration) :
    registerAll (adds ++ [a]) =
      (registerAll adds).Add a.nodeType a.relationship a.fieldType a.dec := by
  simp [registerAll, List.foldl_append]

/-- Every registration has its key among the keys of the registry. -/
theorem keys_registerAll (adds : List Registration) :
    ∀ a ∈ adds, relationConfigs.getKey a.nodeType a.relationship ∈
      (registerAll adds).entries.map Prod.fst := by
  induction adds using List.reverseRecOn with
  | nil => simp
  | append_singleton l a ih =>
    intro b hb
    rw [registerAll_append]
    obtain ⟨k1, k2⟩ := keys_Add (registerAll l) a.nodeType a.relationship a.fieldType a.dec
    rcases List.mem_append.mp hb with hb | hb
    · exact k2 _ (ih b hb)
    · simp only [List.mem_singleton] at hb
      subst hb
      exact k1

/-- The configs with a direction under the selected keys of the registry are the
registrations with that direction and a selected key. -/
theorem keyCount_registerAll (adds : List Registration) (sel : String → Bool) (d : Int) :
    keyCount (registerAll adds).entries sel d =
      adds.countP (fun a => sel (relationConfigs.getKey a.nodeType a.relationship) &&
        decide (a.dec.Direction = d)) := by
  induction adds using List.reverseRecOn with
  | nil => simp [registerAll, relationConfigs.entries, keyCount]
  | append_singleton l a ih =>
    rw [registerAll_append, keyCount_Add, ih, List.countP_append]
    by_cases hs : sel (relationConfigs.getKey a.nodeType a.relationship) = true <;>
      by_cases hd : a.dec.Direction = d <;> simp [hs, hd]

theorem RangeOrder.listed_valid : RangeOrder.listed.Valid :=
  ⟨fun _ => List.Perm.refl _, fun _ _ => List.Perm.refl _, fun _ => List.Perm.refl _⟩

/-! ## Claims on the relation registry -/

/-- C10: whatever the order in which the maps are visited, `relationConfigs.Validate`
fails on the registry built by a sequence of `Add` calls as soon as, for some
relationship name, the number of registered configs with direction outgoing differs from
the number with direction incoming, counted over all labels and field types. -/
theorem Validate_fails_on_unbalanced_directions (env : Env) (o : RangeOrder)
    (ho : o.Valid) (adds : List Registration) (relationship : String)
    (hcount : countDirection adds relationship env.DirectionOutgoing ≠
      countDirection adds relationship env.DirectionIncoming) :
    (registerAll adds).Validate env o ≠ none := by
  intro hv
  have hne : env.DirectionOutgoing ≠ env.DirectionIncoming := by
    intro h
    rw [h] at hcount
    exact hcount rfl
  have he : (registerAll adds).entries =
      (match (registerAll adds).configs with | none => [] | some configs => configs) := rfl
  simp only [relationConfigs.Validate] at hv
  rw [← he] at hv
  split at hv
  · cases hv
  · rename_i cm htally
    obtain ⟨hkeys, hlen⟩ := tallyTitles_len hne ho _ htally
    have hfree : ∀ a ∈ adds, '-' ∉ a.nodeType.data ∧ '-' ∉ a.relationship.data := by
      intro a ha
      have hk := keys_registerAll adds a ha
      obtain ⟨e, hmem, hfst⟩ := List.mem_map.mp hk
      have hmem1 : e ∈ o.configs (registerAll adds).entries := (ho.1 _).mem_iff.mpr hmem
      have hsome := hkeys e hmem1
      rw [hfst] at hsome
      exact dashFree_of_relTypeOf hsome
    have hcnt : ∀ d : Int,
        keyCount (o.configs (registerAll adds).entries)
          (fun t => decide (relTypeOf t = some relationship)) d =
          countDirection adds relationship d := by
      intro d
      rw [keyCount_perm (ho.1 _), keyCount_registerAll]
      unfold countDirection
      apply List.countP_congr
      intro a ha
      obtain ⟨f1, f2⟩ := hfree a ha
      simp [relTypeOf_getKey f1 f2]
    obtain ⟨hout, hin⟩ := hlen relationship
    rw [hcnt] at hout hin
    have hz1 : outgoingLen [] relationship = 0 := rfl
    have hz2 : incomingLen [] relationship = 0 := rfl
    rw [hz1, Nat.zero_add] at hout
    rw [hz2, Nat.zero_add] at hin
    cases hg : mapGet cm relationship with
    | none =>
      simp only [outgoingLen, incomingLen, hg] at hout hin
      exact hcount (by rw [← hout, ← hin])
    | some v =>
      simp only [outgoingLen, incomingLen, hg] at hout hin
      have hmem : (relationship, v) ∈ o.checkMap cm :=
        (ho.2.2 _).mem_iff.mpr (mapGet_mem _ _ _ hg)
      exact checkCounts_fails hmem (by rw [hout, hin]; exact hcount) hv

theorem Validate_fails_on_unbalanced_directions_witness :
    RangeOrder.listed.Valid ∧
      countDirection sampleAdds "CURRICULUM" sampleEnv.DirectionOutgoing ≠
        countDirection sampleAdds "CURRICULUM" sampleEnv.DirectionIncoming ∧
      (registerAll sampleAdds).Validate sampleEnv RangeOrder.listed ≠ none :=
  ⟨RangeOrder.listed_valid, by decide,
    Validate_fails_on_unbalanced_directions sampleEnv RangeOrder.listed
      RangeOrder.listed_valid sampleAdds "CURRICULUM" (by decide)⟩

/-! ## Claims on the session -/

/-- C17: on a session with a connection, `Begin` while a transaction is open, and
`Commit` and `Rollback` while none is open, each return an error wrapping
`ErrTransaction`, do not call the driver and leave the session as it was. -/
theorem transaction_state_errors (s : Session) (c : BoltConn) (hconn : s.conn = some c) :
    (∀ t driver, s.tx = some t →
      s.Begin driver = ⟨s, some (.wrapErrTransaction "transaction already started"), false⟩) ∧
    (∀ driver, s.tx = none →
      s.Commit driver =
        ⟨s, some (.wrapErrTransaction "cannot commit nil transaction"), false⟩) ∧
    (∀ driver, s.tx = none →
      s.Rollback driver =
        ⟨s, some (.wrapErrTransaction "cannot Rollback nil transaction"), false⟩) := by
  refine ⟨?_, ?_, ?_⟩
  · intro t driver ht
    simp [Session.Begin, hconn, ht]
  · intro driver ht
    simp [Session.Commit, hconn, ht]
  · intro driver ht
    simp [Session.Rollback, hconn, ht]

theorem transaction_state_errors_witness :
    ({ conn := some ⟨1⟩, tx := some ⟨7⟩, DefaultDepth := 1, LoadStrategy := 0 } : Session).conn =
        some ⟨1⟩ ∧
      Session.Begin { conn := some ⟨1⟩, tx := some ⟨7⟩, DefaultDepth := 1, LoadStrategy := 0 }
          (.ok ⟨8⟩) =
        ⟨{ conn := some ⟨1⟩, tx := some ⟨7⟩, DefaultDepth := 1, LoadStrategy := 0 },
          some (.wrapErrTransaction "transaction already started"), false⟩ :=
  ⟨rfl, (transaction_state_errors _ ⟨1⟩ rfl).1 ⟨7⟩ (.ok ⟨8⟩) rfl⟩

/-- The session holds a transaction exactly when one is open at the driver, from a
session without transaction and no transaction open. -/
theorem Session.run_opened (steps : List SessionStep) :
    ∀ (s : Session) (opened : Int), opened = (if s.tx.isSome then 1 else 0) →
      (s.run opened steps).2 = (if (s.run opened steps).1.tx.isSome then 1 else 0) := by
  induction steps with
  | nil =>
    intro s opened h
    simpa [Session.run] using h
  | cons step rest ih =>
    intro s opened h
    simp only [Session.run]
    apply ih
    subst h
    cases step with
    | Begin driver =>
      rcases hc : s.conn with _ | c <;> rcases ht : s.tx with _ | t <;>
        rcases driver with e | tx <;>
        simp [Session.step, Session.Begin, SessionStep.opens, hc, ht]
    | Commit driver =>
      rcases hc : s.conn with _ | c <;> rcases ht : s.tx with _ | t <;>
        rcases driver with _ | e <;>
        simp [Session.step, Session.Commit, SessionStep.opens, hc, ht]
    | Rollback driver =>
      rcases hc : s.conn with _ | c <;> rcases ht : s.tx with _ | t <;>
        rcases driver with _ | e <;>
        simp [Session.step, Session.Rollback, SessionStep.opens, hc, ht]
    | Close pool =>
      rcases hc : s.conn with _ | c <;> rcases ht : s.tx with _ | t <;>
        rcases pool with _ | e <;>
        simp [Session.step, Session.Close, SessionStep.opens, hc, ht]

theorem Session.step_keeps_conn (s : Session) (step : SessionStep)
    (h : s.tx.isSome = true → s.conn.isSome = true) :
    (s.step step).session.tx.isSome = true → (s.step step).session.conn.isSome = true := by
  cases step with
  | Begin driver =>
    rcases hc : s.conn with _ | c <;> rcases ht : s.tx with _ | t <;>
      rcases driver with e | tx <;>
      simp_all [Session.step, Session.Begin]
  | Commit driver =>
    rcases hc : s.conn with _ | c <;> rcases ht : s.tx with _ | t <;>
      rcases driver with _ | e <;>
      simp_all [Session.step, Session.Commit]
  | Rollback driver =>
    rcases hc : s.conn with _ | c <;> rcases ht : s.tx with _ | t <;>
      rcases driver with _ | e <;>
      simp_all [Session.step, Session.Rollback]
  | Close pool =>
    rcases hc : s.conn with _ | c <;> rcases ht : s.tx with _ | t <;>
      rcases pool with _ | e <;>
      simp_all [Session.step, Session.Close]

/-- A session that holds a transaction holds a connection, after any calls on a session
for which this is so. -/
theorem Session.run_keeps_conn (steps : List SessionStep) :
    ∀ (s : Session) (opened : Int), (s.tx.isSome = true → s.conn.isSome = true) →
      (s.run opened steps).1.tx.isSome = true → (s.run opened steps).1.conn.isSome = true := by
  induction steps with
  | nil =>
    intro s opened h
    simpa [Session.run] using h
  | cons step rest ih =>
    intro s opened h
    simp only [Session.run]
    exact ih _ _ (s.step_keeps_conn step h)

/-- C18: the session goes from idle to in-transaction and back. On a session with a
connection: a `Begin` the driver answers with a transaction leaves that transaction open;
a `Commit` or `Rollback` the driver answers without error leaves none open and the next
`Begin` goes to the driver; a `Commit` or `Rollback` the driver answers with an error
leaves the session as it was and the next `Begin` is refused without calling the driver.
And after any sequence of calls on an idle session the number of transactions open at the
driver is 0 or 1, and is 1 exactly when the session holds a transaction. -/
theorem session_state_machine (s : Session) (c : BoltConn) (hconn : s.conn = some c) :
    (∀ tx, s.tx = none → s.Begin (.ok tx) = ⟨{ s with tx := some tx }, none, true⟩) ∧
    (∀ t, s.tx = some t →
      s.Commit none = ⟨{ s with tx := none }, none, true⟩ ∧
      s.Rollback none = ⟨{ s with tx := none }, none, true⟩ ∧
      ∀ tx, Session.Begin { s with tx := none } (.ok tx) =
        ⟨{ s with tx := some tx }, none, true⟩) ∧
    (∀ t e, s.tx = some t →
      s.Commit (some e) = ⟨s, some e, true⟩ ∧
      s.Rollback (some e) = ⟨s, some e, true⟩ ∧
      ∀ driver, s.Begin driver =
        ⟨s, some (.wrapErrTransaction "transaction already started"), false⟩) ∧
    (∀ steps, s.tx = none →
      (0 ≤ (s.run 0 steps).2 ∧ (s.run 0 steps).2 ≤ 1) ∧
        ((s.run 0 steps).2 = 1 ↔ (s.run 0 steps).1.tx.isSome = true)) := by
  refine ⟨?_, ?_, ?_, ?_⟩
  · intro tx ht
    simp [Session.Begin, hconn, ht]
  · intro t ht
    refine ⟨by simp [Session.Commit, hconn, ht], by simp [Session.Rollback, hconn, ht], ?_⟩
    intro tx
    simp [Session.Begin, hconn]
  · intro t e ht
    refine ⟨by simp [Session.Commit, hconn, ht], by simp [Session.Rollback, hconn, ht], ?_⟩
    intro driver
    simp [Session.Begin, hconn, ht]
  · intro steps ht
    have h := Session.run_opened steps s 0 (by simp [ht])
    rw [h]
    cases (s.run 0 steps).1.tx <;> simp

theorem session_state_machine_witness :
    (freshSession ⟨1⟩).conn = some ⟨1⟩ ∧
      (freshSession ⟨1⟩).Begin (.ok ⟨7⟩) = ⟨{ freshSession ⟨1⟩ with tx := some ⟨7⟩ }, none, true⟩ :=
  ⟨rfl, (session_state_machine (freshSession ⟨1⟩) ⟨1⟩ rfl).1 ⟨7⟩ rfl⟩

/-- C19: on a session reached from a new session by any calls, `Close` with a
transaction still open returns an error wrapping `ErrTransaction`, does not call the pool
and leaves the session as it was; with no transaction open, on a session that holds a
connection which the pool takes back without error, `Close` returns no error and the
session holds no connection any more. -/
theorem Close_pending_transaction (conn : BoltConn) (steps : List SessionStep) :
    (∀ t pool, ((freshSession conn).run 0 steps).1.tx = some t →
      ((freshSession conn).run 0 steps).1.Close pool =
        ⟨((freshSession conn).run 0 steps).1,
          some (.wrapErrTransaction "cannot close a session with a pending transaction"),
          false⟩) ∧
    (∀ c, ((freshSession conn).run 0 steps).1.tx = none →
      ((freshSession conn).run 0 steps).1.conn = some c →
      ((freshSession conn).run 0 steps).1.Close none =
        ⟨{ ((freshSession conn).run 0 steps).1 with conn := none }, none, true⟩) := by
  constructor
  · intro t pool ht
    have hc := Session.run_keeps_conn steps (freshSession conn) 0 (fun _ => rfl)
      (by simp [ht])
    obtain ⟨c, hc⟩ := Option.isSome_iff_exists.mp hc
    simp [Session.Close, hc, ht]
  · intro c ht hc
    simp [Session.Close, hc, ht]

theorem Close_pending_transaction_witness :
    ((freshSession ⟨1⟩).run 0 [.Begin (.ok ⟨7⟩)]).1.tx = some ⟨7⟩ ∧
      ((freshSession ⟨1⟩).run 0 [.Begin (.ok ⟨7⟩)]).1.Close none =
        ⟨((freshSession ⟨1⟩).run 0 [.Begin (.ok ⟨7⟩)]).1,
          some (.wrapErrTransaction "cannot close a session with a pending transaction"),
          false⟩ :=
  ⟨rfl, (Close_pending_transaction ⟨1⟩ [.Begin (.ok ⟨7⟩)]).1 ⟨7⟩ none rfl⟩

/-! ## Claims on node state -/

theorem mapSet_same {α : Type} (m : List (String × α)) (k : String) (v : α)
    (h : mapGet m k = some v) : mapSet m k v = m := by
  induction m with
  | nil => simp [mapGet] at h
  | cons e rest ih =>
    obtain ⟨k0, v0⟩ := e
    by_cases h0 : k0 = k
    · subst h0
      simp [mapGet] at h
      simp [mapSet, h]
    · simp only [mapGet, h0, if_false] at h
      simp [mapSet, h0, ih h]

/-- C13: on an entity with a string field `fieldName` and a load map, `handleNodeState`
returns without error; when the field is not empty it returns its value and leaves the
entity as it was, whatever the load map; when the field is empty it returns the newly
generated identifier and writes it into the field. -/
theorem handleNodeState_identifier (newUuid fieldName u : String) (e : Entity)
    (m : Option (List (String × RelationConfig)))
    (hu : mapGet e fieldName = some (.atom (.string u)))
    (hl : mapGet e "LoadMap" = some (.loadMap m)) :
    ∃ r, handleNodeState newUuid (some e) fieldName = some r ∧ r.err = none ∧
      (u ≠ "" → r.uuid = u ∧ r.entity = some e) ∧
      (u = "" → r.uuid = newUuid ∧
        r.entity = some (mapSet e fieldName (.atom (.string newUuid))) ∧
        r.entity.bind (fun e1 => mapGet e1 fieldName) = some (.atom (.string r.uuid))) := by
  have hs : fieldString e fieldName = u := by simp [fieldString, hu]
  by_cases hlen : (GoValue.loadMap m).Len = some 0
  · by_cases hu0 : u = ""
    · subst hu0
      refine ⟨_, by simp [handleNodeState, hs, hl, hlen, hu]; rfl, rfl, ?_, ?_⟩
      · intro h; exact absurd rfl h
      · intro _
        exact ⟨rfl, rfl, by simp [mapGet_mapSet]⟩
    · refine ⟨_, by simp [handleNodeState, hs, hl, hlen, hu, hu0]; rfl, rfl, ?_, ?_⟩
      · intro _
        exact ⟨rfl, by rw [mapSet_same e fieldName _ hu]⟩
      · intro h; exact absurd h hu0
  · obtain ⟨n, hn, hn0⟩ : ∃ n, (GoValue.loadMap m).Len = some n ∧ n ≠ 0 := by
      rcases m with _ | l
      · exact absurd rfl hlen
      · refine ⟨l.length, rfl, ?_⟩
        intro h0
        exact hlen (by simp [GoValue.Len, h0])
    by_cases hu0 : u = ""
    · subst hu0
      refine ⟨_, by simp [handleNodeState, hs, hl, hn, hu]; rfl, rfl, ?_, ?_⟩
      · intro h; exact absurd rfl h
      · intro _
        exact ⟨rfl, rfl, by simp [mapGet_mapSet]⟩
    · refine ⟨_, by simp [handleNodeState, hs, hl, hn, hn0, hu0]; rfl, rfl, ?_, ?_⟩
      · intro _
        exact ⟨rfl, rfl⟩
      · intro h; exact absurd h hu0

theorem handleNodeState_identifier_witness :
    mapGet sampleLoaded "UUID" = some (.atom (.string "")) ∧
      mapGet sampleLoaded "LoadMap" = some (.loadMap (some [("TEACHES_CLASS", ⟨["t1"]⟩)])) ∧
      ∃ r, handleNodeState "4f6c" (some sampleLoaded) "UUID" = some r ∧ r.err = none ∧
        (("" : String) ≠ "" → r.uuid = "" ∧ r.entity = some sampleLoaded) ∧
        (("" : String) = "" → r.uuid = "4f6c" ∧
          r.entity = some (mapSet sampleLoaded "UUID" (.atom (.string "4f6c"))) ∧
          r.entity.bind (fun e1 => mapGet e1 "UUID") = some (.atom (.string r.uuid))) :=
  ⟨rfl, rfl, handleNodeState_identifier "4f6c" "UUID" "" sampleLoaded _ rfl rfl⟩

/-- C14, as stated, fails: the entity `sampleLoaded` carries a load snapshot, and
`handleNodeState` reports it as new and returns an empty map, not the snapshot. -/
theorem handleNodeState_snapshot_counterexample :
    mapGet sampleLoaded "LoadMap" = some (.loadMap (some [("TEACHES_CLASS", ⟨["t1"]⟩)])) ∧
      handleNodeState "4f6c" (some sampleLoaded) "UUID" =
        some ⟨some [("UUID", .atom (.string "4f6c")), ("Name", .atom (.string "cs341")),
            ("LoadMap", .loadMap (some [("TEACHES_CLASS", ⟨["t1"]⟩)]))],
          true, "4f6c", some [], none⟩ := by
  decide

/-- C14, amended: on an entity with a string field `fieldName` and a load map,
`handleNodeState` returns the load map and reports the entity as not new when the load
map is not empty and the field is not empty; in every other case (a nil or empty load
map, or an empty field) it returns an empty map and reports the entity as new. -/
theorem handleNodeState_snapshot (newUuid fieldName u : String) (e : Entity)
    (m : Option (List (String × RelationConfig)))
    (hu : mapGet e fieldName = some (.atom (.string u)))
    (hl : mapGet e "LoadMap" = some (.loadMap m)) :
    ∃ r, handleNodeState newUuid (some e) fieldName = some r ∧ r.err = none ∧
      ((m.getD []).length ≠ 0 ∧ u ≠ "" → r.isNew = false ∧ r.relConf = m) ∧
      ((m.getD []).length = 0 ∨ u = "" → r.isNew = true ∧ r.relConf = some []) := by
  have hs : fieldString e fieldName = u := by simp [fieldString, hu]
  have hlen : (GoValue.loadMap m).Len = some (m.getD []).length := by
    rcases m with _ | l <;> rfl
  have heq : handleNodeState newUuid (some e) fieldName =
      (if (m.getD []).length ≠ 0 ∧ u ≠ "" then
        some ⟨some e, false, u, m, none⟩
      else
        some ⟨some (mapSet e fieldName (.atom (.string (if u = "" then newUuid else u)))),
          true, (if u = "" then newUuid else u), some [], none⟩) := by
    simp [handleNodeState, hs, hl, hlen, hu]
  by_cases hc : (m.getD []).length ≠ 0 ∧ u ≠ ""
  · rw [if_pos hc] at heq
    refine ⟨_, heq, rfl, ?_, ?_⟩
    · intro _
      exact ⟨rfl, rfl⟩
    · rintro (h | h)
      · exact absurd h hc.1
      · exact absurd h hc.2
  · rw [if_neg hc] at heq
    refine ⟨_, heq, rfl, ?_, ?_⟩
    · intro h
      exact absurd h hc
    · intro _
      exact ⟨rfl, rfl⟩

theorem handleNodeState_snapshot_witness :
    mapGet sampleLoaded "UUID" = some (.atom (.string "")) ∧
      mapGet sampleLoaded "LoadMap" = some (.loadMap (some [("TEACHES_CLASS", ⟨["t1"]⟩)])) ∧
      ∃ r, handleNodeState "4f6c" (some sampleLoaded) "UUID" = some r ∧ r.err = none ∧
        (((some [("TEACHES_CLASS", (⟨["t1"]⟩ : RelationConfig))] :
            Option (List (String × RelationConfig))).getD []).length ≠ 0 ∧
          ("" : String) ≠ "" →
          r.isNew = false ∧ r.relConf = some [("TEACHES_CLASS", ⟨["t1"]⟩)]) ∧
        (((some [("TEACHES_CLASS", (⟨["t1"]⟩ : RelationConfig))] :
            Option (List (String × RelationConfig))).getD []).length = 0 ∨
          ("" : String) = "" →
          r.isNew = true ∧ r.relConf = some []) :=
  ⟨rfl, rfl, handleNodeState_snapshot "4f6c" "UUID" "" sampleLoaded _ rfl rfl⟩

/-! ## Claims on the parameter map -/

theorem mapGet_assignAll_isSome (ws : List (String × GoValue)) :
    ∀ (ret : List (String × GoValue)) (key : String),
      (mapGet (assignAll ret ws) key).isSome = true ↔
        ((mapGet ret key).isSome = true ∨ ∃ w ∈ ws, w.1 = key) := by
  induction ws with
  | nil =>
    intro ret key
    simp [assignAll]
  | cons w rest ih =>
    intro ret key
    have h := ih (mapSet ret w.1 w.2) key
    simp only [assignAll, List.foldl_cons] at h ⊢
    rw [h, mapGet_mapSet]
    by_cases hk : w.1 = key
    · simp [hk]
    · simp [hk]

/-- What one iteration assigns: nothing for a skipped field; for another field, keys that
are its stored name or, for a properties map, its stored name, a dot and a key of the
map; and its stored name is assigned unless the field is a properties map. -/
theorem fieldParams_keys {conv : GoValue → RType → Option GoValue} {val : Entity}
    {conf : decoratorConfig} {ws : List (String × GoValue)}
    (h : fieldParams conv val conf = .ok ws) :
    (∀ w ∈ ws, skipsField conf = false ∧
      (w.1 = conf.Name ∨ (conf.Properties = true ∧ ∃ k, w.1 = conf.Name ++ "." ++ k))) ∧
    (skipsField conf = false → (conf.IsTime = true ∨ conf.Properties = false) →
      ∃ w ∈ ws, w.1 = conf.Name) := by
  unfold fieldParams at h
  split_ifs at h <;> (try split at h) <;> (try split at h) <;> (try cases h) <;>
    simp_all
  intro a b x x1 _ hx _
  exact Or.inr ⟨x, hx.symm⟩

theorem paramsLoop_keys {conv : GoValue → RType → Option GoValue} {val : Entity}
    (fields : List (String × decoratorConfig)) :
    ∀ {ret ret1 : List (String × GoValue)}, paramsLoop conv val fields ret = .ok ret1 →
      (∀ key, (mapGet ret1 key).isSome = true → (mapGet ret key).isSome = true ∨
        ∃ f ∈ fields, skipsField f.2 = false ∧
          (key = f.2.Name ∨ (f.2.Properties = true ∧ ∃ k, key = f.2.Name ++ "." ++ k))) ∧
      (∀ key, (mapGet ret key).isSome = true → (mapGet ret1 key).isSome = true) ∧
      (∀ f ∈ fields, skipsField f.2 = false → (f.2.IsTime = true ∨ f.2.Properties = false) →
        (mapGet ret1 f.2.Name).isSome = true) := by
  induction fields with
  | nil =>
    intro ret ret1 h
    cases h
    simp
  | cons f rest ih =>
    intro ret ret1 h
    obtain ⟨fname, conf⟩ := f
    simp only [paramsLoop] at h
    split at h
    · rename_i ws hws
      obtain ⟨k1, k2⟩ := fieldParams_keys hws
      obtain ⟨i1, i2, i3⟩ := ih h
      refine ⟨?_, ?_, ?_⟩
      · intro key hkey
        rcases i1 key hkey with hr | ⟨g, hg, hs, hor⟩
        · rcases (mapGet_assignAll_isSome ws ret key).mp hr with hr | ⟨w, hw, hwk⟩
          · exact Or.inl hr
          · obtain ⟨s1, s2⟩ := k1 w hw
            rw [hwk] at s2
            exact Or.inr ⟨(fname, conf), List.mem_cons_self _ _, s1, s2⟩
        · exact Or.inr ⟨g, List.mem_cons_of_mem _ hg, hs, hor⟩
      · intro key hkey
        exact i2 key ((mapGet_assignAll_isSome ws ret key).mpr (Or.inl hkey))
      · intro g hg hs hor
        rcases List.mem_cons.mp hg with hg | hg
        · subst hg
          obtain ⟨w, hw, hwk⟩ := k2 hs hor
          exact i2 _ ((mapGet_assignAll_isSome ws ret _).mpr (Or.inr ⟨w, hw, hwk⟩))
        · exact i3 g hg hs hor
    · cases h
    · cases h

/-- C15, as stated, fails: the entity config `sampleKeyOnly` has the primary-key field
`UUID`, stored as `uuid`, and the parameter map has an entry for it. -/
theorem toCypherParamsMap_primary_key_counterexample :
    sampleUUID.PrimaryKey = true ∧ sampleUUID.Name = "uuid" ∧
      toCypherParamsMap (fun _ _ => none) [("UUID", .atom (.string "c1"))] sampleKeyOnly =
        (some [("uuid", .atom (.string "c1"))], none) := by
  decide

/-- C15, amended: when `toCypherParamsMap` returns a map, every entry of the map comes
from a field that is not skipped (not a relationship field, not ignored, and not stored
under the name `id`), under its stored name or, for a properties map, under its stored
name, a dot and a key; and the map has an entry under the stored name of every field that
is not skipped and not a properties map, the primary key stored as `uuid` included. -/
theorem toCypherParamsMap_entries (conv : GoValue → RType → Option GoValue) (val : Entity)
    (config : structDecoratorConfig) (fields : List (String × decoratorConfig))
    (ret : List (String × GoValue)) (hf : config.Fields = some fields)
    (hret : (toCypherParamsMap conv val config).1 = some ret) :
    (∀ key, (mapGet ret key).isSome = true →
      ∃ f ∈ fields, f.2.Relationship = "" ∧ f.2.Name ≠ "id" ∧ f.2.Ignore = false ∧
        (key = f.2.Name ∨ (f.2.Properties = true ∧ ∃ k, key = f.2.Name ++ "." ++ k))) ∧
    (∀ f ∈ fields, f.2.Relationship = "" → f.2.Name ≠ "id" → f.2.Ignore = false →
      (f.2.IsTime = true ∨ f.2.Properties = false) → (mapGet ret f.2.Name).isSome = true) := by
  have hskip : ∀ c : decoratorConfig, skipsField c = false ↔
      (c.Relationship = "" ∧ c.Name ≠ "id" ∧ c.Ignore = false) := by
    intro c
    simp [skipsField, and_assoc]
  simp only [toCypherParamsMap, hf, Option.getD_some] at hret
  split at hret
  · rename_i r hr
    simp only [Option.some.injEq] at hret
    subst hret
    obtain ⟨i1, _, i3⟩ := paramsLoop_keys fields hr
    constructor
    · intro key hkey
      rcases i1 key hkey with h0 | ⟨f, hf1, hs, hor⟩
      · simp [mapGet] at h0
      · obtain ⟨s1, s2, s3⟩ := (hskip f.2).mp hs
        exact ⟨f, hf1, s1, s2, s3, hor⟩
    · intro f hf1 s1 s2 s3 hor
      exact i3 f hf1 ((hskip f.2).mpr ⟨s1, s2, s3⟩) hor
  · simp at hret
  · simp at hret

theorem toCypherParamsMap_entries_witness :
    sampleKeyOnly.Fields = some [("UUID", sampleUUID)] ∧
      (toCypherParamsMap (fun _ _ => none) [("UUID", .atom (.string "c1"))] sampleKeyOnly).1 =
        some [("uuid", .atom (.string "c1"))] ∧
      (mapGet [("uuid", GoValue.atom (.string "c1"))] sampleUUID.Name).isSome = true :=
  ⟨rfl, rfl,
    (toCypherParamsMap_entries (fun _ _ => none) [("UUID", .atom (.string "c1"))]
      sampleKeyOnly [("UUID", sampleUUID)] [("uuid", .atom (.string "c1"))] rfl rfl).2
      ("UUID", sampleUUID) (List.mem_cons_self _ _) rfl (by decide) rfl (Or.inr rfl)⟩

theorem dotted_injective (name : String) :
    Function.Injective (fun k : String => name ++ "." ++ k) := by
  intro a b h
  have h1 := congrArg String.data h
  simp only [String.data_append, List.append_assoc] at h1
  have h2 := List.append_cancel_left (List.append_cancel_left h1)
  exact String.ext h2

theorem dotted_ne_name (name k : String) : name ++ "." ++ k ≠ name := by
  intro h
  have h1 := congrArg String.data h
  simp only [String.data_append, List.append_assoc] at h1
  have h2 := List.append_right_eq_self.mp h1
  simp at h2

theorem mapGet_assignAll_of_not_mem (ws : List (String × GoValue)) :
    ∀ (ret : List (String × GoValue)) (key : String), (∀ w ∈ ws, w.1 ≠ key) →
      mapGet (assignAll ret ws) key = mapGet ret key := by
  induction ws with
  | nil =>
    intro ret key _
    rfl
  | cons w rest ih =>
    intro ret key h
    have h1 := ih (mapSet ret w.1 w.2) key (fun x hx => h x (List.mem_cons_of_mem _ hx))
    simp only [assignAll, List.foldl_cons] at h1 ⊢
    rw [h1, mapGet_mapSet, if_neg (h w (List.mem_cons_self _ _))]

theorem mapGet_assignAll_of_mem (ws : List (String × GoValue)) :
    ∀ (ret : List (String × GoValue)), (ws.map Prod.fst).Nodup →
      ∀ w ∈ ws, mapGet (assignAll ret ws) w.1 = some w.2 := by
  induction ws with
  | nil =>
    intro ret _ w hw
    simp at hw
  | cons w0 rest ih =>
    intro ret hnd w hw
    simp only [List.map_cons, List.nodup_cons] at hnd
    have hstep : assignAll ret (w0 :: rest) = assignAll (mapSet ret w0.1 w0.2) rest := rfl
    rw [hstep]
    rcases List.mem_cons.mp hw with hw | hw
    · subst hw
      rw [mapGet_assignAll_of_not_mem rest _ _ ?_, mapGet_mapSet, if_pos rfl]
      intro x hx hxe
      exact hnd.1 (List.mem_map.mpr ⟨x, hx, hxe⟩)
    · exact ih _ hnd.2 w hw

/-- C16, as stated, fails: the tag `name=id;properties` is accepted on a field of type
`map[string]interface{}`, and for that properties-map field, holding a map with one
entry, `toCypherParamsMap` returns a map without any parameter. -/
theorem toCypherParamsMap_properties_counterexample :
    newDecoratorConfig sampleEnv "name=id;properties" "Meta" mapStringInterfaceType =
        .ok sampleIdProperties ∧
      toCypherParamsMap (fun _ _ => none)
          [("Meta", .properties (some [("credits", .int64 3)]))] sampleIdPropertiesOnly =
        (some [], none) :=
  ⟨rfl, rfl⟩

/-- C16, amended: for a properties-map field that is not skipped (its stored name `N` is
not `id`, it has no relationship name and is not ignored), is not flagged time and is of
map kind, holding the map `M`: the iteration of `toCypherParamsMap` for the field assigns
one parameter per entry of `M`, keyed `N.k` for the key `k`, and nothing else; after it
the parameter map holds `M[k]` under `N.k` for every key `k` of `M`, and what it held
before under every other key, the bare name `N` included; a nil or empty `M` assigns
nothing; and on an entity config with that field alone `toCypherParamsMap` returns the
map of these parameters. -/
theorem fieldParams_properties (conv : GoValue → RType → Option GoValue) (val : Entity)
    (conf : decoratorConfig) (m : Option (List (String × Atom)))
    (hs : skipsField conf = false) (hp : conf.Properties = true) (ht : conf.IsTime = false)
    (hk : conf.Typ.Kind = .Map) (hv : mapGet val conf.FieldName = some (.properties m))
    (hnd : ((m.getD []).map Prod.fst).Nodup) :
    fieldParams conv val conf =
        .ok ((m.getD []).map (fun kv => (conf.Name ++ "." ++ kv.1, .atom kv.2))) ∧
      (∀ ret, ∀ kv ∈ m.getD [],
        mapGet (assignAll ret ((m.getD []).map
          (fun kv => (conf.Name ++ "." ++ kv.1, GoValue.atom kv.2))))
          (conf.Name ++ "." ++ kv.1) = some (.atom kv.2)) ∧
      (∀ ret key, (∀ kv ∈ m.getD [], key ≠ conf.Name ++ "." ++ kv.1) →
        mapGet (assignAll ret ((m.getD []).map
          (fun kv => (conf.Name ++ "." ++ kv.1, GoValue.atom kv.2)))) key = mapGet ret key) ∧
      (∀ kv ∈ m.getD [], conf.Name ≠ conf.Name ++ "." ++ kv.1) ∧
      (m.getD [] = [] → fieldParams conv val conf = .ok []) ∧
      (∀ fieldName label isVertex typ,
        toCypherParamsMap conv val ⟨some [(fieldName, conf)], label, isVertex, typ⟩ =
          (some (assignAll [] ((m.getD []).map
            (fun kv => (conf.Name ++ "." ++ kv.1, GoValue.atom kv.2)))), none)) := by
  have hfp : fieldParams conv val conf =
      .ok ((m.getD []).map (fun kv => (conf.Name ++ "." ++ kv.1, .atom kv.2))) := by
    simp [fieldParams, hs, hp, ht, hk, hv]
  have hnd1 : (((m.getD []).map
      (fun kv => (conf.Name ++ "." ++ kv.1, GoValue.atom kv.2))).map Prod.fst).Nodup := by
    rw [List.map_map]
    have hcomp : (Prod.fst ∘ fun kv : String × Atom =>
        (conf.Name ++ "." ++ kv.1, GoValue.atom kv.2)) =
        (fun k : String => conf.Name ++ "." ++ k) ∘ Prod.fst := rfl
    rw [hcomp, ← List.map_map]
    exact hnd.map (dotted_injective conf.Name)
  refine ⟨hfp, ?_, ?_, ?_, ?_, ?_⟩
  · intro ret kv hkv
    exact mapGet_assignAll_of_mem _ ret hnd1 (conf.Name ++ "." ++ kv.1, .atom kv.2)
      (List.mem_map.mpr ⟨kv, hkv, rfl⟩)
  · intro ret key hkey
    apply mapGet_assignAll_of_not_mem
    intro w hw
    obtain ⟨kv, hkv, hw⟩ := List.mem_map.mp hw
    subst hw
    exact fun h => hkey kv hkv h.symm
  · intro kv _ h
    exact dotted_ne_name conf.Name kv.1 h.symm
  · intro h0
    rw [hfp, h0]
    rfl
  · intro fieldName label isVertex typ
    simp [toCypherParamsMap, paramsLoop, hfp]

theorem fieldParams_properties_witness :
    skipsField sampleGrades = false ∧ sampleGrades.Properties = true ∧
      sampleGrades.IsTime = false ∧ sampleGrades.Typ.Kind = .Map ∧
      mapGet [("Grades", GoValue.properties (some [("math", .int64 5), ("art", .int64 4)]))]
        sampleGrades.FieldName = some (.properties (some [("math", .int64 5), ("art", .int64 4)])) ∧
      toCypherParamsMap (fun _ _ => none)
          [("Grades", GoValue.properties (some [("math", .int64 5), ("art", .int64 4)]))]
          ⟨some [("Grades", sampleGrades)], "Student", true, .leaf .Struct "main" "Student"⟩ =
        (some [("grades.math", .atom (.int64 5)), ("grades.art", .atom (.int64 4))], none) :=
  ⟨rfl, rfl, rfl, rfl, rfl,
    (fieldParams_properties (fun _ _ => none)
      [("Grades", GoValue.properties (some [("math", .int64 5), ("art", .int64 4)]))]
      sampleGrades (some [("math", .int64 5), ("art", .int64 4)]) rfl rfl rfl rfl rfl
      (by decide)).2.2.2.2.2 "Grades" "Student" true (.leaf .Struct "main" "Student")⟩

/-! ## Claims on the tokens of a field tag -/

theorem parseField_unrecognised (env : Env) (varType : RType) (d : decoratorConfig)
    (field : String) (hbad : recognisedToken field = false) :
    (Contains field '=' = false →
      parseField env varType d field =
        .error (.msg ("key '" ++ field ++ "' is not recognized"))) ∧
    (∀ key val, Split field '=' = [key, val] →
      parseField env varType d field =
        .error (.msg ("key '" ++ key ++ "' is not recognized"))) ∧
    (Contains field '=' = true → (Split field '=').length ≠ 2 →
      parseField env varType d field = .error (.msg "empty assignment")) := by
  refine ⟨?_, ?_, ?_⟩
  · intro hc
    simp only [recognisedToken, hc, Bool.false_eq_true, if_false, knownFlag,
      Bool.or_eq_false_iff, decide_eq_false_iff_not] at hbad
    obtain ⟨⟨⟨⟨⟨h1, h2⟩, h3⟩, h4⟩, h5⟩, h6⟩ := hbad
    simp [parseField, hc, h1, h2, h3, h4, h5, h6]
  · intro key val hs
    by_cases hc : Contains field '=' = true
    · simp only [recognisedToken, hc, if_true, hs, knownKey, Bool.or_eq_false_iff,
        decide_eq_false_iff_not] at hbad
      obtain ⟨⟨h1, h2⟩, h3⟩ := hbad
      simp [parseField, hc, hs, h1, h2, h3]
    · exfalso
      apply hc
      have hlen : (Split field '=').length = 2 := by rw [hs]; rfl
      simp only [Split, List.length_map, splitChars_length] at hlen
      have hpos : 0 < field.data.count '=' := by omega
      simpa [Contains] using List.count_pos_iff.mp hpos
  · intro hc hlen
    unfold parseField
    simp only [hc, if_true]
    split
    · rename_i key val hs
      rw [hs] at hlen
      exact absurd rfl hlen
    · rfl

theorem parseFields_error_of_mem (env : Env) (varType : RType) (fields : List String)
    (hbad : ∃ f ∈ fields, recognisedToken f = false) :
    ∀ d, ∃ err, parseFields env varType fields d = .error err := by
  induction fields with
  | nil =>
    obtain ⟨f, hf, _⟩ := hbad
    simp at hf
  | cons field rest ih =>
    intro d
    simp only [parseFields]
    cases hp : parseField env varType d field with
    | error e => exact ⟨e, rfl⟩
    | ok d1 =>
      obtain ⟨f, hf, hfb⟩ := hbad
      rcases List.mem_cons.mp hf with hf | hf
      · subst hf
        obtain ⟨p1, p2, p3⟩ := parseField_unrecognised env varType d f hfb
        by_cases hc : Contains f '=' = true
        · by_cases hlen : (Split f '=').length = 2
          · obtain ⟨key, val, hs⟩ : ∃ key val, Split f '=' = [key, val] := by
              match hsp : Split f '=', hlen with
              | [a, b], _ => exact ⟨a, b, rfl⟩
            rw [p2 key val hs] at hp
            cases hp
          · rw [p3 hc hlen] at hp
            cases hp
        · rw [p1 (by simpa using hc)] at hp
          cases hp
      · exact ih ⟨f, hf, hfb⟩ d1

theorem parseField_recognised (env : Env) (varType : RType) (d : decoratorConfig)
    (field : String) (hok : recognisedToken field = true)
    (hslice : refusedSlice varType field = false) :
    ∃ d1, parseField env varType d field = .ok d1 := by
  cases h : parseField env varType d field with
  | ok d1 => exact ⟨d1, rfl⟩
  | error e =>
    exfalso
    unfold recognisedToken at hok
    split_ifs at hok with hc
    · split at hok
      · rename_i key val hs
        simp only [knownKey, Bool.or_eq_true, decide_eq_true_eq] at hok
        rcases hok with (hk | hk) | hk
        · subst hk
          simp [parseField, hc, hs] at h
        · subst hk
          simp only [refusedSlice, hs] at hslice
          cases varType with
          | slice p n elem =>
            have he : elem.Kind = .Ptr := by simpa using hslice
            simp [parseField, hc, hs, he] at h
          | leaf k p n => simp [parseField, hc, hs] at h
          | ptr e => simp [parseField, hc, hs] at h
          | array p n l e => simp [parseField, hc, hs] at h
          | chan p n e => simp [parseField, hc, hs] at h
          | map p n k e => simp [parseField, hc, hs] at h
        · subst hk
          simp [parseField, hc, hs] at h
      · simp at hok
    · simp only [knownFlag, Bool.or_eq_true, decide_eq_true_eq] at hok
      rcases hok with ((((hk | hk) | hk) | hk) | hk) | hk <;> subst hk <;>
        simp [parseField, hc] at h

theorem parseFields_prefix_ok (env : Env) (varType : RType) (pre : List String)
    (hpre : ∀ f ∈ pre, recognisedToken f = true ∧ refusedSlice varType f = false) :
    ∀ d, ∃ d1, parseFields env varType pre d = .ok d1 := by
  induction pre with
  | nil =>
    intro d
    exact ⟨d, rfl⟩
  | cons f rest ih =>
    intro d
    obtain ⟨h1, h2⟩ := hpre f (List.mem_cons_self _ _)
    obtain ⟨d1, hd1⟩ := parseField_recognised env varType d f h1 h2
    obtain ⟨d2, hd2⟩ := ih (fun g hg => hpre g (List.mem_cons_of_mem _ hg)) d1
    exact ⟨d2, by simp [parseFields, hd1, hd2]⟩

theorem parseFields_append_error (env : Env) (varType : RType) (pre post : List String)
    (field : String) (err : GoError) :
    ∀ d d1, parseFields env varType pre d = .ok d1 →
      parseField env varType d1 field = .error err →
      parseFields env varType (pre ++ field :: post) d = .error err := by
  induction pre with
  | nil =>
    intro d d1 h1 h2
    cases h1
    simp [parseFields, h2]
  | cons f rest ih =>
    intro d d1 h1 h2
    simp only [parseFields] at h1
    split at h1
    · cases h1
    · rename_i d0 h0
      simp only [List.cons_append, parseFields, h0]
      exact ih d0 d1 h1 h2

theorem newDecoratorConfig_of_parse_error (env : Env) (decorator name : String)
    (varType : RType) (err : GoError)
    (h : ∀ d, parseFields env varType (Split decorator ';') d = .error err) :
    newDecoratorConfig env decorator name varType = .error err := by
  simp only [newDecoratorConfig]
  split_ifs with h0
  · exfalso
    simp only [Split, List.length_map, splitChars_length] at h0
    omega
  · rw [h]

/-- C20, as stated, fails: the token `x=y=z` is neither a bare flag nor a `key=value` pair
with a known key, and the error `newDecoratorConfig` returns for it, `empty assignment`,
mentions neither the token nor its key. -/
theorem newDecoratorConfig_unknown_token_counterexample :
    recognisedToken "x=y=z" = false ∧
      newDecoratorConfig sampleEnv "x=y=z" "Name" (.leaf .String "" "string") =
        .error (.msg "empty assignment") ∧
      mentions "empty assignment" "x=y=z" = false ∧ mentions "empty assignment" "x" = false :=
  ⟨by decide, rfl, by decide, by decide⟩

/-- C20, amended: `newDecoratorConfig` fails for every field tag with a token that is
neither a bare flag (`unique`, `pk`, `-`, `properties`, `index`, `time`) nor a pair
`key=value` with one `=` whose key is `name`, `relationship` or `direction`, the empty
token included. When the tokens before that token are all processed, the error is
`key 't' is not recognized` with `t` the token, for a token without `=`, or its key, for
a token with one `=`; it is `empty assignment` for a token with more than one `=`. -/
theorem newDecoratorConfig_unknown_token (env : Env) (decorator name : String)
    (varType : RType) (pre post : List String) (field : String)
    (hsplit : Split decorator ';' = pre ++ field :: post)
    (hbad : recognisedToken field = false) :
    (∃ err, newDecoratorConfig env decorator name varType = .error err) ∧
    ((∀ f ∈ pre, recognisedToken f = true ∧ refusedSlice varType f = false) →
      (Contains field '=' = false →
        newDecoratorConfig env decorator name varType =
          .error (.msg ("key '" ++ field ++ "' is not recognized"))) ∧
      (∀ key val, Split field '=' = [key, val] →
        newDecoratorConfig env decorator name varType =
          .error (.msg ("key '" ++ key ++ "' is not recognized"))) ∧
      (Contains field '=' = true → (Split field '=').length ≠ 2 →
        newDecoratorConfig env decorator name varType = .error (.msg "empty assignment"))) := by
  constructor
  · have hmem : ∃ f ∈ Split decorator ';', recognisedToken f = false :=
      ⟨field, by rw [hsplit]; simp, hbad⟩
    simp only [newDecoratorConfig]
    split_ifs with h0
    · exact ⟨_, rfl⟩
    · obtain ⟨e, he⟩ := parseFields_error_of_mem env varType _ hmem
        { Typ := varType, Name := "", FieldName := name, Relationship := "", Direction := 0,
          Unique := false, Index := false, ManyRelationship := false, UsesEdgeNode := false,
          PrimaryKey := false, Properties := false, IsTime := false, IsTypeDef := false,
          TypedefActual := none, Ignore := false }
      exact ⟨e, by rw [he]⟩
  · intro hpre
    have hall : ∀ err, (∀ d, parseField env varType d field = .error err) →
        newDecoratorConfig env decorator name varType = .error err := by
      intro err herr
      apply newDecoratorConfig_of_parse_error
      intro d
      obtain ⟨d1, hd1⟩ := parseFields_prefix_ok env varType pre hpre d
      rw [hsplit]
      exact parseFields_append_error env varType pre post field err d d1 hd1 (herr d1)
    refine ⟨?_, ?_, ?_⟩
    · intro hc
      exact hall _ (fun d => (parseField_unrecognised env varType d field hbad).1 hc)
    · intro key val hs
      exact hall _ (fun d => (parseField_unrecognised env varType d field hbad).2.1 key val hs)
    · intro hc hlen
      exact hall _ (fun d => (parseField_unrecognised env varType d field hbad).2.2 hc hlen)

theorem newDecoratorConfig_unknown_token_witness :
    Split "unique;" ';' = ["unique"] ++ "" :: [] ∧ recognisedToken "" = false ∧
      newDecoratorConfig sampleEnv "unique;" "Name" (.leaf .String "" "string") =
        .error (.msg "key '' is not recognized") :=
  ⟨by decide, by decide,
    ((newDecoratorConfig_unknown_token sampleEnv "unique;" "Name" (.leaf .String "" "string")
      ["unique"] [] "" (by decide) (by decide)).2
      (by decide)).1 (by decide)⟩

/-! ## Claims on `GetConfigs` -/

theorem registerAll_configs_ne_none (adds : List Registration) (h : adds ≠ []) :
    ∃ configs, (registerAll adds).configs = some configs := by
  induction adds using List.reverseRecOn with
  | nil => exact absurd rfl h
  | append_singleton l a _ =>
    rw [registerAll_append]
    exact ⟨_, rfl⟩

theorem entries_eq_of_configs {r : relationConfigs} {configs : List (String × ConfMap)}
    (h : r.configs = some configs) : r.entries = configs := by
  simp [relationConfigs.entries, h]

/-- The registry holds, under a key and a field type, the configs registered under them,
in the order of their registration. -/
theorem lookup_registerAll (adds : List Registration) (nodeType relationship fieldType : String) :
    (mapGet (registerAll adds).entries (relationConfigs.getKey nodeType relationship)).isSome =
        keyRegistered adds nodeType relationship ∧
      (mapGet (registerAll adds).entries (relationConfigs.getKey nodeType relationship)).bind
          (fun confMap => mapGet confMap fieldType) =
        (if candidates adds nodeType relationship fieldType = [] then none
          else some (candidates adds nodeType relationship fieldType)) := by
  induction adds using List.reverseRecOn with
  | nil => simp [registerAll, relationConfigs.entries, mapGet, keyRegistered, candidates]
  | append_singleton l a ih =>
    obtain ⟨ih1, ih2⟩ := ih
    rw [registerAll_append, Add_entries, mapGet_mapSet]
    by_cases hk : relationConfigs.getKey a.nodeType a.relationship =
        relationConfigs.getKey nodeType relationship
    · rw [if_pos hk]
      constructor
      · simp [keyRegistered, hk]
      · simp only [Option.some_bind, mapGet_mapSet]
        rw [hk]
        by_cases hf : a.fieldType = fieldType
        · subst hf
          have hc : candidates (l ++ [a]) nodeType relationship a.fieldType =
              candidates l nodeType relationship a.fieldType ++ [a.dec] := by
            simp [candidates, List.filter_append, hk]
          have hget : (mapGet ((mapGet (registerAll l).entries
              (relationConfigs.getKey nodeType relationship)).getD []) a.fieldType).getD [] =
              candidates l nodeType relationship a.fieldType := by
            cases hm : mapGet (registerAll l).entries
                (relationConfigs.getKey nodeType relationship) with
            | none =>
              rw [hm] at ih2
              simp only [Option.none_bind] at ih2
              by_cases hcand : candidates l nodeType relationship a.fieldType = []
              · simp [mapGet, hcand]
              · simp [hcand] at ih2
            | some cm =>
              rw [hm] at ih2
              simp only [Option.some_bind] at ih2
              by_cases hcand : candidates l nodeType relationship a.fieldType = []
              · simp [ih2, hcand]
              · simp [ih2, hcand]
          rw [if_pos rfl, hget, hc]
          simp
        · have hc : candidates (l ++ [a]) nodeType relationship fieldType =
              candidates l nodeType relationship fieldType := by
            simp [candidates, List.filter_append, hk, hf]
          rw [if_neg hf, hc, ← ih2]
          cases hm : mapGet (registerAll l).entries
              (relationConfigs.getKey nodeType relationship) with
          | none => simp [mapGet]
          | some cm => simp
    · rw [if_neg hk]
      have hc : candidates (l ++ [a]) nodeType relationship fieldType =
          candidates l nodeType relationship fieldType := by
        simp [candidates, List.filter_append, hk]
      constructor
      · rw [ih1]
        simp [keyRegistered, hk]
      · rw [ih2, hc]

/-- What `getConfig` returns on the registry built by a non-empty sequence of `Add`
calls, in terms of the registered configs. -/
theorem getConfig_registerAll (adds : List Registration) (hne : adds ≠ [])
    (nodeType relationship fieldType : String) (direction : Int) :
    (registerAll adds).getConfig nodeType relationship fieldType direction =
      if keyRegistered adds nodeType relationship = false then
        .error (.msg ("no configs for key [" ++
          relationConfigs.getKey nodeType relationship ++ "]"))
      else
        match candidates adds nodeType relationship fieldType with
        | [] =>
          .error (.msg ("no configs for key [" ++
            relationConfigs.getKey nodeType relationship ++ "] and field type [" ++
            fieldType ++ "]"))
        | [c] => .ok c
        | confs =>
          match confs.find? (fun c => decide (c.Direction = direction)) with
          | some c => .ok c
          | none => .error (.msg "relation with correct direction not found") := by
  obtain ⟨configs, hconf⟩ := registerAll_configs_ne_none adds hne
  obtain ⟨l1, l2⟩ := lookup_registerAll adds nodeType relationship fieldType
  rw [entries_eq_of_configs hconf] at l1 l2
  simp only [relationConfigs.getConfig, hconf]
  cases hm : mapGet configs (relationConfigs.getKey nodeType relationship) with
  | none =>
    rw [hm] at l1
    simp only [Option.isSome_none] at l1
    simp [← l1]
  | some confMap =>
    rw [hm] at l1 l2
    simp only [Option.isSome_some] at l1
    simp only [Option.some_bind] at l2
    simp only [← l1]
    by_cases hc : candidates adds nodeType relationship fieldType = []
    · rw [if_pos hc] at l2
      simp [l2, hc]
    · rw [if_neg hc] at l2
      simp only [l2]
      simp only [Bool.true_eq_false, if_false]
      match hcs : candidates adds nodeType relationship fieldType with
      | [] => exact absurd hcs hc
      | [c] => rfl
      | c1 :: c2 :: rest => rfl

/-- The key of a label and a relationship name without `-` is the key of no other label
and relationship name. -/
theorem getKey_eq_iff {x y n r : String} (hx : '-' ∉ x.data) (hy : '-' ∉ y.data) :
    relationConfigs.getKey x y = relationConfigs.getKey n r ↔ x = n ∧ y = r := by
  constructor
  · intro h
    have h1 : relTypeOf (relationConfigs.getKey n r) = some y := by
      rw [← h]
      exact relTypeOf_getKey hx hy
    obtain ⟨hn, hr⟩ := dashFree_of_relTypeOf (by rw [h1]; rfl)
    have h2 := relTypeOf_getKey hn hr
    rw [h1] at h2
    have hyr : y = r := Option.some.inj h2
    subst hyr
    have hd : x.data ++ '-' :: y.data = n.data ++ '-' :: y.data := by
      have := congrArg String.data h
      simpa [relationConfigs.getKey, String.data_append] using this
    exact ⟨String.ext (List.append_cancel_right hd), rfl⟩
  · rintro ⟨rfl, rfl⟩
    rfl

/-- On a registry without `-` in its labels and relationship names, the configs under the
key of a label and a relationship name are the configs registered with that label and
that relationship name. -/
theorem candidates_eq_registeredConfigs {adds : List Registration}
    (hfree : ∀ a ∈ adds, '-' ∉ a.nodeType.data ∧ '-' ∉ a.relationship.data)
    (nodeType relationship fieldType : String) :
    candidates adds nodeType relationship fieldType =
      registeredConfigs adds nodeType relationship fieldType := by
  unfold candidates registeredConfigs
  congr 1
  apply List.filter_congr
  intro a ha
  have hk := getKey_eq_iff (n := nodeType) (r := relationship) (hfree a ha).1 (hfree a ha).2
  simp [hk, Bool.decide_and]

theorem keyRegistered_eq_pairRegistered {adds : List Registration}
    (hfree : ∀ a ∈ adds, '-' ∉ a.nodeType.data ∧ '-' ∉ a.relationship.data)
    (nodeType relationship : String) :
    keyRegistered adds nodeType relationship = pairRegistered adds nodeType relationship := by
  unfold keyRegistered pairRegistered
  induction adds with
  | nil => rfl
  | cons a rest ih =>
    have hk := getKey_eq_iff (n := nodeType) (r := relationship)
      (hfree a (List.mem_cons_self _ _)).1 (hfree a (List.mem_cons_self _ _)).2
    simp only [List.any_cons]
    rw [ih (fun b hb => hfree b (List.mem_cons_of_mem _ hb))]
    congr 1
    simp [hk, Bool.decide_and]

/-- What `GetConfigs` returns on the registry built by calls of `Add`, in terms of the
configs registered under the key of a label and a relationship name: the errors when
nothing is registered under a key or a field type, on the start side and on the end
side, and the choice by direction among two or more configs. -/
theorem GetConfigs_by_key (env : Env) (adds : List Registration)
    (startNodeType startNodeFieldType endNodeType endNodeFieldType relationship : String) :
    (adds = [] →
      (registerAll adds).GetConfigs env startNodeType startNodeFieldType endNodeType
        endNodeFieldType relationship = .error (.msg "no configs provided")) ∧
    (candidates adds startNodeType relationship startNodeFieldType = [] ∨
        candidates adds endNodeType relationship endNodeFieldType = [] →
      ∃ err, (registerAll adds).GetConfigs env startNodeType startNodeFieldType endNodeType
        endNodeFieldType relationship = .error err) ∧
    (adds ≠ [] → candidates adds startNodeType relationship startNodeFieldType = [] →
      (registerAll adds).GetConfigs env startNodeType startNodeFieldType endNodeType
          endNodeFieldType relationship =
        (if keyRegistered adds startNodeType relationship = false then
          .error (.msg ("no configs for key [" ++
            relationConfigs.getKey startNodeType relationship ++ "]"))
        else
          .error (.msg ("no configs for key [" ++
            relationConfigs.getKey startNodeType relationship ++ "] and field type [" ++
            startNodeFieldType ++ "]")))) ∧
    (∀ start, (registerAll adds).getConfig startNodeType relationship startNodeFieldType
          env.DirectionOutgoing = .ok start →
      candidates adds endNodeType relationship endNodeFieldType = [] →
      (registerAll adds).GetConfigs env startNodeType startNodeFieldType endNodeType
          endNodeFieldType relationship =
        (if keyRegistered adds endNodeType relationship = false then
          .error (.msg ("no configs for key [" ++
            relationConfigs.getKey endNodeType relationship ++ "]"))
        else
          .error (.msg ("no configs for key [" ++
            relationConfigs.getKey endNodeType relationship ++ "] and field type [" ++
            endNodeFieldType ++ "]")))) ∧
    (∀ nodeType fieldType direction,
      1 < (candidates adds nodeType relationship fieldType).length →
      (registerAll adds).getConfig nodeType relationship fieldType direction =
        match (candidates adds nodeType relationship fieldType).find?
            (fun c => decide (c.Direction = direction)) with
        | some c => .ok c
        | none => .error (.msg "relation with correct direction not found")) ∧
    (1 < (candidates adds startNodeType relationship startNodeFieldType).length →
      (candidates adds startNodeType relationship startNodeFieldType).find?
          (fun c => decide (c.Direction = env.DirectionOutgoing)) = none →
      (registerAll adds).GetConfigs env startNodeType startNodeFieldType endNodeType
          endNodeFieldType relationship =
        .error (.msg "relation with correct direction not found")) ∧
    (1 < (candidates adds startNodeType relationship startNodeFieldType).length →
      1 < (candidates adds endNodeType relationship endNodeFieldType).length →
      ∀ start, (candidates adds startNodeType relationship startNodeFieldType).find?
          (fun c => decide (c.Direction = env.DirectionOutgoing)) = some start →
        ((candidates adds endNodeType relationship endNodeFieldType).find?
            (fun c => decide (c.Direction = env.DirectionIncoming)) = none →
          (registerAll adds).GetConfigs env startNodeType startNodeFieldType endNodeType
              endNodeFieldType relationship =
            .error (.msg "relation with correct direction not found")) ∧
        (∀ end_, (candidates adds endNodeType relationship endNodeFieldType).find?
            (fun c => decide (c.Direction = env.DirectionIncoming)) = some end_ →
          (registerAll adds).GetConfigs env startNodeType startNodeFieldType endNodeType
              endNodeFieldType relationship = .ok (start, end_))) := by
  have hnil : adds = [] →
      (registerAll adds).GetConfigs env startNodeType startNodeFieldType endNodeType
        endNodeFieldType relationship = .error (.msg "no configs provided") := by
    intro h
    subst h
    rfl
  have hreg : ∀ cs : List decoratorConfig, 1 < cs.length → cs ≠ [] := by
    intro cs h h0
    subst h0
    simp at h
  have hkey : ∀ nodeType fieldType,
      candidates adds nodeType relationship fieldType ≠ [] →
      keyRegistered adds nodeType relationship = true := by
    intro nodeType fieldType h
    obtain ⟨c, hc⟩ := List.exists_mem_of_ne_nil _ h
    obtain ⟨a, ha, _⟩ := List.mem_map.mp hc
    obtain ⟨ha1, ha2⟩ := List.mem_filter.mp ha
    simp only [Bool.and_eq_true, decide_eq_true_eq] at ha2
    simp only [keyRegistered, List.any_eq_true, decide_eq_true_eq]
    exact ⟨a, ha1, ha2.1⟩
  have hmany : ∀ nodeType fieldType direction,
      1 < (candidates adds nodeType relationship fieldType).length → adds ≠ [] →
      (registerAll adds).getConfig nodeType relationship fieldType direction =
        match (candidates adds nodeType relationship fieldType).find?
            (fun c => decide (c.Direction = direction)) with
        | some c => .ok c
        | none => .error (.msg "relation with correct direction not found") := by
    intro nodeType fieldType direction hlen hne
    rw [getConfig_registerAll adds hne, hkey nodeType fieldType (hreg _ hlen)]
    simp only [Bool.true_eq_false, if_false]
    match hcs : candidates adds nodeType relationship fieldType with
    | [] => rw [hcs] at hlen; simp at hlen
    | [c] => rw [hcs] at hlen; simp at hlen
    | c1 :: c2 :: rest => rfl
  have hadds : ∀ nodeType fieldType,
      candidates adds nodeType relationship fieldType ≠ [] → adds ≠ [] := by
    intro nodeType fieldType h h0
    subst h0
    exact h rfl
  have hempty : ∀ nodeType fieldType direction, adds ≠ [] →
      candidates adds nodeType relationship fieldType = [] →
      (registerAll adds).getConfig nodeType relationship fieldType direction =
        (if keyRegistered adds nodeType relationship = false then
          .error (.msg ("no configs for key [" ++
            relationConfigs.getKey nodeType relationship ++ "]"))
        else
          .error (.msg ("no configs for key [" ++
            relationConfigs.getKey nodeType relationship ++ "] and field type [" ++
            fieldType ++ "]"))) := by
    intro nodeType fieldType direction hne hc
    rw [getConfig_registerAll adds hne, hc]
  refine ⟨hnil, ?_, ?_, ?_, ?_, ?_, ?_⟩
  · intro hor
    by_cases hne : adds = []
    · exact ⟨_, hnil hne⟩
    · obtain ⟨configs, hconf⟩ := registerAll_configs_ne_none adds hne
      simp only [relationConfigs.GetConfigs, hconf]
      rcases hor with hs | he
      · rw [hempty _ _ _ hne hs]
        split_ifs <;> exact ⟨_, rfl⟩
      · cases (registerAll adds).getConfig startNodeType relationship startNodeFieldType
          env.DirectionOutgoing with
        | error e => exact ⟨e, rfl⟩
        | ok s =>
          simp only
          rw [hempty _ _ _ hne he]
          split_ifs <;> exact ⟨_, rfl⟩
  · intro hne hs
    obtain ⟨configs, hconf⟩ := registerAll_configs_ne_none adds hne
    simp only [relationConfigs.GetConfigs, hconf]
    rw [hempty _ _ _ hne hs]
    split_ifs <;> rfl
  · intro start hstart he
    have hne : adds ≠ [] := by
      rintro rfl
      simp [registerAll, relationConfigs.getConfig] at hstart
    obtain ⟨configs, hconf⟩ := registerAll_configs_ne_none adds hne
    simp only [relationConfigs.GetConfigs, hconf]
    rw [hstart]
    simp only
    rw [hempty _ _ _ hne he]
    split_ifs <;> rfl
  · intro nodeType fieldType direction hlen
    exact hmany nodeType fieldType direction hlen (hadds _ _ (hreg _ hlen))
  · intro hlen hfind
    have hne := hadds _ _ (hreg _ hlen)
    obtain ⟨configs, hconf⟩ := registerAll_configs_ne_none adds hne
    simp only [relationConfigs.GetConfigs, hconf]
    rw [hmany _ _ _ hlen hne, hfind]
  · intro hlen1 hlen2 start hstart
    have hne := hadds _ _ (hreg _ hlen1)
    obtain ⟨configs, hconf⟩ := registerAll_configs_ne_none adds hne
    simp only [relationConfigs.GetConfigs, hconf]
    rw [hmany _ _ _ hlen1 hne, hstart]
    simp only
    rw [hmany _ _ _ hlen2 hne]
    constructor
    · intro hend
      rw [hend]
    · intro end_ hend
      rw [hend]

/-- C12, as stated, fails: with two configs registered, both with the label `a-b` and
the relationship name `c`, nothing is registered with the label `a` and the relationship
name `b-c`, and `GetConfigs` asked for the label `a` and the relationship name `b-c` on
both sides returns the two configs. -/
theorem GetConfigs_resolves_counterexample :
    (∀ a ∈ sampleCollidingAdds, ¬ (a.nodeType = "a" ∧ a.relationship = "b-c")) ∧
      pairRegistered sampleCollidingAdds "a" "b-c" = false ∧
      registeredConfigs sampleCollidingAdds "a" "b-c" "X" = [] ∧
      registeredConfigs sampleCollidingAdds "a" "b-c" "Y" = [] ∧
      (registerAll sampleCollidingAdds).GetConfigs sampleEnv "a" "X" "a" "Y" "b-c" =
        .ok (sampleRelation "F" "c" 0 sampleSubjectsType true,
          sampleRelation "G" "c" 1 sampleSubjectsType true) :=
  ⟨by decide, by decide, by decide, by decide, rfl⟩

/-- C12, amended: on the registry built by calls of `Add` whose labels and relationship
names hold no `-`, `GetConfigs` fails with `no configs provided` when nothing was
registered, and fails when no config is registered with the label and the relationship
name, or with them and the peer type, on the start side or on the end side (the error
names the key, or the key and the field type, of the first side that fails); and when
more than one config is registered with a label, the relationship name and a peer type,
that side resolves to the first registered config with the direction asked for, outgoing
for the start side and incoming for the end side: with more than one on both sides
`GetConfigs` returns that pair, and fails with `relation with correct direction not
found` when one of the two is missing. -/
theorem GetConfigs_resolves (env : Env) (adds : List Registration)
    (hfree : ∀ a ∈ adds, '-' ∉ a.nodeType.data ∧ '-' ∉ a.relationship.data)
    (startNodeType startNodeFieldType endNodeType endNodeFieldType relationship : String) :
    (adds = [] →
      (registerAll adds).GetConfigs env startNodeType startNodeFieldType endNodeType
        endNodeFieldType relationship = .error (.msg "no configs provided")) ∧
    (registeredConfigs adds startNodeType relationship startNodeFieldType = [] ∨
        registeredConfigs adds endNodeType relationship endNodeFieldType = [] →
      ∃ err, (registerAll adds).GetConfigs env startNodeType startNodeFieldType endNodeType
        endNodeFieldType relationship = .error err) ∧
    (adds ≠ [] → registeredConfigs adds startNodeType relationship startNodeFieldType = [] →
      (registerAll adds).GetConfigs env startNodeType startNodeFieldType endNodeType
          endNodeFieldType relationship =
        (if pairRegistered adds startNodeType relationship = false then
          .error (.msg ("no configs for key [" ++
            relationConfigs.getKey startNodeType relationship ++ "]"))
        else
          .error (.msg ("no configs for key [" ++
            relationConfigs.getKey startNodeType relationship ++ "] and field type [" ++
            startNodeFieldType ++ "]")))) ∧
    (∀ start, (registerAll adds).getConfig startNodeType relationship startNodeFieldType
          env.DirectionOutgoing = .ok start →
      registeredConfigs adds endNodeType relationship endNodeFieldType = [] →
      (registerAll adds).GetConfigs env startNodeType startNodeFieldType endNodeType
          endNodeFieldType relationship =
        (if pairRegistered adds endNodeType relationship = false then
          .error (.msg ("no configs for key [" ++
            relationConfigs.getKey endNodeType relationship ++ "]"))
        else
          .error (.msg ("no configs for key [" ++
            relationConfigs.getKey endNodeType relationship ++ "] and field type [" ++
            endNodeFieldType ++ "]")))) ∧
    (∀ nodeType fieldType direction,
      1 < (registeredConfigs adds nodeType relationship fieldType).length →
      (registerAll adds).getConfig nodeType relationship fieldType direction =
        match (registeredConfigs adds nodeType relationship fieldType).find?
            (fun c => decide (c.Direction = direction)) with
        | some c => .ok c
        | none => .error (.msg "relation with correct direction not found")) ∧
    (1 < (registeredConfigs adds startNodeType relationship startNodeFieldType).length →
      (registeredConfigs adds startNodeType relationship startNodeFieldType).find?
          (fun c => decide (c.Direction = env.DirectionOutgoing)) = none →
      (registerAll adds).GetConfigs env startNodeType startNodeFieldType endNodeType
          endNodeFieldType relationship =
        .error (.msg "relation with correct direction not found")) ∧
    (1 < (registeredConfigs adds startNodeType relationship startNodeFieldType).length →
      1 < (registeredConfigs adds endNodeType relationship endNodeFieldType).length →
      ∀ start, (registeredConfigs adds startNodeType relationship startNodeFieldType).find?
          (fun c => decide (c.Direction = env.DirectionOutgoing)) = some start →
        ((registeredConfigs adds endNodeType relationship endNodeFieldType).find?
            (fun c => decide (c.Direction = env.DirectionIncoming)) = none →
          (registerAll adds).GetConfigs env startNodeType startNodeFieldType endNodeType
              endNodeFieldType relationship =
            .error (.msg "relation with correct direction not found")) ∧
        (∀ end_, (registeredConfigs adds endNodeType relationship endNodeFieldType).find?
            (fun c => decide (c.Direction = env.DirectionIncoming)) = some end_ →
          (registerAll adds).GetConfigs env startNodeType startNodeFieldType endNodeType
              endNodeFieldType relationship = .ok (start, end_))) := by
  have hc : ∀ nodeType fieldType, registeredConfigs adds nodeType relationship fieldType =
      candidates adds nodeType relationship fieldType :=
    fun nodeType fieldType =>
      (candidates_eq_registeredConfigs hfree nodeType relationship fieldType).symm
  have hk : ∀ nodeType, pairRegistered adds nodeType relationship =
      keyRegistered adds nodeType relationship :=
    fun nodeType => (keyRegistered_eq_pairRegistered hfree nodeType relationship).symm
  simp only [hc, hk]
  exact GetConfigs_by_key env adds startNodeType startNodeFieldType endNodeType
    endNodeFieldType relationship

theorem GetConfigs_resolves_witness :
    (∀ a ∈ samplePairAdds, '-' ∉ a.nodeType.data ∧ '-' ∉ a.relationship.data) ∧
      1 < (registeredConfigs samplePairAdds "Teacher" "TEACHES_CLASS" "Course").length ∧
      1 < (registeredConfigs samplePairAdds "Course" "TEACHES_CLASS" "Teacher").length ∧
      (registerAll samplePairAdds).GetConfigs sampleEnv "Teacher" "Course" "Course" "Teacher"
          "TEACHES_CLASS" =
        .ok (sampleRelation "Courses" "TEACHES_CLASS" 0
              (.slice "" "" (.ptr (.leaf .Struct "main" "Course"))) true,
            sampleRelation "Teacher" "TEACHES_CLASS" 1
              (.ptr (.leaf .Struct "main" "Teacher")) false) :=
  ⟨by decide, by decide, by decide,
    ((GetConfigs_resolves sampleEnv samplePairAdds (by decide) "Teacher" "Course" "Course"
      "Teacher" "TEACHES_CLASS").2.2.2.2.2.2 (by decide) (by decide) _ (by decide)).2 _
      (by decide)⟩

/-! ## More lemmas on the tally of `relationConfigs.Validate` -/

theorem mem_mapSet {α : Type} (m : List (String × α)) (k : String) (v : α) :
    ∀ e ∈ mapSet m k v, e = (k, v) ∨ e ∈ m := by
  induction m with
  | nil =>
    intro e he
    simp [mapSet] at he
    exact Or.inl he
  | cons e0 rest ih =>
    obtain ⟨k0, v0⟩ := e0
    intro e he
    by_cases h0 : k0 = k
    · simp only [mapSet, h0, if_true, List.mem_cons] at he
      rcases he with he | he
      · exact Or.inl he
      · exact Or.inr (List.mem_cons_of_mem _ he)
    · simp only [mapSet, h0, if_false, List.mem_cons] at he
      rcases he with he | he
      · exact Or.inr (by simp [he])
      · rcases ih e he with h | h
        · exact Or.inl h
        · exact Or.inr (List.mem_cons_of_mem _ h)

theorem keys_mapSet_subset {α : Type} (m : List (String × α)) (k : String) (v : α) :
    ∀ k1 ∈ (mapSet m k v).map Prod.fst, k1 = k ∨ k1 ∈ m.map Prod.fst := by
  intro k1 hk1
  obtain ⟨e, he, hfst⟩ := List.mem_map.mp hk1
  rcases mem_mapSet m k v e he with h | h
  · subst h
    exact Or.inl hfst.symm
  · exact Or.inr (List.mem_map.mpr ⟨e, h, hfst⟩)

theorem nodup_mapSet {α : Type} (m : List (String × α)) (k : String) (v : α)
    (h : (m.map Prod.fst).Nodup) : ((mapSet m k v).map Prod.fst).Nodup := by
  induction m with
  | nil => simp [mapSet]
  | cons e0 rest ih =>
    obtain ⟨k0, v0⟩ := e0
    simp only [List.map_cons, List.nodup_cons] at h
    by_cases h0 : k0 = k
    · subst h0
      simpa [mapSet] using h
    · simp only [mapSet, h0, if_false, List.map_cons, List.nodup_cons]
      refine ⟨?_, ih h.2⟩
      intro hmem
      rcases keys_mapSet_subset rest k v k0 hmem with h1 | h1
      · exact h0 h1
      · exact h.1 h1

theorem mapGet_of_mem_nodup {α : Type} (m : List (String × α)) (k : String) (v : α)
    (hnd : (m.map Prod.fst).Nodup) (hmem : (k, v) ∈ m) : mapGet m k = some v := by
  induction m with
  | nil => simp at hmem
  | cons e0 rest ih =>
    obtain ⟨k0, v0⟩ := e0
    simp only [List.map_cons, List.nodup_cons] at hnd
    rcases List.mem_cons.mp hmem with he | he
    · cases he
      simp [mapGet]
    · have hne : k0 ≠ k := by
        intro h
        subst h
        exact hnd.1 (List.mem_map.mpr ⟨(k0, v), he, rfl⟩)
      simp [mapGet, hne, ih hnd.2 he]

/-- One config of a known direction is tallied without error, adds one field name under
its direction and relationship name, and keeps the keys of the map different. -/
theorem tallyConfig_known {env : Env} (hd : env.DirectionsDistinct)
    (relType field : String) (cm : CheckMap) (config : decoratorConfig)
    (hdir : env.isDirection config.Direction = true) :
    ∃ cm1, tallyConfig env relType field cm config = .ok cm1 ∧
      ((cm.map Prod.fst).Nodup → (cm1.map Prod.fst).Nodup) ∧
      ∀ r : String,
        noneLen cm1 r = noneLen cm r +
          (if relType = r ∧ config.Direction = env.DirectionNone then 1 else 0) ∧
        bothLen cm1 r = bothLen cm r +
          (if relType = r ∧ config.Direction = env.DirectionBoth then 1 else 0) := by
  obtain ⟨d1, d2, d3, d4, d5, d6⟩ := hd
  simp only [Env.isDirection, Bool.or_eq_true, decide_eq_true_eq] at hdir
  unfold tallyConfig
  cases hg : mapGet cm relType with
  | none =>
    simp only [mapGet_mapSet, if_true, Option.getD_some]
    rcases hdir with ((h | h) | h) | h
    all_goals
      refine ⟨_, by simp [h, d1, d2, d3, d4, d5, d6, Ne.symm d1, Ne.symm d2, Ne.symm d3,
        Ne.symm d4, Ne.symm d5, Ne.symm d6]; rfl, ?_, ?_⟩
    all_goals first
      | (intro hnd; exact nodup_mapSet _ _ _ (nodup_mapSet _ _ _ hnd))
      | (intro r
         by_cases hr : relType = r
         · subst hr
           simp [noneLen, bothLen, mapGet_mapSet, hg, h, d1, d2, d3, d4, d5, d6, Ne.symm d1,
             Ne.symm d2, Ne.symm d3, Ne.symm d4, Ne.symm d5, Ne.symm d6]
         · simp [noneLen, bothLen, mapGet_mapSet, hr])
  | some v =>
    simp only [Option.getD_some]
    rcases hdir with ((h | h) | h) | h
    all_goals
      refine ⟨_, by simp [h, d1, d2, d3, d4, d5, d6, Ne.symm d1, Ne.symm d2, Ne.symm d3,
        Ne.symm d4, Ne.symm d5, Ne.symm d6]; rfl, ?_, ?_⟩
    all_goals first
      | (intro hnd; exact nodup_mapSet _ _ _ hnd)
      | (intro r
         by_cases hr : relType = r
         · subst hr
           simp [noneLen, bothLen, mapGet_mapSet, hg, h, d1, d2, d3, d4, d5, d6, Ne.symm d1,
             Ne.symm d2, Ne.symm d3, Ne.symm d4, Ne.symm d5, Ne.symm d6]
         · simp [noneLen, bothLen, mapGet_mapSet, hr])

theorem tallyConfigs_known {env : Env} (hd : env.DirectionsDistinct)
    (relType field : String) (configs : List decoratorConfig) :
    ∀ cm : CheckMap, (∀ c ∈ configs, env.isDirection c.Direction = true) →
      ∃ cm1, tallyConfigs env relType field configs cm = .ok cm1 ∧
        ((cm.map Prod.fst).Nodup → (cm1.map Prod.fst).Nodup) ∧
        ∀ r : String,
          noneLen cm1 r = noneLen cm r + (if relType = r then
            configs.countP (fun c => decide (c.Direction = env.DirectionNone)) else 0) ∧
          bothLen cm1 r = bothLen cm r + (if relType = r then
            configs.countP (fun c => decide (c.Direction = env.DirectionBoth)) else 0) := by
  induction configs with
  | nil =>
    intro cm _
    exact ⟨cm, rfl, id, by simp⟩
  | cons c rest ih =>
    intro cm hall
    obtain ⟨cm1, h1, n1, l1⟩ := tallyConfig_known hd relType field cm c
      (hall c (List.mem_cons_self _ _))
    obtain ⟨cm2, h2, n2, l2⟩ := ih cm1 (fun x hx => hall x (List.mem_cons_of_mem _ hx))
    refine ⟨cm2, by simp [tallyConfigs, h1, h2], fun h => n2 (n1 h), ?_⟩
    intro r
    obtain ⟨a1, a2⟩ := l1 r
    obtain ⟨b1, b2⟩ := l2 r
    rw [b1, b2, a1, a2, List.countP_cons, List.countP_cons]
    by_cases hr : relType = r <;>
      by_cases hn : c.Direction = env.DirectionNone <;>
      by_cases hb : c.Direction = env.DirectionBoth <;>
      simp [hr, hn, hb] <;> omega

theorem tallyFields_known {env : Env} (hd : env.DirectionsDistinct)
    (relType : String) (m : ConfMap) :
    ∀ cm : CheckMap, (∀ e ∈ m, ∀ c ∈ e.2, env.isDirection c.Direction = true) →
      ∃ cm1, tallyFields env relType m cm = .ok cm1 ∧
        ((cm.map Prod.fst).Nodup → (cm1.map Prod.fst).Nodup) ∧
        ∀ r : String,
          noneLen cm1 r = noneLen cm r +
            (if relType = r then dirCount m env.DirectionNone else 0) ∧
          bothLen cm1 r = bothLen cm r +
            (if relType = r then dirCount m env.DirectionBoth else 0) := by
  induction m with
  | nil =>
    intro cm _
    exact ⟨cm, rfl, id, by simp [dirCount]⟩
  | cons e rest ih =>
    intro cm hall
    obtain ⟨field, configs⟩ := e
    obtain ⟨cm1, h1, n1, l1⟩ := tallyConfigs_known hd relType field configs cm
      (hall (field, configs) (List.mem_cons_self _ _))
    obtain ⟨cm2, h2, n2, l2⟩ := ih cm1 (fun x hx => hall x (List.mem_cons_of_mem _ hx))
    refine ⟨cm2, by simp [tallyFields, h1, h2], fun h => n2 (n1 h), ?_⟩
    intro r
    obtain ⟨a1, a2⟩ := l1 r
    obtain ⟨b1, b2⟩ := l2 r
    rw [b1, b2, a1, a2]
    by_cases hr : relType = r
    · simp [hr, dirCount]
      omega
    · simp [hr, dirCount]

/-- On keys that split in two parts and configs of known directions the first loop of
`Validate` ends without error, with a map of different keys that lists, for each
relationship name, as many field names under `None` and `Both` as configs with that
direction were visited under the keys of that relationship name. -/
theorem tallyTitles_known {env : Env} (hd : env.DirectionsDistinct) {o : RangeOrder}
    (ho : o.Valid) (l : List (String × ConfMap)) :
    ∀ cm : CheckMap,
      (∀ e ∈ l, (relTypeOf e.1).isSome = true ∧
        ∀ f ∈ e.2, ∀ c ∈ f.2, env.isDirection c.Direction = true) →
      ∃ cm1, tallyTitles env o l cm = .ok cm1 ∧
        ((cm.map Prod.fst).Nodup → (cm1.map Prod.fst).Nodup) ∧
        ∀ r : String,
          noneLen cm1 r = noneLen cm r +
            keyCount l (fun t => decide (relTypeOf t = some r)) env.DirectionNone ∧
          bothLen cm1 r = bothLen cm r +
            keyCount l (fun t => decide (relTypeOf t = some r)) env.DirectionBoth := by
  induction l with
  | nil =>
    intro cm _
    exact ⟨cm, rfl, id, by simp [keyCount]⟩
  | cons e rest ih =>
    intro cm hall
    obtain ⟨title, confMap⟩ := e
    obtain ⟨hsome, hdirs⟩ := hall (title, confMap) (List.mem_cons_self _ _)
    obtain ⟨relType, hrt⟩ := Option.isSome_iff_exists.mp hsome
    have hsplit : ∃ x, Split title '-' = [x, relType] := by
      unfold relTypeOf at hrt
      split at hrt
      · rename_i x y hs
        simp only [Option.some.injEq] at hrt
        subst hrt
        exact ⟨x, hs⟩
      · simp at hrt
    obtain ⟨x, hs⟩ := hsplit
    have hdirs1 : ∀ f ∈ o.confMap title confMap, ∀ c ∈ f.2,
        env.isDirection c.Direction = true := by
      intro f hf
      exact hdirs f ((ho.2.1 title confMap).mem_iff.mp hf)
    obtain ⟨cm1, h1, n1, l1⟩ := tallyFields_known hd relType (o.confMap title confMap) cm hdirs1
    obtain ⟨cm2, h2, n2, l2⟩ := ih cm1 (fun y hy => hall y (List.mem_cons_of_mem _ hy))
    refine ⟨cm2, by simp [tallyTitles, hs, h1, h2], fun h => n2 (n1 h), ?_⟩
    intro r
    obtain ⟨a1, a2⟩ := l1 r
    obtain ⟨b1, b2⟩ := l2 r
    rw [b1, b2, a1, a2, dirCount_perm (ho.2.1 title confMap),
      dirCount_perm (ho.2.1 title confMap)]
    by_cases hr : relType = r
    · simp [hr, keyCount, hrt]
      omega
    · simp [hr, keyCount, hrt]

theorem checkCounts_eq_none (cm : CheckMap) :
    checkCounts cm = none ↔ ∀ e ∈ cm, e.2.balanced = true := by
  induction cm with
  | nil => simp [checkCounts]
  | cons e rest ih =>
    obtain ⟨r, v⟩ := e
    simp only [checkCounts, List.mem_cons, forall_eq_or_imp]
    split_ifs with h1 h2 h3
    · simp [validation.balanced, h1]
    · have : v.Both.length % 2 ≠ 0 := h2.2
      simp [validation.balanced, this]
    · have : v.None.length % 2 ≠ 0 := h3.2
      simp [validation.balanced, this]
    · rw [ih]
      have hb : v.balanced = true := by
        have e1 : v.Outgoing.length = v.Incoming.length := not_not.mp h1
        have e2 : v.Both.length % 2 = 0 := by
          by_contra hc
          exact h2 ⟨fun h0 => hc (by simp [h0]), hc⟩
        have e3 : v.None.length % 2 = 0 := by
          by_contra hc
          exact h3 ⟨fun h0 => hc (by simp [h0]), hc⟩
        simp [validation.balanced, e1, e2, e3]
      simp [hb]

/-- Every key of the registry is the key of a registration, and every config in it is
the config of a registration. -/
theorem registerAll_content (adds : List Registration) :
    ∀ e ∈ (registerAll adds).entries,
      (∃ a ∈ adds, relationConfigs.getKey a.nodeType a.relationship = e.1) ∧
      ∀ f ∈ e.2, ∀ c ∈ f.2, ∃ a ∈ adds, a.dec = c := by
  induction adds using List.reverseRecOn with
  | nil =>
    intro e he
    simp [registerAll, relationConfigs.entries] at he
  | append_singleton l a ih =>
    have ihw : ∀ e ∈ (registerAll l).entries,
        (∃ b ∈ l ++ [a], relationConfigs.getKey b.nodeType b.relationship = e.1) ∧
        ∀ f ∈ e.2, ∀ c ∈ f.2, ∃ b ∈ l ++ [a], b.dec = c := by
      intro e he
      obtain ⟨⟨b, hb, hbk⟩, h2⟩ := ih e he
      refine ⟨⟨b, List.mem_append_left _ hb, hbk⟩, ?_⟩
      intro f hf c hc
      obtain ⟨b1, hb1, hb1c⟩ := h2 f hf c hc
      exact ⟨b1, List.mem_append_left _ hb1, hb1c⟩
    have hin : ∀ f ∈ (mapGet (registerAll l).entries
        (relationConfigs.getKey a.nodeType a.relationship)).getD [],
        ∀ c ∈ f.2, ∃ b ∈ l ++ [a], b.dec = c := by
      intro f hf
      cases hm : mapGet (registerAll l).entries
          (relationConfigs.getKey a.nodeType a.relationship) with
      | none =>
        rw [hm] at hf
        simp at hf
      | some cm0 =>
        rw [hm] at hf
        exact (ihw _ (mapGet_mem _ _ _ hm)).2 f hf
    intro e he
    rw [registerAll_append, Add_entries] at he
    rcases mem_mapSet _ _ _ e he with he | he
    · subst he
      refine ⟨⟨a, by simp, rfl⟩, ?_⟩
      intro f hf c hc
      rcases mem_mapSet _ _ _ f hf with hf | hf
      · subst hf
        rcases List.mem_append.mp hc with hc | hc
        · cases hm : mapGet ((mapGet (registerAll l).entries
              (relationConfigs.getKey a.nodeType a.relationship)).getD []) a.fieldType with
          | none =>
            rw [hm] at hc
            simp at hc
          | some cs0 =>
            rw [hm] at hc
            exact hin _ (mapGet_mem _ _ _ hm) c hc
        · simp only [List.mem_singleton] at hc
          exact ⟨a, by simp, hc.symm⟩
      · exact hin f hf c hc
    · exact ihw e he

/-- What `Validate` returns on the registry built by calls of `Add` with names free of
`-` and configs of known directions, for any order of visit: no error exactly when every
relationship name has as many outgoing as incoming configs and an even number of configs
under `both` and under `none`. -/
theorem Validate_eq_none_iff {env : Env} {o : RangeOrder} (ho : o.Valid)
    (hd : env.DirectionsDistinct) (adds : List Registration)
    (hfree : ∀ a ∈ adds, '-' ∉ a.nodeType.data ∧ '-' ∉ a.relationship.data)
    (hdir : ∀ a ∈ adds, env.isDirection a.dec.Direction = true) :
    (registerAll adds).Validate env o = none ↔
      ∀ relationship : String,
        countDirection adds relationship env.DirectionOutgoing =
          countDirection adds relationship env.DirectionIncoming ∧
        countDirection adds relationship env.DirectionBoth % 2 = 0 ∧
        countDirection adds relationship env.DirectionNone % 2 = 0 := by
  have hne : env.DirectionOutgoing ≠ env.DirectionIncoming := Ne.symm hd.1
  have hall : ∀ e ∈ o.configs (registerAll adds).entries, (relTypeOf e.1).isSome = true ∧
      ∀ f ∈ e.2, ∀ c ∈ f.2, env.isDirection c.Direction = true := by
    intro e hmem
    obtain ⟨⟨a, ha, hak⟩, h2⟩ := registerAll_content adds e ((ho.1 _).mem_iff.mp hmem)
    constructor
    · rw [← hak, relTypeOf_getKey (hfree a ha).1 (hfree a ha).2]
      rfl
    · intro f hf c hc
      obtain ⟨b, hb, hbc⟩ := h2 f hf c hc
      rw [← hbc]
      exact hdir b hb
  obtain ⟨cm, htally, hnd, hnb⟩ := tallyTitles_known hd ho _ [] hall
  obtain ⟨_, hoi⟩ := tallyTitles_len hne ho _ htally
  have hcnt : ∀ (relationship : String) (d : Int),
      keyCount (o.configs (registerAll adds).entries)
        (fun t => decide (relTypeOf t = some relationship)) d =
        countDirection adds relationship d := by
    intro relationship d
    rw [keyCount_perm (ho.1 _), keyCount_registerAll]
    unfold countDirection
    apply List.countP_congr
    intro a ha
    simp [relTypeOf_getKey (hfree a ha).1 (hfree a ha).2]
  have hlens : ∀ relationship : String,
      outgoingLen cm relationship = countDirection adds relationship env.DirectionOutgoing ∧
      incomingLen cm relationship = countDirection adds relationship env.DirectionIncoming ∧
      bothLen cm relationship = countDirection adds relationship env.DirectionBoth ∧
      noneLen cm relationship = countDirection adds relationship env.DirectionNone := by
    intro relationship
    obtain ⟨a1, a2⟩ := hoi relationship
    obtain ⟨b1, b2⟩ := hnb relationship
    rw [hcnt] at a1 a2 b1 b2
    have z1 : outgoingLen [] relationship = 0 := rfl
    have z2 : incomingLen [] relationship = 0 := rfl
    have z3 : noneLen [] relationship = 0 := rfl
    have z4 : bothLen [] relationship = 0 := rfl
    rw [z1, Nat.zero_add] at a1
    rw [z2, Nat.zero_add] at a2
    rw [z3, Nat.zero_add] at b1
    rw [z4, Nat.zero_add] at b2
    exact ⟨a1, a2, b2, b1⟩
  have hval : (registerAll adds).Validate env o = checkCounts (o.checkMap cm) := by
    revert htally
    unfold relationConfigs.Validate relationConfigs.entries
    cases (registerAll adds).configs <;> (intro htally; simp only [htally])
  rw [hval, checkCounts_eq_none]
  constructor
  · intro hbal relationship
    obtain ⟨l1, l2, l3, l4⟩ := hlens relationship
    rw [← l1, ← l2, ← l3, ← l4]
    cases hg : mapGet cm relationship with
    | none => simp [outgoingLen, incomingLen, bothLen, noneLen, hg]
    | some v =>
      have hmem : (relationship, v) ∈ o.checkMap cm :=
        (ho.2.2 _).mem_iff.mpr (mapGet_mem _ _ _ hg)
      have hb := hbal _ hmem
      simp only [validation.balanced, Bool.and_eq_true, decide_eq_true_eq] at hb
      simp only [outgoingLen, incomingLen, bothLen, noneLen, hg]
      exact ⟨hb.1.1, hb.1.2, hb.2⟩
  · intro hcount e hmem
    obtain ⟨r, v⟩ := e
    have hmem1 : (r, v) ∈ cm := (ho.2.2 _).mem_iff.mp hmem
    have hg := mapGet_of_mem_nodup cm r v (hnd (by simp)) hmem1
    obtain ⟨l1, l2, l3, l4⟩ := hlens r
    obtain ⟨c1, c2, c3⟩ := hcount r
    simp only [outgoingLen, incomingLen, bothLen, noneLen, hg] at l1 l2 l3 l4
    simp only [validation.balanced, Bool.and_eq_true, decide_eq_true_eq]
    rw [l1, l2, l3, l4]
    exact ⟨⟨c1, c2⟩, c3⟩

/-! ## Claims on the relation registry, continued -/

/-- C11: on the registry built by calls of `Add` whose labels and relationship names are
free of `-` and whose configs all carry one of the four directions (four different
constants), `relationConfigs.Validate` returns no error if and only if, for every
relationship name, the number of outgoing configs equals the number of incoming configs,
the number of `both` configs is even and the number of `none` configs is even; and
whether it returns an error does not depend on the order in which the maps are visited. -/
theorem Validate_iff_balanced (env : Env) (o : RangeOrder) (ho : o.Valid)
    (hd : env.DirectionsDistinct) (adds : List Registration)
    (hfree : ∀ a ∈ adds, '-' ∉ a.nodeType.data ∧ '-' ∉ a.relationship.data)
    (hdir : ∀ a ∈ adds, env.isDirection a.dec.Direction = true) :
    ((registerAll adds).Validate env o = none ↔
      ∀ relationship : String,
        countDirection adds relationship env.DirectionOutgoing =
          countDirection adds relationship env.DirectionIncoming ∧
        countDirection adds relationship env.DirectionBoth % 2 = 0 ∧
        countDirection adds relationship env.DirectionNone % 2 = 0) ∧
    (∀ o2 : RangeOrder, o2.Valid →
      ((registerAll adds).Validate env o2 = none ↔
        (registerAll adds).Validate env o = none)) := by
  refine ⟨Validate_eq_none_iff ho hd adds hfree hdir, ?_⟩
  intro o2 ho2
  rw [Validate_eq_none_iff ho hd adds hfree hdir,
    Validate_eq_none_iff ho2 hd adds hfree hdir]

theorem Validate_iff_balanced_witness :
    RangeOrder.listed.Valid ∧ sampleEnv.DirectionsDistinct ∧
      (∀ a ∈ sampleBalancedAdds, '-' ∉ a.nodeType.data ∧ '-' ∉ a.relationship.data) ∧
      (∀ a ∈ sampleBalancedAdds, sampleEnv.isDirection a.dec.Direction = true) ∧
      (registerAll sampleBalancedAdds).Validate sampleEnv RangeOrder.listed = none ∧
      countDirection sampleBalancedAdds "CURRICULUM" sampleEnv.DirectionOutgoing =
        countDirection sampleBalancedAdds "CURRICULUM" sampleEnv.DirectionIncoming :=
  ⟨RangeOrder.listed_valid, by decide, by decide, by decide, by decide,
    ((Validate_iff_balanced sampleEnv RangeOrder.listed RangeOrder.listed_valid (by decide)
      sampleBalancedAdds (by decide) (by decide)).1.mp (by decide) "CURRICULUM").1⟩

/-! ## Claims on the blocks of `decoratorConfig.Validate` -/

/-- C21: the tag `-;direction=incoming` on a field `Nickname string` is accepted by
`newDecoratorConfig`, and the config it returns has `Ignore` set together with the
incoming direction; `decoratorConfig.Validate` accepts that config in every environment,
its block for ignored fields not looking at `Direction`. -/
theorem newDecoratorConfig_accepts_ignore_with_direction :
    newDecoratorConfig sampleEnv "-;direction=incoming" "Nickname" sampleString =
        .ok { Typ := sampleString, Name := "Nickname", FieldName := "Nickname",
              Relationship := "", Direction := 1, Unique := false, Index := false,
              ManyRelationship := false, UsesEdgeNode := false, PrimaryKey := false,
              Properties := false, IsTime := false, IsTypeDef := false,
              TypedefActual := none, Ignore := true } ∧
      sampleEnv.DirectionIncoming = 1 ∧
      ∀ env : Env, (decoratorConfig.Validate env
        { Typ := sampleString, Name := "Nickname", FieldName := "Nickname",
          Relationship := "", Direction := 1, Unique := false, Index := false,
          ManyRelationship := false, UsesEdgeNode := false, PrimaryKey := false,
          Properties := false, IsTime := false, IsTypeDef := false,
          TypedefActual := none, Ignore := true }).2 = none :=
  ⟨rfl, rfl, fun _ => rfl⟩

/-- C22: the tag `properties;time` on a field `Grades map[string]interface{}` is accepted
by `newDecoratorConfig`, and the config it returns has `Properties` and `IsTime` both
set; `decoratorConfig.Validate` accepts that config in every environment, its block for
properties fields not looking at `IsTime`. -/
theorem newDecoratorConfig_accepts_properties_with_time :
    newDecoratorConfig sampleEnv "properties;time" "Grades" mapStringInterfaceType =
        .ok { Typ := mapStringInterfaceType, Name := "Grades", FieldName := "Grades",
              Relationship := "", Direction := 0, Unique := false, Index := false,
              ManyRelationship := false, UsesEdgeNode := false, PrimaryKey := false,
              Properties := true, IsTime := true, IsTypeDef := false,
              TypedefActual := none, Ignore := false } ∧
      ∀ env : Env, (decoratorConfig.Validate env
        { Typ := mapStringInterfaceType, Name := "Grades", FieldName := "Grades",
          Relationship := "", Direction := 0, Unique := false, Index := false,
          ManyRelationship := false, UsesEdgeNode := false, PrimaryKey := false,
          Properties := true, IsTime := true, IsTypeDef := false,
          TypedefActual := none, Ignore := false }).2 = none :=
  ⟨rfl, fun _ => rfl⟩

/-- What the time block of `decoratorConfig.Validate` decides: a non-ignored config
flagged time that is not a properties field or of map kind and that `Validate` does not
check as a relationship field is accepted only if its type, behind one pointer level, is
of kind `int64` or its type is `time.Time`, and is accepted, unchanged, whenever it is so
and has a stored name. -/
theorem Validate_time_block (env : Env) (d : decoratorConfig) (hi : d.Ignore = false)
    (ht : d.IsTime = true) (hp : d.Typ.Kind ≠ .Map ∧ d.Properties = false)
    (hr : relationshipCondition d = false) :
    ((d.Validate env).2 = none → derefKind d.Typ = .Int64 ∨ d.Typ = timeType) ∧
      (d.Name ≠ "" → (derefKind d.Typ = .Int64 ∨ d.Typ = timeType) →
        d.Validate env = (d, none)) := by
  obtain ⟨hp1, hp2⟩ := hp
  by_cases hn : d.Name = ""
  · refine ⟨?_, fun h => absurd hn h⟩
    simp [decoratorConfig.Validate, hi, hn]
  · have hv : d.Validate env = (d, validateTime d (derefKind d.Typ)) := by
      simp [decoratorConfig.Validate, hi, hn, hp1, hp2, hr, ht]
    rw [hv]
    by_cases hc : derefKind d.Typ = .Int64 ∨ d.Typ = timeType
    · refine ⟨fun _ => hc, fun _ _ => ?_⟩
      have : validateTime d (derefKind d.Typ) = none := by
        simp only [validateTime]
        rw [if_neg]
        intro hh
        rcases hc with hc | hc
        · exact hh.1 hc
        · exact hh.2 hc
      rw [this]
    · refine ⟨fun h => ?_, fun _ h => absurd h hc⟩
      exfalso
      have hh : derefKind d.Typ ≠ .Int64 ∧ d.Typ ≠ timeType :=
        ⟨fun a => hc (Or.inl a), fun a => hc (Or.inr a)⟩
      simp [validateTime, hh] at h

/-- C23: the tag `time` on a field `Created *int64` is accepted by `newDecoratorConfig`,
although the type of the field is a pointer: its kind is not `int64` and it is not
`time.Time`. `decoratorConfig.Validate` accepts that config in every environment, its
time check reading the kind behind the pointer. `toCypherParamsMap` reads the kind of the
type itself: on that config it returns the error `cant convert date to time.Time` for
every value of the field that is not a `time.Time`, as every value of a field of type
`*int64` is. The same tag on a field `Created *time.Time` is rejected. -/
theorem newDecoratorConfig_accepts_time_on_pointer :
    newDecoratorConfig sampleEnv "time" "Created" (.ptr sampleInt64) =
        .ok sampleCreatedTime ∧
      sampleCreatedTime.Typ = .ptr sampleInt64 ∧ sampleCreatedTime.IsTime = true ∧
      (RType.ptr sampleInt64).Kind ≠ .Int64 ∧ RType.ptr sampleInt64 ≠ timeType ∧
      (∀ env : Env,
        decoratorConfig.Validate env sampleCreatedTime = (sampleCreatedTime, none)) ∧
      (∀ (conv : GoValue → RType → Option GoValue) (a : Atom),
        fieldParams conv [("Created", .atom a)] sampleCreatedTime =
          .error (.msg "cant convert date to time.Time")) ∧
      (∀ (conv : GoValue → RType → Option GoValue) (a : Atom),
        toCypherParamsMap conv [("Created", .atom a)]
            { Fields := some [("Created", sampleCreatedTime)], Label := "Course",
              IsVertex := true, Typ := .leaf .Struct "main" "Course" } =
          (none, some (.msg "cant convert date to time.Time"))) ∧
      newDecoratorConfig sampleEnv "time" "Created" (.ptr timeType) =
        .error (.InvalidDecoratorConfigError
          "relationship has to be defined when creating a relationship" "Created") :=
  ⟨rfl, rfl, rfl, by decide, by decide, fun _ => rfl, fun _ _ => rfl, fun _ _ => rfl, rfl⟩

/-- C24: the tag `pk;time` on a field `Joined time.Time` is accepted by
`newDecoratorConfig`: the config it returns is flagged primary key, its type is of struct
kind and its stored name is `Joined`. `decoratorConfig.Validate` accepts that config in
every environment: the block for time fields returns before the checks on primary keys. -/
theorem newDecoratorConfig_accepts_time_primary_key :
    newDecoratorConfig sampleEnv "pk;time" "Joined" timeType =
        .ok { Typ := timeType, Name := "Joined", FieldName := "Joined",
              Relationship := "", Direction := 0, Unique := false, Index := false,
              ManyRelationship := false, UsesEdgeNode := false, PrimaryKey := true,
              Properties := false, IsTime := true, IsTypeDef := false,
              TypedefActual := none, Ignore := false } ∧
      timeType.Kind = .Struct ∧
      ∀ env : Env, (decoratorConfig.Validate env
        { Typ := timeType, Name := "Joined", FieldName := "Joined",
          Relationship := "", Direction := 0, Unique := false, Index := false,
          ManyRelationship := false, UsesEdgeNode := false, PrimaryKey := true,
          Properties := false, IsTime := true, IsTypeDef := false,
          TypedefActual := none, Ignore := false }).2 = none :=
  ⟨rfl, rfl, fun _ => rfl⟩

/-- C25: the tag `index;unique;time` on a field `Created int64` is accepted by
`newDecoratorConfig`, and the config it returns has `Index` and `Unique` both set.
`decoratorConfig.Validate` accepts that config in every environment: the block for time
fields returns before the checks on `Index`, `Unique` and `PrimaryKey`. -/
theorem newDecoratorConfig_accepts_time_index_unique :
    newDecoratorConfig sampleEnv "index;unique;time" "Created" sampleInt64 =
        .ok { Typ := sampleInt64, Name := "Created", FieldName := "Created",
              Relationship := "", Direction := 0, Unique := true, Index := true,
              ManyRelationship := false, UsesEdgeNode := false, PrimaryKey := false,
              Properties := false, IsTime := true, IsTypeDef := false,
              TypedefActual := none, Ignore := false } ∧
      ∀ env : Env, (decoratorConfig.Validate env
        { Typ := sampleInt64, Name := "Created", FieldName := "Created",
          Relationship := "", Direction := 0, Unique := true, Index := true,
          ManyRelationship := false, UsesEdgeNode := false, PrimaryKey := false,
          Properties := false, IsTime := true, IsTypeDef := false,
          TypedefActual := none, Ignore := false }).2 = none :=
  ⟨rfl, fun _ => rfl⟩

/-! ## Claims on the stored name of a relationship field -/

/-- An accepted config with a relationship name has the field's name as stored name. -/
theorem Validate_with_relationship {env : Env} {d conf : decoratorConfig}
    (h : d.Validate env = (conf, none)) (hrel : d.Relationship ≠ "") :
    conf.Name = conf.FieldName ∧ conf.FieldName = d.FieldName ∧ d.Name = d.FieldName := by
  have hc : relationshipCondition d = true := by
    simp [relationshipCondition, hrel]
  unfold decoratorConfig.Validate at h
  split_ifs at h with h1 h2 h3
  · simp [validateIgnored, hrel] at h
  · simp at h
  · simp only [Prod.mk.injEq] at h
    have := validateProperties_ok h.2
    rw [hc] at this
    cases this
  · obtain ⟨_, r2, r3, _, _, _⟩ := validateRelationship_ok h
    refine ⟨r2, r3, ?_⟩
    simp only [validateRelationship, if_neg hrel] at h
    obtain ⟨_, f2, f3, _⟩ := defaultDirection_fields env d
    split_ifs at h with k1 k2 k3
    all_goals simp only [Prod.mk.injEq, reduceCtorEq, and_false] at h
    rw [f2, f3] at k3
    exact not_not.mp k3

/-- C26, as stated, fails: the tag `relationship=CURRICULUM` on the field `Subjects` is
accepted, and the same tag with `name=Subjects`, the field's own name, is rejected. -/
theorem newDecoratorConfig_relationship_name_counterexample :
    newDecoratorConfig sampleEnv "relationship=CURRICULUM" "Subjects" sampleSubjectsType =
        .ok (sampleRelation "Subjects" "CURRICULUM" 0 sampleSubjectsType true) ∧
      newDecoratorConfig sampleEnv "name=Subjects;relationship=CURRICULUM" "Subjects"
          sampleSubjectsType =
        .error (.msg "name tag can not be defined on a relationship") :=
  ⟨rfl, rfl⟩

/-- C26, amended: for a tag whose token loop gives a relationship name, `newDecoratorConfig`
rejects the tag when the loop gives a stored name, whether or not that name is the
field's own name; when the loop gives no stored name it takes the field's name and
returns what `decoratorConfig.Validate` decides; so every relationship tag it accepts has
no `name=` value and the field's name as stored name. `decoratorConfig.Validate` itself
rejects every config with a relationship name whose stored name differs from the field's
name. -/
theorem newDecoratorConfig_relationship_name (env : Env) (decorator name : String)
    (varType : RType) (c : decoratorConfig)
    (hloop : tokenLoop env decorator name varType = .ok c) (hrel : c.Relationship ≠ "") :
    (c.Name ≠ "" → newDecoratorConfig env decorator name varType =
        .error (.msg "name tag can not be defined on a relationship")) ∧
      (c.Name = "" → newDecoratorConfig env decorator name varType =
        match decoratorConfig.Validate env { c with Name := name } with
        | (_, some err) => .error err
        | (d, none) => .ok d) ∧
      (∀ d, newDecoratorConfig env decorator name varType = .ok d →
        c.Name = "" ∧ d.Name = name ∧ d.FieldName = name) ∧
      (∀ d : decoratorConfig, d.Relationship ≠ "" →
        d.Name ≠ d.FieldName → (d.Validate env).2 ≠ none) := by
  have hlen : ¬ (Split decorator ';').length = 0 := by
    simp only [Split, List.length_map, splitChars_length]
    omega
  have hnew : newDecoratorConfig env decorator name varType =
      if c.Name = "" then
        match decoratorConfig.Validate env { c with Name := name } with
        | (_, some err) => .error err
        | (d, none) => .ok d
      else .error (.msg "name tag can not be defined on a relationship") := by
    unfold tokenLoop at hloop
    simp only [newDecoratorConfig, hlen, if_false, hloop, hrel]
    split_ifs <;> rfl
  have h1 : c.Name ≠ "" → newDecoratorConfig env decorator name varType =
      .error (.msg "name tag can not be defined on a relationship") := by
    intro hn
    rw [hnew, if_neg hn]
  have h2 : c.Name = "" → newDecoratorConfig env decorator name varType =
      match decoratorConfig.Validate env { c with Name := name } with
      | (_, some err) => .error err
      | (d, none) => .ok d := by
    intro hn
    rw [hnew, if_pos hn]
  refine ⟨h1, h2, ?_, ?_⟩
  · intro d hd
    by_cases hn : c.Name = ""
    · rw [h2 hn] at hd
      split at hd
      · cases hd
      · rename_i d1 hv
        cases hd
        obtain ⟨r1, r2, _⟩ := Validate_with_relationship hv hrel
        have hf := (parseFields_ok _ hloop).1
        simp only at r2 hf
        exact ⟨hn, r1.trans (r2.trans hf), r2.trans hf⟩
    · rw [h1 hn] at hd
      cases hd
  · intro d hr hne hv
    have hpair : d.Validate env = ((d.Validate env).1, none) := by
      rw [← hv]
    exact hne (Validate_with_relationship hpair hr).2.2

theorem newDecoratorConfig_relationship_name_witness :
    newDecoratorConfig sampleEnv "name=Subjects;relationship=CURRICULUM" "Subjects"
        sampleSubjectsType =
      .error (.msg "name tag can not be defined on a relationship") :=
  (newDecoratorConfig_relationship_name sampleEnv "name=Subjects;relationship=CURRICULUM"
    "Subjects" sampleSubjectsType
    { sampleRelation "Subjects" "CURRICULUM" 0 sampleSubjectsType true with
      Name := "Subjects" } rfl (by decide)).1 (by decide)

/-! ## Claims on aliased types -/

/-- C28: with `t` the type behind one pointer level, `getActualTypeIfAliased` reports
"not aliased" when `t` is of struct, interface, slice or map kind and when the name of
`t` is the name of its kind; otherwise, when the kind of `t` is one of the supported
primitive kinds, it reports "aliased" with the predeclared type of that kind; and for
every other type it returns an error. -/
theorem getActualTypeIfAliased_cases (iType : RType) :
    (compositeKind (stripPointer iType).Kind = true →
        getActualTypeIfAliased iType = .ok (false, none)) ∧
      (kindString (stripPointer iType).Kind = (stripPointer iType).Name →
        getActualTypeIfAliased iType = .ok (false, none)) ∧
      (supportedPrimitive (stripPointer iType).Kind = true →
        kindString (stripPointer iType).Kind ≠ (stripPointer iType).Name →
        ∃ p : RType, getActualTypeIfAliased iType = .ok (true, some p) ∧
          p.builtin = true ∧ p.Kind = (stripPointer iType).Kind) ∧
      (compositeKind (stripPointer iType).Kind = false →
        kindString (stripPointer iType).Kind ≠ (stripPointer iType).Name →
        supportedPrimitive (stripPointer iType).Kind = false →
        ∃ err, getActualTypeIfAliased iType = .error err) := by
  generalize ht : stripPointer iType = t
  have hform : getActualTypeIfAliased iType =
      if t.Kind = .Struct ∨ t.Kind = .Interface ∨ t.Kind = .Slice ∨ t.Kind = .Map then
        .ok (false, none)
      else if kindString t.Kind = t.Name then .ok (false, none)
      else
        match getPrimitiveType t.Kind with
        | .error err => .error err
        | .ok actualType => .ok (true, some actualType) := by
    subst ht
    cases iType <;> rfl
  rw [hform]
  refine ⟨?_, ?_, ?_, ?_⟩
  · intro hc
    cases hk : t.Kind <;> simp_all [compositeKind]
  · intro hn
    cases hk : t.Kind <;> simp_all [compositeKind]
  · intro hs hn
    have hc : ¬ (t.Kind = .Struct ∨ t.Kind = .Interface ∨ t.Kind = .Slice ∨
        t.Kind = .Map) := by
      intro h
      rcases h with h | h | h | h <;> rw [h] at hs <;> cases hs
    rw [if_neg hc, if_neg hn]
    clear hn hform hc
    cases hk : t.Kind <;> rw [hk] at hs <;> first
      | exact ⟨_, rfl, rfl, rfl⟩
      | exact absurd hs (by decide)
  · intro hc hn hs
    have hc1 : ¬ (t.Kind = .Struct ∨ t.Kind = .Interface ∨ t.Kind = .Slice ∨
        t.Kind = .Map) := by
      intro h
      rcases h with h | h | h | h <;> rw [h] at hc <;> cases hc
    rw [if_neg hc1, if_neg hn]
    clear hn hform hc1
    cases hk : t.Kind <;> rw [hk] at hs <;> first
      | exact ⟨_, rfl⟩
      | exact absurd hs (by decide)

theorem getActualTypeIfAliased_cases_witness :
    ∃ p : RType, getActualTypeIfAliased (.ptr sampleGradeType) = .ok (true, some p) ∧
      p.builtin = true ∧ p.Kind = (stripPointer (.ptr sampleGradeType)).Kind :=
  (getActualTypeIfAliased_cases (.ptr sampleGradeType)).2.2.1 (by decide) (by decide)

/-! ## Claims on prepared statements -/

namespace QueryBuilder

theorem addNext_preparedStatements {q q1 : QueryBuilder} {s : String}
    (h : q.addNext s = some q1) :
    q1.preparedStatements = q.preparedStatements ∧ q1.conn = q.conn := by
  unfold addNext at h
  split at h
  · cases h; exact ⟨rfl, rfl⟩
  · split at h
    · cases h
    · simp only at h
      split at h
      · cases h
      · cases h; exact ⟨rfl, rfl⟩

end QueryBuilder

theorem Call.apply_preparedStatements {c : Call} {q q1 : QueryBuilder}
    (h : c.apply q = some q1) : q1.preparedStatements = q.preparedStatements := by
  cases c <;>
    simp only [Call.apply, QueryBuilder.Match, QueryBuilder.OptionalMatch,
      QueryBuilder.Create, QueryBuilder.Where, QueryBuilder.Merge, QueryBuilder.Return,
      QueryBuilder.Delete, QueryBuilder.Set, QueryBuilder.Remove, QueryBuilder.OrderBy,
      QueryBuilder.Limit, QueryBuilder.Skip, QueryBuilder.With, QueryBuilder.Unwind,
      QueryBuilder.Union, QueryBuilder.Cypher, QueryBuilder.WithNeo] at h <;>
    (repeat' split at h) <;>
    first
      | (cases h; rfl)
      | exact (QueryBuilder.addNext_preparedStatements h).1

theorem runCalls_preparedStatements (calls : List Call) :
    ∀ {q q1 : QueryBuilder}, runCalls q calls = some q1 →
      q1.preparedStatements = q.preparedStatements := by
  induction calls with
  | nil =>
    intro q q1 h
    cases h
    rfl
  | cons c rest ih =>
    intro q q1 h
    simp only [runCalls] at h
    cases hc : c.apply q with
    | none => simp [hc] at h
    | some q0 =>
      simp only [hc, Option.some_bind] at h
      rw [ih h, Call.apply_preparedStatements hc]

/-- On a builder reached by the calls `done`, `build` returns what `builtText` says. -/
theorem build_builtText {q : QueryBuilder} {done : List Call}
    (hl : q.Linked (done.flatMap Call.appended))
    (he : q.errors = done.flatMap Call.recorded) :
    q.build = some (match builtText done with
      | .ok query => (query, none)
      | .error err => ("", some err)) := by
  unfold builtText
  by_cases h1 : done.flatMap Call.recorded = []
  · rw [if_neg (not_not.mpr h1)]
    by_cases h2 : done.flatMap Call.appended = []
    · rw [if_pos h2]
      rw [h2] at hl
      obtain ⟨_, _, hstart, _⟩ := hl
      simp only [List.length_nil, if_true] at hstart
      rw [h1] at he
      simp [QueryBuilder.build, QueryBuilder.hasErrors, he, hstart]
    · rw [if_neg h2]
      rw [h1] at he
      exact hl.build_ok he h2
  · rw [if_pos h1]
    have hne : q.errors ≠ [] := by rw [he]; exact h1
    rw [QueryBuilder.build_errors q hne, he]

theorem foldl_statements (l : List stmt) (qs : List String) (ps : List Nat) :
    l.foldl (fun (acc : List String × List Nat) statement =>
        (acc.1 ++ [statement.Query], acc.2 ++ [statement.Params])) (qs, ps) =
      (qs ++ l.map (fun s => s.Query), ps ++ l.map (fun s => s.Params)) := by
  induction l generalizing qs ps with
  | nil => simp
  | cons a rest ih => simp [ih]

theorem ExecutePreparedStatements_eq (q : QueryBuilder) :
    q.ExecutePreparedStatements =
      if q.preparedStatements = [] then .failed "no statements are prepared"
      else .sent q.conn (q.preparedStatements.map (fun s => s.Query))
        (q.preparedStatements.map (fun s => s.Params)) := by
  unfold QueryBuilder.ExecutePreparedStatements
  by_cases h : q.preparedStatements = []
  · simp [h]
  · have hl : ¬ q.preparedStatements.length = 0 := fun h0 => h (List.length_eq_zero.mp h0)
    rw [if_neg hl, if_neg h, foldl_statements]
    simp

/-- A sequence of stagings on a builder reached by the calls `done` runs to its end,
returns the expected errors and stages the expected batch after what was staged. -/
theorem stageAll_batch (stagings : List Staging) :
    ∀ (q : QueryBuilder) (done : List Call), q.Linked (done.flatMap Call.appended) →
      q.errors = done.flatMap Call.recorded →
      ∃ q1, stageAll q stagings = some (q1, expectedErrors done stagings) ∧
        q1.preparedStatements = q.preparedStatements ++ expectedBatch done stagings := by
  induction stagings with
  | nil =>
    intro q done _ _
    exact ⟨q, rfl, by simp [expectedBatch]⟩
  | cons s rest ih =>
    intro q done hl he
    obtain ⟨q1, h1, h2, h3⟩ := runCalls_frame s.calls q _ hl
    have h1 : runCalls q s.calls = some q1 := h1
    have hp := runCalls_preparedStatements s.calls h1
    rw [← List.flatMap_append] at h2
    rw [he, ← List.flatMap_append] at h3
    have hb := build_builtText h2 h3
    cases hbt : builtText (done ++ s.calls) with
    | error err =>
      rw [hbt] at hb
      obtain ⟨q3, h4, h5⟩ := ih q1 (done ++ s.calls) h2 h3
      refine ⟨q3, ?_, ?_⟩
      · simp [stageAll, h1, QueryBuilder.AddToPreparedStatement, hb, h4, expectedErrors, hbt]
      · simp [h5, hp, expectedBatch, hbt]
    | ok query =>
      rw [hbt] at hb
      have hl2 : QueryBuilder.Linked
          { q1 with preparedStatements :=
              q1.preparedStatements ++ [{ Query := query, Params := s.params }] }
          ((done ++ s.calls).flatMap Call.appended) := by
        simpa [QueryBuilder.Linked] using h2
      obtain ⟨q3, h4, h5⟩ := ih _ (done ++ s.calls) hl2 h3
      refine ⟨q3, ?_, ?_⟩
      · simp [stageAll, h1, QueryBuilder.AddToPreparedStatement, hb, h4, expectedErrors, hbt]
      · simp [h5, hp, expectedBatch, hbt]

/-- C30: a sequence of stagings on a fresh builder, each a chain of calls followed by
`AddToPreparedStatement`, runs to its end. Each `AddToPreparedStatement` whose build
succeeds appends one pair of the built text and its parameters after the pairs staged
before, and each one whose build fails (a recorded error, or no clause) returns that
error and stages nothing. `ExecutePreparedStatements` then fails with
`no statements are prepared`, without a call of the driver, when nothing is staged, and
otherwise calls the driver once with the staged queries and parameters in staging
order. -/
theorem prepared_statement_staging (stagings : List Staging) :
    ∃ q, stageAll QB stagings = some (q, expectedErrors [] stagings) ∧
      q.preparedStatements = expectedBatch [] stagings ∧
      (expectedBatch [] stagings = [] →
        q.ExecutePreparedStatements = .failed "no statements are prepared") ∧
      (expectedBatch [] stagings ≠ [] →
        q.ExecutePreparedStatements =
          .sent q.conn ((expectedBatch [] stagings).map (fun s => s.Query))
            ((expectedBatch [] stagings).map (fun s => s.Params))) := by
  obtain ⟨q, h1, h2⟩ := stageAll_batch stagings QB [] QueryBuilder.Linked_QB rfl
  have h2 : q.preparedStatements = expectedBatch [] stagings := by
    rw [h2]; rfl
  refine ⟨q, h1, h2, ?_, ?_⟩
  · intro h0
    rw [ExecutePreparedStatements_eq, h2, if_pos h0]
  · intro h0
    rw [ExecutePreparedStatements_eq, h2, if_neg h0]

theorem prepared_statement_staging_witness :
    ∃ q, stageAll QB sampleStagings = some (q, [none, none,
        some "errors found: condition builder can not be nil -- total errors (1)"]) ∧
      q.preparedStatements = [⟨"MATCH (n) RETURN n", 1⟩, ⟨"MATCH (n) RETURN n LIMIT 5", 2⟩] ∧
      q.ExecutePreparedStatements =
        .sent q.conn ["MATCH (n) RETURN n", "MATCH (n) RETURN n LIMIT 5"] [1, 2] := by
  obtain ⟨q, h1, h2, _, h4⟩ := prepared_statement_staging sampleStagings
  exact ⟨q, h1, h2, h4 (by decide)⟩

/-! ## Claims on the fields of a struct type -/

theorem fieldsLoop_eq (table : FieldTable) :
    ∀ fields, fieldsLoop table fields = fields ++ flattened table := by
  induction table with
  | nil => intro fields; simp [fieldsLoop, flattened]
  | cons f inner rest ih1 ih2 =>
    intro fields
    by_cases h : f.Anonymous = true ∧ f.Typ.Kind = .Struct
    · have he : f.embedded = true := by simp [StructField.embedded, h.1, h.2]
      simp only [fieldsLoop, flattened, if_pos h, he, if_true]
      rw [ih2, ih1 []]
      simp
    · have he : f.embedded = false := by
        simp only [StructField.embedded, Bool.and_eq_false_imp, decide_eq_false_iff_not]
        exact fun a b => h ⟨a, b⟩
      simp only [fieldsLoop, flattened, if_neg h, he]
      rw [ih2]
      simp

theorem flattened_leaves (table : FieldTable) :
    (∀ f ∈ flattened table, f.embedded = false) ∧
      (flattened table).length = leafCount table := by
  induction table with
  | nil => simp [flattened, leafCount]
  | cons f inner rest ih1 ih2 =>
    by_cases he : f.embedded = true
    · simp only [flattened, leafCount, he, if_true, List.mem_append, List.length_append]
      refine ⟨fun g hg => hg.elim (ih1.1 g) (ih2.1 g), by rw [ih1.2, ih2.2]⟩
    · simp only [flattened, leafCount, he, List.mem_append, List.length_append]
      refine ⟨fun g hg => hg.elim (fun h => ?_) (ih2.1 g), by rw [ih2.2]; simp⟩
      simp only [Bool.false_eq_true, if_false, List.mem_singleton] at h
      subst h
      simpa using he

theorem getFields_struct (val : RType) (table : FieldTable) (hk : val.Kind = .Struct) :
    getFields val table = some (flattened table) := by
  cases val with
  | leaf k pkgPath name =>
    have hk1 : k.toKind = .Struct := hk
    simp [getFields, hk1, fieldsLoop_eq]
  | ptr e => cases hk
  | slice _ _ _ => cases hk
  | array _ _ _ _ => cases hk
  | chan _ _ _ => cases hk
  | map _ _ _ _ => cases hk

/-- C29: for every type of struct kind, also behind pointers, `getFields` returns the
flattened field list of the type: every field in declaration order, each anonymous field
of struct kind replaced, recursively, by the flattened field list of its own type. The
list holds no anonymous field of struct kind, and its length is the number of leaf
fields of the type. -/
theorem getFields_flattens (val : RType) (table : FieldTable) (hk : val.Kind = .Struct) :
    getFields val table = some (flattened table) ∧
      getFields (.ptr val) table = some (flattened table) ∧
      (∀ f ∈ flattened table, ¬ (f.Anonymous = true ∧ f.Typ.Kind = .Struct)) ∧
      (flattened table).length = leafCount table := by
  have h1 := getFields_struct val table hk
  have h2 : getFields (.ptr val) table = some (flattened table) := by
    rw [getFields, h1]
  refine ⟨h1, h2, ?_, (flattened_leaves table).2⟩
  intro f hf hemb
  have := (flattened_leaves table).1 f hf
  simp [StructField.embedded, hemb.1, hemb.2] at this

theorem getFields_flattens_witness :
    getFields (.leaf .Struct "main" "Student") sampleStudentTable =
        some [{ Name := "Id", Tag := "name=id", Typ := sampleInt64, Anonymous := false },
          sampleUUIDField,
          { Name := "LoadMap", Tag := "-",
            Typ := .map "" "" sampleString (.ptr (.leaf .Struct "gogm" "RelationConfig")),
            Anonymous := false },
          { Name := "Name", Tag := "name=name;unique", Typ := sampleString,
            Anonymous := false },
          { Name := "Grades", Tag := "name=grades;properties",
            Typ := mapStringInterfaceType, Anonymous := false },
          sampleStudentEnrollments] ∧
      leafCount sampleStudentTable = 6 :=
  ⟨(getFields_flattens (.leaf .Struct "main" "Student") sampleStudentTable rfl).1, rfl⟩

/-! ## Claims on the registration of relationship fields -/

theorem registerOn_append (r : relationConfigs) (a b : List Registration) :
    registerOn r (a ++ b) = registerOn (registerOn r a) b := by
  simp [registerOn, List.foldl_append]

theorem endTypeOf_target {acc : Accessors} {label : String} {config : decoratorConfig}
    {fieldType endType : RType} (h : endTypeOf acc label config fieldType = .ok endType) :
    targetType fieldType = endType := by
  unfold endTypeOf at h
  split at h
  · cases h; rfl
  · split_ifs at h
    split at h
    · cases h; rfl
    · cases h
  · rename_i t h1 h2
    cases h
    unfold targetType
    split
    · exact absurd rfl (h1 _)
    · exact absurd rfl (h2 _ _ _)
    · rfl

theorem endTypeName_peer {env : Env} {acc : Accessors} {config : decoratorConfig}
    {endType : RType} {name : String} (h : endTypeName env acc config endType = .ok name) :
    peerTypeName env acc endType config.Direction = some name := by
  unfold endTypeName at h
  unfold peerTypeName
  split_ifs at h ⊢ with h1 h2
  · cases hv : acc.GetEndNodeType endType with
    | none => simp [hv] at h
    | some t =>
      simp only [hv] at h
      cases t <;> (cases h; rfl)
  · cases hv : acc.GetStartNodeType endType with
    | none => simp [hv] at h
    | some t =>
      simp only [hv] at h
      cases t <;> (cases h; rfl)
  · cases h; rfl

/-- The body of the field loop leaves the state as it is when it returns with an error,
and else makes the registration the field is to make, if any. -/
theorem configField_registers (env : Env) (acc : Accessors) (label : String)
    (state : ConfigState) (field : StructField) :
    ((configField env acc label state field).2 ≠ none →
        (configField env acc label state field).1.mappedRelations =
          state.mappedRelations) ∧
      ((configField env acc label state field).2 = none →
        (configField env acc label state field).1.mappedRelations =
          registerOn state.mappedRelations
            (registrationOf env acc label field).toList) := by
  unfold configField registrationOf
  by_cases ht : field.Tag = ""
  · simp [ht, registerOn]
  · simp only [ne_eq, ht, not_false_eq_true, if_true, if_false]
    cases hc : newDecoratorConfig env field.Tag field.Name field.Typ with
    | error err => simp
    | ok config =>
      by_cases hr : config.Relationship = ""
      · simp [hr, registerOn]
      · simp only [hr, not_false_eq_true, if_true, if_false]
        cases he : endTypeOf acc label config field.Typ with
        | error err => simp
        | ok endType =>
          cases hn : endTypeName env acc config endType with
          | error err => simp [hn]
          | ok name =>
            simp [hn, endTypeOf_target he, endTypeName_peer hn, registerOn]

theorem configFields_registers (env : Env) (acc : Accessors) (label : String)
    (fields : List StructField) :
    ∀ state : ConfigState, ∃ n, n ≤ fields.length ∧
      (configFields env acc label fields state).1.mappedRelations =
        registerOn state.mappedRelations
          ((fields.take n).filterMap (registrationOf env acc label)) ∧
      ((configFields env acc label fields state).2 = none → n = fields.length) := by
  induction fields with
  | nil =>
    intro state
    exact ⟨0, by simp, by simp [configFields, registerOn], fun _ => rfl⟩
  | cons field rest ih =>
    intro state
    obtain ⟨k1, k2⟩ := configField_registers env acc label state field
    cases hs : configField env acc label state field with
    | mk s1 e1 =>
      rw [hs] at k1 k2
      cases e1 with
      | some err =>
        refine ⟨0, by simp, ?_, ?_⟩
        · simp only [configFields, hs]
          simpa [registerOn] using k1 (by simp)
        · simp [configFields, hs]
      | none =>
        obtain ⟨n, h1, h2, h3⟩ := ih s1
        refine ⟨n + 1, by simpa using h1, ?_, ?_⟩
        · simp only [configFields, hs, List.take_succ_cons, List.filterMap_cons]
          rw [h2, k2 rfl]
          cases registrationOf env acc label field <;>
            simp [registerOn]
        · intro h
          simp only [configFields, hs] at h
          simp [h3 h]

/-- C27: on a pointer to a struct type, `getStructDecoratorConfig` returns, and the
registry it leaves is the one it was given with the registrations of the fields it went
through, in field order: all the fields of the flattened field list when it returns a
config, the fields before the one it fails at otherwise. The registration of a field
with a relationship name is made under the owner's label and the relationship name, and
its peer type name is, when the pointer to the field's target type implements the edge
interface, the name of the type the end-type accessor of the target returns for an
outgoing field and the start-type accessor otherwise, one pointer stripped, and the name
of the target type when it is not an edge. In the example, `Student.Enrollments`
(outgoing, `ENROLLED`) is registered with the peer `Course` and `Course.Enrollments`
(incoming, `ENROLLED`) with the peer `Student`. -/
theorem getStructDecoratorConfig_registers (env : Env) (acc : Accessors) (elem : RType)
    (table : FieldTable) (r : relationConfigs) (hk : elem.Kind = .Struct) :
    (∃ n res, n ≤ (flattened table).length ∧
        getStructDecoratorConfig env acc (.ptr elem) table r =
          some (registerOn r
            (((flattened table).take n).filterMap (registrationOf env acc elem.Name)),
            res) ∧
        (∀ c, res = .ok c → n = (flattened table).length)) ∧
      (∀ (state : ConfigState) (field : StructField),
        (configField env acc elem.Name state field).2 = none →
        (configField env acc elem.Name state field).1.mappedRelations =
          registerOn state.mappedRelations
            (registrationOf env acc elem.Name field).toList) ∧
      registrationOf sampleEnv sampleAccessors "Student" sampleStudentEnrollments =
        some ⟨"Student", "ENROLLED", "Course", sampleEnrollments 0⟩ ∧
      registrationOf sampleEnv sampleAccessors "Course" sampleCourseEnrollments =
        some ⟨"Course", "ENROLLED", "Student", sampleEnrollments 1⟩ ∧
      (configField sampleEnv sampleAccessors "Student" ⟨{ configs := none }, []⟩
          sampleStudentEnrollments).1.mappedRelations =
        registerAll [⟨"Student", "ENROLLED", "Course", sampleEnrollments 0⟩] ∧
      (configField sampleEnv sampleAccessors "Course" ⟨{ configs := none }, []⟩
          sampleCourseEnrollments).1.mappedRelations =
        registerAll [⟨"Course", "ENROLLED", "Student", sampleEnrollments 1⟩] := by
  refine ⟨?_, fun state field => (configField_registers env acc _ state field).2,
    rfl, rfl, rfl, rfl⟩
  simp only [getStructDecoratorConfig, hk, ne_eq, not_true_eq_false, if_false,
    getFields_struct elem table hk]
  by_cases h0 : table.NumField = 0
  · exact ⟨0, .error (.msg "struct has no fields"), Nat.zero_le _,
      by simp [h0, registerOn], by simp⟩
  · by_cases h1 : (flattened table).length = 0
    · exact ⟨0, .error (.msg "failed to parse fields"), Nat.zero_le _,
        by simp [h0, h1, registerOn], by simp⟩
    · obtain ⟨n, k1, k2, k3⟩ := configFields_registers env acc elem.Name (flattened table)
        { mappedRelations := r, Fields := [] }
      simp only [h0, h1, if_false]
      cases hs : configFields env acc elem.Name (flattened table)
          { mappedRelations := r, Fields := [] } with
      | mk s1 e1 =>
        rw [hs] at k2 k3
        simp only at k2 k3
        cases e1 with
        | some err =>
          exact ⟨n, .error err, k1, by simp [k2], by simp⟩
        | none =>
          simp only
          cases hv : structDecoratorConfig.Validate
              { Fields := some s1.Fields, Label := elem.Name,
                IsVertex := !env.implementsEdge (.ptr elem), Typ := elem } with
          | some err => exact ⟨n, .error err, k1, by simp [k2], by simp⟩
          | none =>
            exact ⟨n, .ok { Fields := some s1.Fields, Label := elem.Name,
                            IsVertex := !env.implementsEdge (.ptr elem), Typ := elem },
              k1, by simp [k2], fun _ _ => k3 rfl⟩

theorem getStructDecoratorConfig_registers_witness :
    (∃ n res, n ≤ (flattened sampleStudentTable).length ∧
      getStructDecoratorConfig sampleEnv sampleAccessors
          (.ptr (.leaf .Struct "main" "Student")) sampleStudentTable { configs := none } =
        some (registerOn { configs := none }
          (((flattened sampleStudentTable).take n).filterMap
            (registrationOf sampleEnv sampleAccessors "Student")), res) ∧
      (∀ c, res = .ok c → n = (flattened sampleStudentTable).length)) ∧
      ∃ c, getStructDecoratorConfig sampleEnv sampleAccessors
          (.ptr (.leaf .Struct "main" "Student")) sampleStudentTable { configs := none } =
        some (registerAll [⟨"Student", "ENROLLED", "Course", sampleEnrollments 0⟩], .ok c) :=
  ⟨(getStructDecoratorConfig_registers sampleEnv sampleAccessors
    (.leaf .Struct "main" "Student") sampleStudentTable { configs := none } rfl).1,
    ⟨_, rfl⟩⟩

/-! ## Claims on the behaviour of the code as it is -/

/-- C32: `Pagination.Validate` returns an error exactly when the page number is `≥ 0`,
the limit per page is `> 1` and both order-by names are non-empty; the error is
`pagination configuration invalid, please double check`. In every other case, also with
empty order-by names, it returns no error. -/
theorem Pagination_Validate_inverted (p : Pagination) :
    (p.Validate ≠ none ↔
        (p.PageNumber ≥ 0 ∧ p.LimitPerPage > 1 ∧ p.OrderByField ≠ "" ∧
          p.OrderByVarName ≠ "")) ∧
      (p.Validate = none ∨
        p.Validate = some (.msg "pagination configuration invalid, please double check")) ∧
      (p.OrderByField = "" ∨ p.OrderByVarName = "" → p.Validate = none) := by
  unfold Pagination.Validate
  refine ⟨?_, ?_, ?_⟩
  · split_ifs with h
    · simp [h]
    · simp [h]
  · split_ifs
    · exact Or.inr rfl
    · exact Or.inl rfl
  · intro h
    rw [if_neg]
    rintro ⟨_, _, h3, h4⟩
    rcases h with h | h
    · exact h3 h
    · exact h4 h

theorem Pagination_Validate_inverted_witness :
    Pagination.Validate ⟨0, 10, "", "", false⟩ = none ∧
      Pagination.Validate ⟨0, 10, "n", "name", false⟩ ≠ none :=
  ⟨(Pagination_Validate_inverted ⟨0, 10, "", "", false⟩).2.2 (Or.inl rfl),
    (Pagination_Validate_inverted ⟨0, 10, "n", "name", false⟩).1.mpr (by decide)⟩

/-- C33: for the config of an entity whose only field is the primary key `UUID` and a
value that has no field `UUID`, reading the field panics inside `toCypherParamsMap`,
and the call returns the nil map with the nil error, whatever the conversion of
values does: the deferred function sets a local variable only. -/
theorem toCypherParamsMap_swallows_panic :
    ∀ conv : GoValue → RType → Option GoValue,
      fieldParams conv sampleNameOnly sampleUUID = .panic ∧
        toCypherParamsMap conv sampleNameOnly sampleKeyOnly = (none, none) :=
  fun _ => ⟨rfl, rfl⟩

/-- C35: `getStructDecoratorConfig` is not atomic on the registry. For a struct `Club`
with a valid relationship field `Members` and no primary key it returns the error
`primary key required on node/edge Club`, and for a struct with a primary key, the field
`Members` and then a field with the tag `name=motto;uniqe` it returns the error
`key 'uniqe' is not recognized`; in both cases the registry, empty before the call,
holds the registration of `Members` after it. -/
theorem getStructDecoratorConfig_not_atomic :
    getStructDecoratorConfig sampleEnv sampleAccessors (.ptr (.leaf .Struct "main" "Club"))
        sampleNoKeyTable { configs := none } =
      some (registerAll [sampleMembers],
        .error (.InvalidStructConfigError "primary key required on node/edge Club")) ∧
    getStructDecoratorConfig sampleEnv sampleAccessors (.ptr (.leaf .Struct "main" "Club"))
        sampleMalformedTable { configs := none } =
      some (registerAll [sampleMembers],
        .error (.msg "key 'uniqe' is not recognized")) ∧
    registerAll [sampleMembers] ≠ { configs := none } ∧
    (registerAll [sampleMembers]).getConfig "Club" "MEMBER" "Student" 0 =
      .ok sampleMembers.dec :=
  ⟨rfl, rfl, by decide, rfl⟩

theorem keyRegistered_of_candidates {adds : List Registration}
    {nodeType relationship fieldType : String}
    (h : candidates adds nodeType relationship fieldType ≠ []) :
    adds ≠ [] ∧ keyRegistered adds nodeType relationship = true := by
  constructor
  · rintro rfl
    exact h rfl
  · obtain ⟨c, hc⟩ := List.exists_mem_of_ne_nil _ h
    simp only [candidates, List.mem_map, List.mem_filter, Bool.and_eq_true,
      decide_eq_true_eq] at hc
    obtain ⟨a, ⟨ha, hk, _⟩, _⟩ := hc
    simp only [keyRegistered, List.any_eq_true, decide_eq_true_eq]
    exact ⟨a, ha, hk⟩

/-- C37: when one config only is registered under a label, a relationship name and a
peer type, `getConfig` returns it whatever the direction asked for; with two or more it
returns the first one with the direction asked for, or an error. So `GetConfigs` can
return a start config that is not outgoing and an end config that is not incoming: for
`CURRICULUM` asked from `Subject` to `Department` it returns the incoming config of
`Subject.Department` as start and the outgoing config of `Department.Subjects` as end. -/
theorem getConfig_single_candidate (adds : List Registration)
    (nodeType relationship fieldType : String) :
    (∀ c, candidates adds nodeType relationship fieldType = [c] →
        ∀ direction, (registerAll adds).getConfig nodeType relationship fieldType direction =
          .ok c) ∧
      (2 ≤ (candidates adds nodeType relationship fieldType).length →
        ∀ direction, (registerAll adds).getConfig nodeType relationship fieldType direction =
          match (candidates adds nodeType relationship fieldType).find?
              (fun c => decide (c.Direction = direction)) with
          | some c => .ok c
          | none => .error (.msg "relation with correct direction not found")) ∧
      (registerAll sampleBalancedAdds).GetConfigs sampleEnv "Subject" "Department"
          "Department" "Subject" "CURRICULUM" =
        .ok (sampleRelation "Department" "CURRICULUM" 1
            (.ptr (.leaf .Struct "main" "Department")) false,
          sampleRelation "Subjects" "CURRICULUM" 0 sampleSubjectsType true) ∧
      (sampleRelation "Department" "CURRICULUM" 1
          (.ptr (.leaf .Struct "main" "Department")) false).Direction ≠
        sampleEnv.DirectionOutgoing ∧
      (sampleRelation "Subjects" "CURRICULUM" 0 sampleSubjectsType true).Direction ≠
        sampleEnv.DirectionIncoming := by
  refine ⟨?_, ?_, rfl, by decide, by decide⟩
  · intro c hc direction
    have hne : candidates adds nodeType relationship fieldType ≠ [] := by
      rw [hc]; simp
    obtain ⟨h1, h2⟩ := keyRegistered_of_candidates hne
    rw [getConfig_registerAll adds h1, h2, hc]
    simp
  · intro hlen direction
    have hne : candidates adds nodeType relationship fieldType ≠ [] := by
      intro h0
      rw [h0] at hlen
      simp at hlen
    obtain ⟨h1, h2⟩ := keyRegistered_of_candidates hne
    rw [getConfig_registerAll adds h1, h2]
    cases hc : candidates adds nodeType relationship fieldType with
    | nil => exact absurd hc hne
    | cons a rest =>
      cases rest with
      | nil =>
        rw [hc] at hlen
        simp at hlen
      | cons b rest2 =>
        simp only [Bool.false_eq_true, if_false]
        cases List.find? (fun c => decide (c.Direction = direction)) (a :: b :: rest2) <;> rfl

theorem getConfig_single_candidate_witness :
    ∀ direction, (registerAll sampleBalancedAdds).getConfig "Subject" "CURRICULUM"
        "Department" direction =
      .ok (sampleRelation "Department" "CURRICULUM" 1
        (.ptr (.leaf .Struct "main" "Department")) false) :=
  (getConfig_single_candidate sampleBalancedAdds "Subject" "CURRICULUM" "Department").1 _ rfl

/-! ## Claims on the closed session and on `RollbackWithError` -/

theorem mentions_append (a x b : String) : mentions (a ++ x ++ b) x = true := by
  simp only [mentions, List.any_eq_true, String.data_append]
  refine ⟨x.data ++ b.data, ?_, ?_⟩
  · rw [List.mem_tails, List.append_assoc]
    exact List.suffix_append _ _
  · rw [List.isPrefixOf_iff_prefix]
    exact List.prefix_append _ _

/-- C38: after a `Close` that returned no error the session has no connection, and each
of `Begin`, `Commit`, `Rollback`, `SaveDepth`, `Delete`, `DeleteUUID`, `Query`,
`QueryRaw`, `PurgeDatabase` and `Close` then returns the error
`neo4j connection not initialized` without a call of the driver or of the pool and
leaves the session as it is, also after any sequence of such calls. -/
theorem closed_session_unusable (s : Session) (pool : Option GoError)
    (hclose : (s.Close pool).err = none) (ops : List SessionOp) (op : SessionOp) :
    (s.Close pool).session.conn = none ∧
      ((s.Close pool).session.performAll ops) = (s.Close pool).session ∧
      (((s.Close pool).session.performAll ops).perform op).err =
        some (.msg "neo4j connection not initialized") ∧
      (((s.Close pool).session.performAll ops).perform op).invoked = false ∧
      (((s.Close pool).session.performAll ops).perform op).session =
        (s.Close pool).session := by
  have hconn : (s.Close pool).session.conn = none := by
    unfold Session.Close at hclose ⊢
    cases hc : s.conn with
    | none => simp [hc] at hclose
    | some c =>
      cases ht : s.tx with
      | some t => simp [hc, ht] at hclose
      | none =>
        cases pool with
        | some e => simp [hc, ht] at hclose
        | none => simp [hc, ht]
  have hstep : ∀ (c : Session) (o : SessionOp), c.conn = none →
      (c.perform o).err = some (.msg "neo4j connection not initialized") ∧
        (c.perform o).invoked = false ∧ (c.perform o).session = c := by
    intro c o hc
    cases o <;>
      simp [Session.perform, Session.Begin, Session.Commit, Session.Rollback,
        Session.SaveDepth, Session.Delete, Session.DeleteUUID, Session.Query,
        Session.QueryRaw, Session.PurgeDatabase, Session.Close, hc]
  have hall : ∀ (l : List SessionOp) (c : Session), c.conn = none → c.performAll l = c := by
    intro l
    induction l with
    | nil => intro c _; rfl
    | cons o rest ih =>
      intro c hc
      have h1 := (hstep c o hc).2.2
      simp only [Session.performAll, List.foldl_cons] at ih ⊢
      rw [h1]
      exact ih c hc
  rw [hall ops _ hconn]
  exact ⟨hconn, rfl, hstep _ op hconn⟩

theorem closed_session_unusable_witness :
    ((freshSession ⟨7⟩).Close none).session.conn = none ∧
      (((freshSession ⟨7⟩).Close none).session.performAll [.Begin (.ok ⟨1⟩), .Close none]) =
        ((freshSession ⟨7⟩).Close none).session ∧
      ((((freshSession ⟨7⟩).Close none).session.performAll
          [.Begin (.ok ⟨1⟩), .Close none]).perform (.SaveDepth none)).err =
        some (.msg "neo4j connection not initialized") ∧
      ((((freshSession ⟨7⟩).Close none).session.performAll
          [.Begin (.ok ⟨1⟩), .Close none]).perform (.SaveDepth none)).invoked = false ∧
      ((((freshSession ⟨7⟩).Close none).session.performAll
          [.Begin (.ok ⟨1⟩), .Close none]).perform (.SaveDepth none)).session =
        ((freshSession ⟨7⟩).Close none).session :=
  closed_session_unusable (freshSession ⟨7⟩) none rfl [.Begin (.ok ⟨1⟩), .Close none]
    (.SaveDepth none)

/-- C40: `RollbackWithError(e)` for a non-nil error `e`. When the rollback returns no
error, it returns `e` itself and the session holds no transaction afterwards. When the
rollback returns an error, which it does when no transaction is open, it returns a new
error whose message contains the message of `e` and the message of the rollback error,
and the session is left as it was. -/
theorem RollbackWithError_result (t : ErrorTexts) (s : Session) (e : GoError)
    (driver : Option GoError) :
    ((s.Rollback driver).err = none →
        (s.RollbackWithError t e driver).err = some e ∧
          (s.RollbackWithError t e driver).session.tx = none) ∧
      (∀ err, (s.Rollback driver).err = some err →
        ∃ text, (s.RollbackWithError t e driver).err = some (.msg text) ∧
          mentions text (e.Error t) = true ∧ mentions text (err.Error t) = true ∧
          (s.RollbackWithError t e driver).session = s) ∧
      (s.tx = none → (s.Rollback driver).err ≠ none) := by
  refine ⟨?_, ?_, ?_⟩
  · intro h
    have h1 : (s.RollbackWithError t e driver).err = some e := by
      simp only [Session.RollbackWithError, h]
    have h2 : (s.RollbackWithError t e driver).session = (s.Rollback driver).session := by
      simp only [Session.RollbackWithError, h]
    refine ⟨h1, ?_⟩
    rw [h2]
    unfold Session.Rollback at h ⊢
    cases hc : s.conn with
    | none => simp [hc] at h
    | some c =>
      cases ht : s.tx with
      | none => simp [hc, ht] at h
      | some x =>
        cases driver with
        | some d => simp [hc, ht] at h
        | none => simp [hc, ht]
  · intro err h
    have h1 : (s.RollbackWithError t e driver).err =
        some (.msg ("original error: `" ++ e.Error t ++ "`, rollback error: `" ++
          err.Error t ++ "`")) := by
      simp only [Session.RollbackWithError, h]
    have h2 : (s.RollbackWithError t e driver).session = (s.Rollback driver).session := by
      simp only [Session.RollbackWithError, h]
    refine ⟨_, h1, ?_, ?_, ?_⟩
    · have := mentions_append "original error: `" (e.Error t)
        ("`, rollback error: `" ++ err.Error t ++ "`")
      simpa [String.append_assoc] using this
    · exact mentions_append ("original error: `" ++ e.Error t ++ "`, rollback error: `")
        (err.Error t) "`"
    · rw [h2]
      unfold Session.Rollback at h ⊢
      cases hc : s.conn with
      | none => simp [hc]
      | some c =>
        cases ht : s.tx with
        | none => simp [hc, ht]
        | some x =>
          cases driver with
          | some d => simp [hc, ht]
          | none => simp [hc, ht] at h
  · intro ht
    unfold Session.Rollback
    cases hc : s.conn <;> simp [ht]

theorem RollbackWithError_result_witness :
    ((freshSession ⟨7⟩).RollbackWithError sampleTexts (.msg "save failed") none).err =
        some (.msg ("original error: `save failed`, rollback error: " ++
          "`cannot Rollback nil transaction: transaction error`")) ∧
      (({ freshSession ⟨7⟩ with tx := some ⟨1⟩ } : Session).RollbackWithError sampleTexts
          (.msg "save failed") none).err = some (.msg "save failed") ∧
      (({ freshSession ⟨7⟩ with tx := some ⟨1⟩ } : Session).RollbackWithError sampleTexts
          (.msg "save failed") none).session.tx = none :=
  ⟨rfl, (RollbackWithError_result sampleTexts { freshSession ⟨7⟩ with tx := some ⟨1⟩ }
    (.msg "save failed") none).1 rfl⟩

/-! ## Claims on hyphens in registry keys -/

theorem tallyConfigs_error {env : Env} {relType field : String}
    (configs : List decoratorConfig) :
    ∀ {cm : CheckMap} {err : GoError},
      tallyConfigs env relType field configs cm = .error err →
      ∃ text, err = .wrapErrValidation text := by
  induction configs with
  | nil => intro cm err h; cases h
  | cons c rest ih =>
    intro cm err h
    simp only [tallyConfigs] at h
    cases hc : tallyConfig env relType field cm c with
    | error e =>
      rw [hc] at h
      cases h
      unfold tallyConfig at hc
      split_ifs at hc
      cases hc
      exact ⟨_, rfl⟩
    | ok cm1 =>
      rw [hc] at h
      exact ih h

theorem tallyFields_error {env : Env} {relType : String} (m : ConfMap) :
    ∀ {cm : CheckMap} {err : GoError}, tallyFields env relType m cm = .error err →
      ∃ text, err = .wrapErrValidation text := by
  induction m with
  | nil => intro cm err h; cases h
  | cons e rest ih =>
    intro cm err h
    obtain ⟨field, configs⟩ := e
    simp only [tallyFields] at h
    cases hc : tallyConfigs env relType field configs cm with
    | error e1 =>
      rw [hc] at h
      cases h
      exact tallyConfigs_error configs hc
    | ok cm1 =>
      rw [hc] at h
      exact ih h

/-- The first loop of `Validate` fails with a validation error only, and when it does
not fail every key it visited has two parts. -/
theorem tallyTitles_outcome {env : Env} {o : RangeOrder} (l : List (String × ConfMap)) :
    ∀ {cm : CheckMap},
      (∀ err, tallyTitles env o l cm = .error err → ∃ text, err = .wrapErrValidation text) ∧
      (∀ cm1, tallyTitles env o l cm = .ok cm1 → ∀ e ∈ l, (relTypeOf e.1).isSome = true) := by
  induction l with
  | nil =>
    intro cm
    exact ⟨fun err h => (by cases h), fun cm1 _ e he => (by cases he)⟩
  | cons e rest ih =>
    intro cm
    obtain ⟨title, confMap⟩ := e
    simp only [tallyTitles]
    split
    · rename_i p relType hs
      have hrel : (relTypeOf title).isSome = true := by simp [relTypeOf, hs]
      cases hc : tallyFields env relType (o.confMap title confMap) cm with
      | error e1 =>
        refine ⟨fun err h => ?_, fun cm1 h => (by cases h)⟩
        cases h
        exact tallyFields_error _ hc
      | ok cm2 =>
        refine ⟨fun err h => ih.1 err h, fun cm1 h e he => ?_⟩
        rcases List.mem_cons.mp he with he | he
        · subst he
          exact hrel
        · exact ih.2 cm1 h e he
    · exact ⟨fun err h => (by cases h; exact ⟨_, rfl⟩), fun cm1 h => (by cases h)⟩

/-- C36: on a registry built by calls of `Add` one of which has a label or a relationship
name with the character `-`, `relationConfigs.Validate` returns a validation error,
whatever the order of visit and whatever the directions registered; and the pairs
`("a-b", "c")` and `("a", "b-c")` have the same registry key, so that their configs are
stored under one key. -/
theorem Validate_fails_on_hyphen (env : Env) (o : RangeOrder) (ho : o.Valid)
    (adds : List Registration) (a : Registration) (ha : a ∈ adds)
    (hh : '-' ∈ a.nodeType.data ∨ '-' ∈ a.relationship.data) :
    (∃ text, (registerAll adds).Validate env o = some (.wrapErrValidation text)) ∧
      relationConfigs.getKey "a-b" "c" = relationConfigs.getKey "a" "b-c" ∧
      (registerAll sampleHyphenAdds).entries.map Prod.fst = ["a-b-c"] := by
  refine ⟨?_, by decide, by decide⟩
  have hk := keys_registerAll adds a ha
  obtain ⟨e, he, hek⟩ := List.mem_map.mp hk
  have he1 : e ∈ o.configs (registerAll adds).entries := (ho.1 _).mem_iff.mpr he
  have hno : (relTypeOf e.1).isSome ≠ true := by
    intro h
    rw [hek] at h
    obtain ⟨h1, h2⟩ := dashFree_of_relTypeOf h
    rcases hh with hh | hh
    · exact h1 hh
    · exact h2 hh
  have hout := @tallyTitles_outcome env o (o.configs (registerAll adds).entries) []
  cases hc : tallyTitles env o (o.configs (registerAll adds).entries) [] with
  | ok cm1 => exact absurd (hout.2 cm1 hc e he1) hno
  | error err =>
    obtain ⟨text, ht⟩ := hout.1 err hc
    refine ⟨text, ?_⟩
    rw [← ht]
    revert hc
    unfold relationConfigs.Validate relationConfigs.entries
    cases (registerAll adds).configs <;> (intro hc; simp only [hc])

theorem Validate_fails_on_hyphen_witness :
    ∃ text, (registerAll sampleHyphenAdds).Validate sampleEnv RangeOrder.listed =
      some (.wrapErrValidation text) :=
  (Validate_fails_on_hyphen sampleEnv RangeOrder.listed RangeOrder.listed_valid
    sampleHyphenAdds _ (List.mem_cons_self _ _) (Or.inl (by decide))).1

/-! ## Claims on the value of a direction token -/

theorem contains_of_split_pair {field a b : String} (h : Split field '=' = [a, b]) :
    Contains field '=' = true := by
  have hl : (Split field '=').length = 2 := by rw [h]; rfl
  simp only [Split, List.length_map, splitChars_length] at hl
  have hc : 0 < field.data.count '=' := by omega
  simpa [Contains] using List.count_pos_iff.mp hc

/-- A `direction=` token is never refused: it sets the direction its value gives. -/
theorem parseField_direction (env : Env) (varType : RType) (d : decoratorConfig)
    {field val : String} (h : Split field '=' = ["direction", val]) :
    parseField env varType d field = .ok { d with Direction := parseDirection env val } := by
  simp [parseField, contains_of_split_pair h, h]

theorem parseFields_congr (env : Env) (varType : RType) {f1 f2 : String}
    (h : ∀ d, parseField env varType d f1 = parseField env varType d f2)
    (pre post : List String) :
    ∀ d, parseFields env varType (pre ++ f1 :: post) d =
      parseFields env varType (pre ++ f2 :: post) d := by
  induction pre with
  | nil =>
    intro d
    simp only [List.nil_append, parseFields, h]
  | cons p rest ih =>
    intro d
    simp only [List.cons_append, parseFields]
    cases parseField env varType d p with
    | error e => rfl
    | ok d1 => exact ih d1

theorem newDecoratorConfig_congr (env : Env) (d1 d2 name : String) (varType : RType)
    (h : ∀ d, parseFields env varType (Split d1 ';') d =
      parseFields env varType (Split d2 ';') d) :
    newDecoratorConfig env d1 name varType = newDecoratorConfig env d2 name varType := by
  have hl1 : ¬ (Split d1 ';').length = 0 := by
    simp only [Split, List.length_map, splitChars_length]
    omega
  have hl2 : ¬ (Split d2 ';').length = 0 := by
    simp only [Split, List.length_map, splitChars_length]
    omega
  simp only [newDecoratorConfig, hl1, hl2, if_false, h]

/-- C39: the value of a `direction=` token is lowered before it is compared, so that
values with the same lowering give the same direction and `INCOMING`, `Incoming` and
`incoming` all give incoming (likewise outgoing, both and none); a value whose lowering
is none of the four gives the direction none, as the value `none` does; such a token is
accepted by the token loop, and `newDecoratorConfig` returns for a tag with it what it
returns for the tag with `direction=none` in its place. -/
theorem parseDirection_case_insensitive (env : Env) :
    (∀ v1 v2, ToLower env.lowerRune v1 = ToLower env.lowerRune v2 →
        parseDirection env v1 = parseDirection env v2) ∧
      (parseDirection env "INCOMING" = env.DirectionIncoming ∧
        parseDirection env "Incoming" = env.DirectionIncoming ∧
        parseDirection env "incoming" = env.DirectionIncoming ∧
        parseDirection env "OUTGOING" = env.DirectionOutgoing ∧
        parseDirection env "Outgoing" = env.DirectionOutgoing ∧
        parseDirection env "outgoing" = env.DirectionOutgoing ∧
        parseDirection env "BOTH" = env.DirectionBoth ∧
        parseDirection env "Both" = env.DirectionBoth ∧
        parseDirection env "both" = env.DirectionBoth ∧
        parseDirection env "NONE" = env.DirectionNone ∧
        parseDirection env "None" = env.DirectionNone ∧
        parseDirection env "none" = env.DirectionNone) ∧
      (∀ v, ToLower env.lowerRune (ToLower env.lowerRune v) ≠ "incoming" →
        ToLower env.lowerRune (ToLower env.lowerRune v) ≠ "outgoing" →
        ToLower env.lowerRune (ToLower env.lowerRune v) ≠ "both" →
        parseDirection env v = env.DirectionNone ∧
          parseDirection env v = parseDirection env "none") ∧
      (∀ (varType : RType) (d : decoratorConfig) (field val : String),
        Split field '=' = ["direction", val] →
        parseField env varType d field =
          .ok { d with Direction := parseDirection env val }) ∧
      (∀ (d1 d2 name : String) (varType : RType) (pre post : List String)
        (f1 f2 val : String),
        Split d1 ';' = pre ++ f1 :: post → Split d2 ';' = pre ++ f2 :: post →
        Split f1 '=' = ["direction", val] → Split f2 '=' = ["direction", "none"] →
        ToLower env.lowerRune (ToLower env.lowerRune val) ≠ "incoming" →
        ToLower env.lowerRune (ToLower env.lowerRune val) ≠ "outgoing" →
        ToLower env.lowerRune (ToLower env.lowerRune val) ≠ "both" →
        newDecoratorConfig env d1 name varType = newDecoratorConfig env d2 name varType) := by
  have hnone : parseDirection env "none" = env.DirectionNone := rfl
  have hother : ∀ v, ToLower env.lowerRune (ToLower env.lowerRune v) ≠ "incoming" →
      ToLower env.lowerRune (ToLower env.lowerRune v) ≠ "outgoing" →
      ToLower env.lowerRune (ToLower env.lowerRune v) ≠ "both" →
      parseDirection env v = env.DirectionNone := by
    intro v h1 h2 h3
    simp only [parseDirection, h1, h2, h3, if_false]
    split_ifs <;> rfl
  refine ⟨?_, ⟨rfl, rfl, rfl, rfl, rfl, rfl, rfl, rfl, rfl, rfl, rfl, rfl⟩, ?_, ?_, ?_⟩
  · intro v1 v2 h
    simp only [parseDirection, h]
  · intro v h1 h2 h3
    exact ⟨hother v h1 h2 h3, (hother v h1 h2 h3).trans hnone.symm⟩
  · intro varType d field val h
    exact parseField_direction env varType d h
  · intro d1 d2 name varType pre post f1 f2 val hs1 hs2 hf1 hf2 h1 h2 h3
    apply newDecoratorConfig_congr
    rw [hs1, hs2]
    apply parseFields_congr
    intro d
    rw [parseField_direction env varType d hf1, parseField_direction env varType d hf2,
      hother val h1 h2 h3, hnone]

theorem parseDirection_case_insensitive_witness :
    newDecoratorConfig sampleEnv "direction=Sideways;relationship=CURRICULUM" "Subjects"
        sampleSubjectsType =
      newDecoratorConfig sampleEnv "direction=none;relationship=CURRICULUM" "Subjects"
        sampleSubjectsType ∧
      newDecoratorConfig sampleEnv "direction=none;relationship=CURRICULUM" "Subjects"
        sampleSubjectsType =
      .ok (sampleRelation "Subjects" "CURRICULUM" 2 sampleSubjectsType true) :=
  ⟨(parseDirection_case_insensitive sampleEnv).2.2.2.2
    "direction=Sideways;relationship=CURRICULUM" "direction=none;relationship=CURRICULUM"
    "Subjects" sampleSubjectsType [] ["relationship=CURRICULUM"] "direction=Sideways"
    "direction=none" "Sideways" rfl rfl rfl rfl (by decide) (by decide) (by decide), rfl⟩

/-! ## Claims on the equality of configs -/

/-- C31: for the entity configs `a`, with the field `UUID` only, and `b`, with the same
label and kind, the same field `UUID` and one more field `Name`, `a.Equals(b)` is true
and `b.Equals(a)` is false: `structDecoratorConfig.Equals` only looks for the fields of
its receiver in its argument. Both configs are equal to themselves. -/
theorem Equals_not_symmetric :
    sampleKeyOnly.Equals (some sampleKeyAndName) = true ∧
      sampleKeyAndName.Equals (some sampleKeyOnly) = false ∧
      sampleKeyOnly.Equals (some sampleKeyOnly) = true ∧
      sampleKeyAndName.Equals (some sampleKeyAndName) = true := by
  decide

/-! ## Claims on the order of the tokens -/

theorem TokenEffect.apply_comm (t1 t2 : TokenEffect) (h : t1.key ≠ t2.key)
    (d : decoratorConfig) : t1.apply (t2.apply d) = t2.apply (t1.apply d) := by
  cases t1 <;> cases t2 <;> first
    | rfl
    | exact absurd rfl h

/-- A token is refused whatever the config so far, or accepted with an effect that does
not depend on the config so far. -/
theorem parseField_effect (env : Env) (varType : RType) (field : String) :
    (∃ err, ∀ d, parseField env varType d field = .error err) ∨
      (∃ t : TokenEffect, t.key = tokenKey field ∧
        ∀ d, parseField env varType d field = .ok (t.apply d)) := by
  by_cases hc : Contains field '=' = true
  · cases hs : Split field '=' with
    | nil => exact Or.inl ⟨.msg "empty assignment", fun d => by simp [parseField, hc, hs]⟩
    | cons key rest =>
      cases rest with
      | nil =>
        exact Or.inl ⟨.msg "empty assignment", fun d => by simp [parseField, hc, hs]⟩
      | cons val rest2 =>
        cases rest2 with
        | cons x y =>
          exact Or.inl ⟨.msg "empty assignment", fun d => by simp [parseField, hc, hs]⟩
        | nil =>
          have hk : tokenKey field = key := by simp [tokenKey, hc, hs]
          by_cases k1 : key = "name"
          · exact Or.inr ⟨.name val, by rw [hk, k1]; rfl,
              fun d => by simp [parseField, hc, hs, k1, TokenEffect.apply]⟩
          · by_cases k2 : key = "relationship"
            · cases varType with
              | slice p n elem =>
                by_cases hp : elem.Kind = .Ptr
                · exact Or.inr ⟨.relationship val true (env.implementsEdge elem),
                    by rw [hk, k2]; rfl,
                    fun d => by simp [parseField, hc, hs, k2, hp, TokenEffect.apply]⟩
                · exact Or.inl ⟨.msg "slice must be of pointer type",
                    fun d => by simp [parseField, hc, hs, k2, hp]⟩
              | leaf a b c =>
                exact Or.inr ⟨.relationship val false (env.implementsEdge (.leaf a b c)),
                  by rw [hk, k2]; rfl,
                  fun d => by simp [parseField, hc, hs, k2, TokenEffect.apply]⟩
              | ptr e =>
                exact Or.inr ⟨.relationship val false (env.implementsEdge (.ptr e)),
                  by rw [hk, k2]; rfl,
                  fun d => by simp [parseField, hc, hs, k2, TokenEffect.apply]⟩
              | array a b c e =>
                exact Or.inr ⟨.relationship val false (env.implementsEdge (.array a b c e)),
                  by rw [hk, k2]; rfl,
                  fun d => by simp [parseField, hc, hs, k2, TokenEffect.apply]⟩
              | chan a b e =>
                exact Or.inr ⟨.relationship val false (env.implementsEdge (.chan a b e)),
                  by rw [hk, k2]; rfl,
                  fun d => by simp [parseField, hc, hs, k2, TokenEffect.apply]⟩
              | map a b k e =>
                exact Or.inr ⟨.relationship val false (env.implementsEdge (.map a b k e)),
                  by rw [hk, k2]; rfl,
                  fun d => by simp [parseField, hc, hs, k2, TokenEffect.apply]⟩
            · by_cases k3 : key = "direction"
              · exact Or.inr ⟨.direction (parseDirection env val), by rw [hk, k3]; rfl,
                  fun d => by simp [parseField, hc, hs, k3, TokenEffect.apply]⟩
              · exact Or.inl ⟨.msg ("key '" ++ key ++ "' is not recognized"),
                  fun d => by simp [parseField, hc, hs, k1, k2, k3]⟩
  · have hk : tokenKey field = field := by simp [tokenKey, hc]
    by_cases f1 : field = "unique"
    · exact Or.inr ⟨.unique, by rw [hk, f1]; rfl,
        fun d => by subst f1; simp [parseField, hc, TokenEffect.apply]⟩
    · by_cases f2 : field = "pk"
      · exact Or.inr ⟨.pk, by rw [hk, f2]; rfl,
          fun d => by subst f2; simp [parseField, hc, TokenEffect.apply]⟩
      · by_cases f3 : field = "-"
        · exact Or.inr ⟨.ignore, by rw [hk, f3]; rfl,
            fun d => by subst f3; simp [parseField, hc, TokenEffect.apply]⟩
        · by_cases f4 : field = "properties"
          · exact Or.inr ⟨.properties, by rw [hk, f4]; rfl,
              fun d => by subst f4; simp [parseField, hc, TokenEffect.apply]⟩
          · by_cases f5 : field = "index"
            · exact Or.inr ⟨.index, by rw [hk, f5]; rfl,
                fun d => by subst f5; simp [parseField, hc, TokenEffect.apply]⟩
            · by_cases f6 : field = "time"
              · exact Or.inr ⟨.time, by rw [hk, f6]; rfl,
                  fun d => by subst f6; simp [parseField, hc, TokenEffect.apply]⟩
              · exact Or.inl ⟨.msg ("key '" ++ field ++ "' is not recognized"),
                  fun d => by simp [parseField, hc, f1, f2, f3, f4, f5, f6]⟩

theorem parseStep_comm (env : Env) (varType : RType) (x y : String)
    (h : tokenKey x ≠ tokenKey y) (z : Option decoratorConfig) :
    parseStep env varType (parseStep env varType z x) y =
      parseStep env varType (parseStep env varType z y) x := by
  cases z with
  | none => rfl
  | some d =>
    rcases parseField_effect env varType x with ⟨e1, hx⟩ | ⟨t1, k1, hx⟩
    · rcases parseField_effect env varType y with ⟨e2, hy⟩ | ⟨t2, k2, hy⟩
      · simp [parseStep, hx, hy, Except.toOption]
      · simp [parseStep, hx, hy, Except.toOption]
    · rcases parseField_effect env varType y with ⟨e2, hy⟩ | ⟨t2, k2, hy⟩
      · simp [parseStep, hx, hy, Except.toOption]
      · have hk : t2.key ≠ t1.key := by
          rw [k1, k2]
          exact fun a => h a.symm
        simp [parseStep, hx, hy, Except.toOption, TokenEffect.apply_comm t2 t1 hk d]

theorem foldl_parseStep_none (env : Env) (varType : RType) (fields : List String) :
    fields.foldl (parseStep env varType) none = none := by
  induction fields with
  | nil => rfl
  | cons f rest ih => simpa [parseStep] using ih

/-- The token loop, forgetting which error it returns, is a fold of `parseStep`. -/
theorem parseFields_toOption (env : Env) (varType : RType) (fields : List String) :
    ∀ d, (parseFields env varType fields d).toOption =
      fields.foldl (parseStep env varType) (some d) := by
  induction fields with
  | nil => intro d; rfl
  | cons f rest ih =>
    intro d
    simp only [parseFields, List.foldl_cons]
    cases hf : parseField env varType d f with
    | error e =>
      simp only [parseStep, Option.some_bind, hf, Except.toOption]
      exact (foldl_parseStep_none env varType rest).symm
    | ok d1 =>
      simp only [parseStep, Option.some_bind, hf, Except.toOption]
      exact ih d1

theorem decoratorConfig.Equals_self (c : decoratorConfig) : c.Equals (some c) = true := by
  simp [decoratorConfig.Equals]

/-- C34: for two tags whose `;`-separated tokens are the same up to their order, no key
or flag occurring twice among them, `newDecoratorConfig` fails on both tags or returns
for both the same config, which `Equals` reports equal. -/
theorem newDecoratorConfig_token_order (env : Env) (d1 d2 name : String) (varType : RType)
    (hperm : (Split d1 ';').Perm (Split d2 ';'))
    (hkeys : ((Split d1 ';').map tokenKey).Nodup) :
    (∃ e1 e2, newDecoratorConfig env d1 name varType = .error e1 ∧
        newDecoratorConfig env d2 name varType = .error e2) ∨
      (∃ c1 c2, newDecoratorConfig env d1 name varType = .ok c1 ∧
        newDecoratorConfig env d2 name varType = .ok c2 ∧
        c1.Equals (some c2) = true ∧ c1 = c2) := by
  have hl1 : ¬ (Split d1 ';').length = 0 := by
    simp only [Split, List.length_map, splitChars_length]
    omega
  have hl2 : ¬ (Split d2 ';').length = 0 := by
    simp only [Split, List.length_map, splitChars_length]
    omega
  have hcomm : ∀ x ∈ Split d1 ';', ∀ y ∈ Split d1 ';', ∀ z,
      parseStep env varType (parseStep env varType z x) y =
        parseStep env varType (parseStep env varType z y) x := by
    intro x hx y hy z
    by_cases hxy : x = y
    · rw [hxy]
    · exact parseStep_comm env varType x y
        (fun hk => hxy (List.inj_on_of_nodup_map hkeys hx hy hk)) z
  have hopt : (tokenLoop env d1 name varType).toOption =
      (tokenLoop env d2 name varType).toOption := by
    unfold tokenLoop
    rw [parseFields_toOption, parseFields_toOption]
    exact hperm.foldl_eq' hcomm _
  cases h1 : tokenLoop env d1 name varType with
  | error e1 =>
    cases h2 : tokenLoop env d2 name varType with
    | error e2 =>
      left
      unfold tokenLoop at h1 h2
      exact ⟨e1, e2, by simp only [newDecoratorConfig, hl1, if_false, h1],
        by simp only [newDecoratorConfig, hl2, if_false, h2]⟩
    | ok c2 =>
      rw [h1, h2] at hopt
      cases hopt
  | ok c1 =>
    cases h2 : tokenLoop env d2 name varType with
    | error e2 =>
      rw [h1, h2] at hopt
      cases hopt
    | ok c2 =>
      rw [h1, h2] at hopt
      have hc : c1 = c2 := by
        simpa [Except.toOption] using hopt
      subst hc
      unfold tokenLoop at h1 h2
      have heq : newDecoratorConfig env d1 name varType =
          newDecoratorConfig env d2 name varType := by
        simp only [newDecoratorConfig, hl1, hl2, if_false, h1, h2]
      cases hn : newDecoratorConfig env d1 name varType with
      | error e =>
        left
        exact ⟨e, e, rfl, by rw [← heq, hn]⟩
      | ok c =>
        right
        exact ⟨c, c, rfl, by rw [← heq, hn], decoratorConfig.Equals_self c, rfl⟩

theorem newDecoratorConfig_token_order_witness :
    ∃ c1 c2, newDecoratorConfig sampleEnv "direction=incoming;relationship=CURRICULUM"
        "Subjects" sampleSubjectsType = .ok c1 ∧
      newDecoratorConfig sampleEnv "relationship=CURRICULUM;direction=incoming"
        "Subjects" sampleSubjectsType = .ok c2 ∧
      c1.Equals (some c2) = true ∧ c1 = c2 := by
  rcases newDecoratorConfig_token_order sampleEnv
      "direction=incoming;relationship=CURRICULUM"
      "relationship=CURRICULUM;direction=incoming" "Subjects" sampleSubjectsType
      (by decide) (by decide) with ⟨e1, _, h, _⟩ | h
  · have hok : newDecoratorConfig sampleEnv "direction=incoming;relationship=CURRICULUM"
        "Subjects" sampleSubjectsType =
        .ok (sampleRelation "Subjects" "CURRICULUM" 1 sampleSubjectsType true) := rfl
    rw [hok] at h
    cases h
  · exact h

end Gogm
